import Mathlib

/-!
# s21_tetris: the game engine, embedded in Lean

A shallow embedding of `src/brick_game/tetris` (bricks/repository.c,
utils/utils.c, tetris.c, fsm.c).  C `int` values are `Int`; the conversions
between `int` and `size_t` are `toSizeT` and `toInt`, so the score, which
`__tick` adds to in `size_t` and stores back as `int`, wraps as in the code; a
pointer into the repository's `items` array is an index; an unguarded array
write that leaves the allocated matrix, a dangling brick pointer and a loop that
runs out of fuel are `none`.
-/

namespace BrickGame

/-! ## Constants (bricks.h, tetris.h) -/

/-- Constant `BRICK_HEIGHT` of bricks.h. -/
@[reducible] def BRICK_HEIGHT : Int := 4

/-- Constant `BRICK_WIDTH` of bricks.h. -/
@[reducible] def BRICK_WIDTH : Int := 4

/-- Constant `TETRIS_FIELD_WIDTH` of tetris.h. -/
@[reducible] def TETRIS_FIELD_WIDTH : Int := 10

/-- Constant `TETRIS_FIELD_HEIGHT` of tetris.h. -/
@[reducible] def TETRIS_FIELD_HEIGHT : Int := 20

/-- Conversion of an `int` to the unsigned 64-bit `size_t` of a return value. -/
def toSizeT (v : Int) : Int := v % 2 ^ 64

/-- Conversion of a `size_t` to the 32-bit `int` it is assigned to. -/
def toInt (v : Int) : Int := (v + 2 ^ 31) % 2 ^ 32 - 2 ^ 31

/-! ## Bricks (bricks.h, repository.c) -/

/-- Struct `BrickPosition`: the anchor of a brick on the field. -/
structure BrickPosition where
  x : Int
  y : Int
deriving DecidableEq, Repr

/-- Struct `Brick`: `states[s][row][col]` is the occupancy mask of rotation state `s`.
The two function pointers of the C struct are always bound to `_next_state`
and `_prev_state` and are not stored. -/
structure Brick where
  pos : BrickPosition
  color : Int
  state : Int
  states : List (List (List Int))
  total_states : Int
deriving DecidableEq, Repr

/-- The entry `brick->states[brick->state][row][col]`.  The C array is
`int[4][4][4]`, zero where the initialiser is silent. -/
def Brick.mask (b : Brick) (row col : Nat) : Int :=
  ((b.states.getD b.state.toNat []).getD row []).getD col 0

/-- Function `_next_state` of repository.c. -/
def _next_state (self : Brick) : Brick :=
  if self.state + 1 < self.total_states then
    { self with state := self.state + 1 }
  else
    { self with state := 0 }

/-- Function `_prev_state` of repository.c. -/
def _prev_state (self : Brick) : Brick :=
  if self.state = 0 then
    { self with state := self.total_states - 1 }
  else
    { self with state := self.state - 1 }

/-! ## Scoring and levelling (utils.c) -/

/-- Function `get_reward_count` of utils.c. -/
def get_reward_count (ereased_lines : Int) : Int :=
  let rewards : List Int := [100, 300, 700, 1500]
  let reward : Int :=
    if ereased_lines > 0 then
      (if ereased_lines ≥ 4 then rewards.getD 3 0
       else rewards.getD (ereased_lines - 1).toNat 0)
    else 0
  toSizeT reward

/-- Function `get_level_by_score` of utils.c; `/` of C truncates towards zero. -/
def get_level_by_score (score : Int) : Int :=
  let score_per_lvl : Int := 600
  let lvl : Int := score.tdiv score_per_lvl
  let lvl : Int := if lvl = 0 then 1 else if lvl > 10 then 10 else lvl
  toSizeT lvl

/-! ## The field (tetris.c) -/

/-- The `int **` matrix of the field, `matrix[row][col]`. -/
abbrev Grid := List (List Int)

/-- The matrix `create_matrix(TETRIS_FIELD_HEIGHT, TETRIS_FIELD_WIDTH)` allocates:
20 rows of 10 columns. -/
def wfGrid (m : Grid) : Prop :=
  m.length = 20 ∧ ∀ row ∈ m, row.length = 10

instance (m : Grid) : Decidable (wfGrid m) := by
  unfold wfGrid; infer_instance

/-- The read `matrix[row][col]`. -/
def cell (m : Grid) (row col : Int) : Int :=
  (m.getD row.toNat []).getD col.toNat 0

/-- The write `matrix[row][col] = v`; `none` when it leaves the matrix. -/
def setCell (m : Grid) (row col v : Int) : Option Grid :=
  if 0 ≤ row ∧ row < m.length ∧ 0 ≤ col ∧ col < (m.getD row.toNat []).length then
    some (m.set row.toNat ((m.getD row.toNat []).set col.toNat v))
  else
    none

/-- Function `is_collide` of tetris.c: both loops stop as soon as `result` is set. -/
def is_collide (matrix : Grid) (brick : Brick) : Bool :=
  let x := brick.pos.x
  let y := brick.pos.y
  (List.range 4).foldl (fun result row =>
    if result then result else
      (List.range 4).foldl (fun result col =>
        if result then result else
          if brick.mask row col ≠ 0 then
            let matrix_pos_x := x + (-BRICK_WIDTH).tdiv 2 + (col : Int)
            let matrix_pos_y := y + ((-BRICK_HEIGHT).tdiv 2 + 1) + (row : Int)
            if matrix_pos_x < 0 ∨ matrix_pos_x ≥ TETRIS_FIELD_WIDTH then true
            else if matrix_pos_y < 0 ∨ matrix_pos_y ≥ TETRIS_FIELD_HEIGHT then true
            else decide (cell matrix matrix_pos_y matrix_pos_x ≠ 0)
          else result) result) false

/-- Function `remove_brick` of tetris.c: zero every field cell under the current mask.
The writes are not guarded in the source. -/
def remove_brick (matrix : Grid) (brick : Brick) : Option Grid :=
  let x := brick.pos.x
  let y := brick.pos.y
  (List.range 4).foldlM (fun (m : Grid) (row : Nat) =>
    (List.range 4).foldlM (fun (m : Grid) (col : Nat) =>
      if brick.mask row col ≠ 0 then
        let brick_in_matrix_pos_x := x + (-BRICK_WIDTH).tdiv 2 + (col : Int)
        let brick_in_matrix_pos_y := y + (-BRICK_HEIGHT).tdiv 2 + 1 + (row : Int)
        setCell m brick_in_matrix_pos_y brick_in_matrix_pos_x 0
      else some m) m) matrix

/-- Function `place_brick` of tetris.c: write the colour into every field cell under the
current mask.  The writes are not guarded in the source. -/
def place_brick (matrix : Grid) (brick : Brick) : Option Grid :=
  let x := brick.pos.x
  let y := brick.pos.y
  (List.range 4).foldlM (fun (m : Grid) (row : Nat) =>
    (List.range 4).foldlM (fun (m : Grid) (col : Nat) =>
      if brick.mask row col ≠ 0 then
        let brick_in_matrix_pos_x := x + (-BRICK_WIDTH).tdiv 2 + (col : Int)
        let brick_in_matrix_pos_y := y + ((-BRICK_HEIGHT).tdiv 2 + 1) + (row : Int)
        setCell m brick_in_matrix_pos_y brick_in_matrix_pos_x brick.color
      else some m) m) matrix

/-- The inner loop of `shift_ereased`: `matrix[row][col] = matrix[row - 1][col]`
for `col` in `0..9`. -/
def shift_row (matrix : Grid) (row : Int) : Option Grid :=
  (List.range 10).foldlM (fun (m : Grid) (col : Nat) =>
    setCell m row col (cell m (row - 1) col)) matrix

/-- The outer loop of `shift_ereased`, `for (; row >= 1; row--)`, started at
row `n`. -/
def shift_rows : Nat → Grid → Option Grid
  | 0, m => some m
  | n + 1, m => (shift_row m ((n : Int) + 1)).bind (shift_rows n)

/-- Function `shift_ereased` of tetris.c. -/
def shift_ereased (matrix : Grid) (row : Int) : Option Grid :=
  (shift_rows row.toNat matrix).bind (fun m =>
    (List.range 10).foldlM (fun (m : Grid) (col : Nat) => setCell m 0 col 0) m)

/-- The count `populated` of non-zero cells of a row, as `erase_lines` takes it. -/
def populated (matrix : Grid) (row : Int) : Int :=
  (List.range 10).foldl (fun (p : Int) (col : Nat) =>
    if cell matrix row col ≠ 0 then p + 1 else p) 0

/-- The loop of `erase_lines`, `for (row = 19; row >= 0; row--)`, with the
`row++` of a cleared row; `fuel` bounds the number of iterations. -/
def erase_lines_loop : Nat → Grid → Int → Int → Option (Grid × Int)
  | 0, _, _, _ => none
  | fuel + 1, matrix, row, erase_count =>
    if row ≥ 0 then
      if populated matrix row = TETRIS_FIELD_WIDTH then
        (shift_ereased matrix row).bind (fun m =>
          erase_lines_loop fuel m (row + 1 - 1) (erase_count + 1))
      else
        erase_lines_loop fuel matrix (row - 1) erase_count
    else
      some (matrix, erase_count)

/-- Function `erase_lines` of tetris.c: the new field and the number of erased lines. -/
def erase_lines (fuel : Nat) (matrix : Grid) : Option (Grid × Int) :=
  erase_lines_loop fuel matrix (TETRIS_FIELD_HEIGHT - 1) 0

/-! ## The engine (tetris.h, tetris.c) -/

/-- Enum `TetriState` of tetris.h. -/
inductive TetriState where
  | TETRIS_READY_STATE
  | TETRIS_SPAWN_STATE
  | TETRIS_MOVING_STATE
  | TETRIS_ATTACH_STATE
  | TETRIS_GAMEOVER_STATE
  | TETRIS_PAUSE_STATE
  | TETRIS_TERMINATED_STATE
deriving DecidableEq, Repr

/-- Struct `GameInfo_t` of tetris.h. -/
structure GameInfo_t where
  field : Grid
  next : Grid
  score : Int
  high_score : Int
  level : Int
  speed : Int
  pause : Int
deriving DecidableEq, Repr

/-- Struct `TetrisBrickRepository` of bricks.h: `items_count` is the length of `items`;
`last_index` is the static variable of `_get_random`. -/
structure TetrisBrickRepository where
  items : List Brick
  last_index : Int
deriving DecidableEq, Repr

/-- Struct `TetrisData` of tetris.h: a `Brick *` is the index of the repository item it
points to, `none` for `NULL`. -/
structure TetrisData where
  info : GameInfo_t
  current_brick : Option Nat
  next_brick : Option Nat
deriving DecidableEq, Repr

/-- Struct `Tetris` of tetris.h, without the method table and the timer (the outcome of
`timer.tick` is an input of the tick). -/
structure Tetris where
  state : TetriState
  data : TetrisData
  repository : TetrisBrickRepository
deriving DecidableEq, Repr

/-- Dereference of a brick pointer; `none` when it points outside `items`. -/
def Tetris.brickAt (self : Tetris) (i : Nat) : Option Brick :=
  self.repository.items[i]?

/-- The engine after the brick behind pointer `i` and the field were written. -/
def Tetris.store (self : Tetris) (i : Nat) (brick : Brick) (field : Grid) : Tetris :=
  { self with
    data := { self.data with info := { self.data.info with field := field } }
    repository := { self.repository with items := self.repository.items.set i brick } }

/-- Function `_left` of tetris.c. -/
def _left (self : Tetris) (_hold : Bool) : Option Tetris :=
  match self.data.current_brick with
  | none => some self
  | some i =>
    (self.brickAt i).bind (fun brick =>
      (remove_brick self.data.info.field brick).bind (fun field =>
        let brick := { brick with pos := { brick.pos with x := brick.pos.x - 1 } }
        let brick :=
          if is_collide field brick then
            { brick with pos := { brick.pos with x := brick.pos.x + 1 } }
          else brick
        (place_brick field brick).bind (fun field =>
          some (self.store i brick field))))

/-- Function `_right` of tetris.c. -/
def _right (self : Tetris) (_hold : Bool) : Option Tetris :=
  match self.data.current_brick with
  | none => some self
  | some i =>
    (self.brickAt i).bind (fun brick =>
      (remove_brick self.data.info.field brick).bind (fun field =>
        let brick := { brick with pos := { brick.pos with x := brick.pos.x + 1 } }
        let brick :=
          if is_collide field brick then
            { brick with pos := { brick.pos with x := brick.pos.x - 1 } }
          else brick
        (place_brick field brick).bind (fun field =>
          some (self.store i brick field))))

/-- Function `_action` of tetris.c. -/
def _action (self : Tetris) (_hold : Bool) : Option Tetris :=
  match self.data.current_brick with
  | none => some self
  | some i =>
    (self.brickAt i).bind (fun brick =>
      (remove_brick self.data.info.field brick).bind (fun field =>
        let brick := _next_state brick
        let brick := if is_collide field brick then _prev_state brick else brick
        (place_brick field brick).bind (fun field =>
          some (self.store i brick field))))

/-- The loop `while (is_collided != is_collide(field, brick)) brick->pos.y++;`
of `_down`, entered with `is_collided == true`; `fuel` bounds the iterations. -/
def drop_loop : Nat → Grid → Brick → Option Brick
  | 0, _, _ => none
  | fuel + 1, field, brick =>
    if true != is_collide field brick then
      drop_loop fuel field { brick with pos := { brick.pos with y := brick.pos.y + 1 } }
    else
      some brick

/-- Function `_down` of tetris.c. -/
def _down (fuel : Nat) (self : Tetris) (hold : Bool) : Option Tetris :=
  match self.data.current_brick with
  | none => some self
  | some i =>
    (self.brickAt i).bind (fun brick =>
      (remove_brick self.data.info.field brick).bind (fun field =>
        let moved : Option (Brick × Bool) :=
          if !hold then
            let brick := { brick with pos := { brick.pos with y := brick.pos.y + 1 } }
            let is_collided := is_collide field brick
            if is_collided then
              some ({ brick with pos := { brick.pos with y := brick.pos.y - 1 } }, is_collided)
            else some (brick, is_collided)
          else
            (drop_loop fuel field brick).bind (fun brick =>
              some ({ brick with pos := { brick.pos with y := brick.pos.y - 1 } }, true))
        moved.bind (fun (brick, is_collided) =>
          (place_brick field brick).bind (fun field =>
            let self := self.store i brick field
            if is_collided then
              some { self with
                state := TetriState.TETRIS_ATTACH_STATE
                data := { self.data with current_brick := none } }
            else some self))))

/-! ## The standard catalog (repository.c) -/

/-- Function `_create` of repository.c: append a brick to `items`. -/
def _create (self : TetrisBrickRepository) (brick : Brick) : TetrisBrickRepository :=
  { self with items := self.items ++ [brick] }

/-- Function `new_brick_repository` of repository.c; the static `last_index` of
`_get_random` starts at 0. -/
def new_brick_repository : TetrisBrickRepository :=
  { items := [], last_index := 0 }

/-- The I brick of `populate_repo_defaults`. -/
def brickI : Brick :=
  { pos := ⟨0, 0⟩, color := 1, state := 0, total_states := 2,
    states := [[[0, 0, 0, 0], [1, 1, 1, 1], [0, 0, 0, 0], [0, 0, 0, 0]],
               [[0, 0, 1, 0], [0, 0, 1, 0], [0, 0, 1, 0], [0, 0, 1, 0]]] }

/-- The O brick of `populate_repo_defaults`. -/
def brickO : Brick :=
  { pos := ⟨0, 0⟩, color := 4, state := 0, total_states := 1,
    states := [[[0, 0, 0, 0], [0, 1, 1, 0], [0, 1, 1, 0], [0, 0, 0, 0]]] }

/-- The S brick of `populate_repo_defaults`. -/
def brickS : Brick :=
  { pos := ⟨0, 0⟩, color := 5, state := 0, total_states := 2,
    states := [[[0, 0, 0, 0], [0, 0, 1, 1], [0, 1, 1, 0], [0, 0, 0, 0]],
               [[0, 0, 1, 0], [0, 0, 1, 1], [0, 0, 0, 1], [0, 0, 0, 0]]] }

/-- The Z brick of `populate_repo_defaults`. -/
def brickZ : Brick :=
  { pos := ⟨0, 0⟩, color := 6, state := 0, total_states := 2,
    states := [[[0, 0, 0, 0], [0, 1, 1, 0], [0, 0, 1, 1], [0, 0, 0, 0]],
               [[0, 0, 0, 1], [0, 0, 1, 1], [0, 0, 1, 0], [0, 0, 0, 0]]] }

/-- The L brick of `populate_repo_defaults`. -/
def brickL : Brick :=
  { pos := ⟨0, 0⟩, color := 3, state := 0, total_states := 4,
    states := [[[0, 0, 0, 0], [0, 1, 1, 1], [0, 1, 0, 0], [0, 0, 0, 0]],
               [[0, 0, 1, 0], [0, 0, 1, 0], [0, 0, 1, 1], [0, 0, 0, 0]],
               [[0, 0, 0, 1], [0, 1, 1, 1], [0, 0, 0, 0], [0, 0, 0, 0]],
               [[0, 1, 1, 0], [0, 0, 1, 0], [0, 0, 1, 0], [0, 0, 0, 0]]] }

/-- The J brick of `populate_repo_defaults`. -/
def brickJ : Brick :=
  { pos := ⟨0, 0⟩, color := 2, state := 0, total_states := 4,
    states := [[[0, 0, 0, 0], [0, 1, 1, 1], [0, 0, 0, 1], [0, 0, 0, 0]],
               [[0, 0, 1, 1], [0, 0, 1, 0], [0, 0, 1, 0], [0, 0, 0, 0]],
               [[0, 1, 0, 0], [0, 1, 1, 1], [0, 0, 0, 0], [0, 0, 0, 0]],
               [[0, 0, 1, 0], [0, 0, 1, 0], [0, 1, 1, 0], [0, 0, 0, 0]]] }

/-- The T brick of `populate_repo_defaults`. -/
def brickT : Brick :=
  { pos := ⟨0, 0⟩, color := 7, state := 0, total_states := 4,
    states := [[[0, 0, 0, 0], [0, 1, 1, 1], [0, 0, 1, 0], [0, 0, 0, 0]],
               [[0, 0, 1, 0], [0, 0, 1, 1], [0, 0, 1, 0], [0, 0, 0, 0]],
               [[0, 0, 1, 0], [0, 1, 1, 1], [0, 0, 0, 0], [0, 0, 0, 0]],
               [[0, 0, 1, 0], [0, 1, 1, 0], [0, 0, 1, 0], [0, 0, 0, 0]]] }

/-- Function `populate_repo_defaults` of repository.c: I, O, S, Z, L, J, T. -/
def populate_repo_defaults (repo : TetrisBrickRepository) : TetrisBrickRepository :=
  [brickI, brickO, brickS, brickZ, brickL, brickJ, brickT].foldl _create repo

/-- Function `create_matrix` of utils.c: `calloc` leaves every cell zero. -/
def create_matrix (rows cols : Nat) : Grid :=
  List.replicate rows (List.replicate cols 0)

/-- The first custom brick of `_populate_custom`. -/
def brickCustom1 : Brick :=
  { pos := ⟨0, 0⟩, color := 4, state := 0, total_states := 4,
    states := [[[0, 0, 0, 0], [1, 1, 1, 1], [1, 1, 1, 1], [1, 1, 1, 1]],
               [[0, 0, 0, 0], [0, 1, 1, 1], [0, 1, 1, 1], [0, 1, 1, 1]],
               [[0, 0, 0, 0], [0, 1, 1, 0], [0, 1, 1, 0], [0, 1, 1, 0]],
               [[0, 0, 0, 0], [1, 1, 1, 0], [1, 1, 1, 0], [1, 1, 1, 0]]] }

/-- The second custom brick of `_populate_custom`. -/
def brickCustom2 : Brick :=
  { pos := ⟨0, 0⟩, color := 6, state := 0, total_states := 2,
    states := [[[0, 0, 0, 0], [1, 1, 1, 1], [0, 1, 1, 0], [1, 0, 0, 1]],
               [[0, 0, 0, 0], [0, 1, 1, 0], [1, 0, 0, 1], [0, 1, 1, 0]]] }

/-- Function `_populate_custom` of repository.c. -/
def _populate_custom (self : TetrisBrickRepository) : TetrisBrickRepository :=
  [brickCustom1, brickCustom2].foldl _create self

/-- Function `_get` of repository.c: the item behind `index`, with its rotation
state and position reset.  `NULL` (`none` inside) when `items` is `NULL`, that is
when nothing was registered; an index outside `items` is an invalid access. -/
def _get (self : TetrisBrickRepository) (index : Int) :
    Option (TetrisBrickRepository × Option Nat) :=
  if self.items = [] then some (self, none)
  else if 0 ≤ index ∧ index < self.items.length then
    (self.items[index.toNat]?).bind (fun item =>
      some ({ self with
              items := self.items.set index.toNat { item with state := 0, pos := ⟨0, 0⟩ } },
            some index.toNat))
  else none

/-- The loop `do { index = rand() % items_count; } while (index == last_index &&
items_count > 1)` of `_get_random`.  The list holds the values the next calls of
`rand()` return; the result is the index and the values left.  `none` when the
values run out before the loop ends, and for the division by `items_count = 0`. -/
def get_random_loop (items_count : Nat) (last_index : Int) : List Nat → Option (Int × List Nat)
  | [] => none
  | r :: rest =>
    if items_count = 0 then none
    else
      let index : Int := ((r % items_count : Nat) : Int)
      if index = last_index ∧ items_count > 1 then
        get_random_loop items_count last_index rest
      else some (index, rest)

/-- Function `_get_random` of repository.c. -/
def _get_random (self : TetrisBrickRepository) (rand : List Nat) :
    Option ((TetrisBrickRepository × Option Nat) × List Nat) :=
  (get_random_loop self.items.length self.last_index rand).bind (fun r =>
    (_get { self with last_index := r.1 } r.1).bind (fun g => some (g, r.2)))

/-! ## Spawn, start, pause, terminate, tick (tetris.c) and dispatch (fsm.c) -/

/-- Enum `UserAction_t` of tetris.h. -/
inductive UserAction_t where
  | Start
  | Pause
  | Terminate
  | Left
  | Right
  | Up
  | Down
  | Action
deriving DecidableEq, Repr

/-- Function `clear_tetris_fields` of tetris.c. -/
def clear_tetris_fields (field : Grid) : Option Grid :=
  (List.range 20).foldlM (fun (m : Grid) (row : Nat) =>
    (List.range 10).foldlM (fun (m : Grid) (col : Nat) => setCell m row col 0) m) field

/-- The loop "populate next dto" of `__spawn`: the preview of the brick `brick`. -/
def populate_next (next : Grid) (brick : Brick) : Option Grid :=
  (List.range 4).foldlM (fun (m : Grid) (row : Nat) =>
    (List.range 4).foldlM (fun (m : Grid) (col : Nat) =>
      if brick.mask row col ≠ 0 then setCell m row col brick.color
      else setCell m row col 0) m) next

/-- The end of `__spawn`, once `current_brick = c` and `next_brick = k` point into
the repository `repo`: preview, spawn anchor, collision test. -/
def spawn_place (self : Tetris) (repo : TetrisBrickRepository) (c k : Nat) : Option Tetris :=
  (repo.items[k]?).bind (fun next_brick =>
    (populate_next self.data.info.next next_brick).bind (fun next =>
      (repo.items[c]?).bind (fun current_brick =>
        let current_brick :=
          { current_brick with pos := { x := TETRIS_FIELD_WIDTH.tdiv 2, y := 0 } }
        let repo := { repo with items := repo.items.set c current_brick }
        if !is_collide self.data.info.field current_brick then
          (place_brick self.data.info.field current_brick).bind (fun field =>
            some
              { state := TetriState.TETRIS_MOVING_STATE
                data :=
                  { info := { self.data.info with field := field, next := next }
                    current_brick := some c
                    next_brick := some k }
                repository := repo })
        else
          some
            { state := TetriState.TETRIS_GAMEOVER_STATE
              data :=
                { info := { self.data.info with next := next, pause := -1 }
                  current_brick := some c
                  next_brick := some k }
              repository := repo })))

/-- Function `__spawn` of tetris.c; `rand` holds the values of the coming calls of
`rand()`, the values left are returned.  A `NULL` brick pointer is not
dereferenced in the model: `none`. -/
def __spawn (self : Tetris) (rand : List Nat) : Option (Tetris × List Nat) :=
  let queued : Option ((TetrisBrickRepository × Option Nat) × List Nat) :=
    match self.data.next_brick with
    | none => _get_random self.repository rand
    | some j => some ((self.repository, some j), rand)
  queued.bind (fun q =>
    (_get_random q.1.1 q.2).bind (fun g =>
      match q.1.2, g.1.2 with
      | some c, some k => (spawn_place self g.1.1 c k).bind (fun t => some (t, g.2))
      | _, _ => none))

/-- Function `_on_startup` of tetris.c; `stored` is what `read_highscore_from_file`
returns. -/
def _on_startup (self : Tetris) (stored : Int) : Tetris :=
  { self with data := { self.data with info := { self.data.info with high_score := stored } } }

/-- Function `_up` of tetris.c. -/
def _up (self : Tetris) (_hold : Bool) : Tetris := self

/-- Function `_start` of tetris.c. -/
def _start (self : Tetris) (stored : Int) (rand : List Nat) : Option (Tetris × List Nat) :=
  let self :=
    if self.state = TetriState.TETRIS_READY_STATE then _on_startup self stored else self
  let cleared : Option Tetris :=
    if self.state = TetriState.TETRIS_GAMEOVER_STATE then
      (clear_tetris_fields self.data.info.field).bind (fun field =>
        some { self with
          data := { self.data with
            info := { self.data.info with field := field, level := 1, score := 0, pause := 0 } } })
    else some self
  cleared.bind (fun self => __spawn self rand)

/-- Function `_pause` of tetris.c. -/
def _pause (self : Tetris) : Tetris :=
  if self.data.info.pause ≠ 0 then
    { self with
      state := TetriState.TETRIS_MOVING_STATE
      data := { self.data with info := { self.data.info with pause := 0 } } }
  else
    { self with
      state := TetriState.TETRIS_PAUSE_STATE
      data := { self.data with info := { self.data.info with pause := 1 } } }

/-- Function `_terminate` of tetris.c; the write of the high score file by
`on_shutdown` is outside the engine state. -/
def _terminate (self : Tetris) : Tetris :=
  { self with state := TetriState.TETRIS_TERMINATED_STATE }

/-- The statement `score += get_reward_count(ereased)` of `__tick`: `score` is an
`int` and the reward a `size_t`, so the sum is taken in `size_t` and converted
back to `int`. -/
def add_reward (score reward : Int) : Int :=
  toInt (toSizeT (toSizeT score + reward))

/-- Function `__tick` of tetris.c.  `is_ticked` is what `timer.tick` returns and
`speed` the value of the floating-point product `timeout_sec * 1000` as an `int`;
both are inputs.  The write of the high score file is outside the engine state. -/
def __tick (fuel : Nat) (self : Tetris) (is_ticked : Bool) (speed : Int) (rand : List Nat) :
    Option (Tetris × List Nat) :=
  let self : Tetris :=
    { self with
      data := { self.data with
        info := { self.data.info with
          level := toInt (get_level_by_score self.data.info.score), speed := speed } } }
  if is_ticked && decide (self.state = TetriState.TETRIS_MOVING_STATE) then
    (_down fuel self false).bind (fun t => some (t, rand))
  else if self.state = TetriState.TETRIS_ATTACH_STATE then
    (erase_lines fuel self.data.info.field).bind (fun e =>
      let ereased := e.2
      let score := add_reward self.data.info.score (get_reward_count ereased)
      let high_score := if score > self.data.info.high_score then score else self.data.info.high_score
      __spawn
        { self with
          data := { self.data with
            info := { self.data.info with
              field := e.1, score := score, high_score := high_score } } }
        rand)
  else some (self, rand)

/-- Function `new_tetris` of tetris.c. -/
def new_tetris (repository : TetrisBrickRepository) : Tetris :=
  { state := TetriState.TETRIS_READY_STATE
    data :=
      { info :=
          { field := create_matrix 20 10
            next := create_matrix 4 4
            score := 0
            high_score := 0
            level := 1
            speed := 0
            pause := 0 }
        current_brick := none
        next_brick := none }
    repository := repository }

/-- Function `dispatch` of fsm.c, on the engine `provide_tetris` returns. -/
def dispatch (fuel : Nat) (tetris : Tetris) (action : UserAction_t) (hold : Bool)
    (stored : Int) (rand : List Nat) : Option (Tetris × List Nat) :=
  match tetris.state with
  | TetriState.TETRIS_READY_STATE =>
    match action with
    | UserAction_t.Start => _start tetris stored rand
    | UserAction_t.Terminate => some (_terminate tetris, rand)
    | _ => some (tetris, rand)
  | TetriState.TETRIS_SPAWN_STATE =>
    match action with
    | UserAction_t.Pause => some (_pause tetris, rand)
    | UserAction_t.Terminate => some (_terminate tetris, rand)
    | _ => some (tetris, rand)
  | TetriState.TETRIS_MOVING_STATE =>
    match action with
    | UserAction_t.Left => (_left tetris hold).bind (fun t => some (t, rand))
    | UserAction_t.Right => (_right tetris hold).bind (fun t => some (t, rand))
    | UserAction_t.Up => some (_up tetris hold, rand)
    | UserAction_t.Down => (_down fuel tetris hold).bind (fun t => some (t, rand))
    | UserAction_t.Action => (_action tetris hold).bind (fun t => some (t, rand))
    | UserAction_t.Pause => some (_pause tetris, rand)
    | UserAction_t.Terminate => some (_terminate tetris, rand)
    | _ => some (tetris, rand)
  | TetriState.TETRIS_PAUSE_STATE =>
    match action with
    | UserAction_t.Start => some (_pause tetris, rand)
    | UserAction_t.Pause => some (_pause tetris, rand)
    | UserAction_t.Terminate => some (_terminate tetris, rand)
    | _ => some (tetris, rand)
  | TetriState.TETRIS_GAMEOVER_STATE =>
    match action with
    | UserAction_t.Start => _start tetris stored rand
    | UserAction_t.Terminate => some (_terminate tetris, rand)
    | _ => some (tetris, rand)
  | _ => some (tetris, rand)

/-! ## Sample inputs -/

/-- The empty field of a new engine. -/
def emptyField : Grid := create_matrix 20 10

/-- An engine in phase MOVING over the standard catalog whose item `i` is the
active piece `b`, painted over the settled cells `s`. -/
def sampleEngine (s : Grid) (i : Nat) (b : Brick) : Tetris :=
  { state := TetriState.TETRIS_MOVING_STATE
    data :=
      { info :=
          { field := (place_brick s b).getD s
            next := create_matrix 4 4
            score := 0
            high_score := 0
            level := 1
            speed := 0
            pause := 0 }
        current_brick := some i
        next_brick := none }
    repository :=
      { items := (populate_repo_defaults new_brick_repository).items.set i b
        last_index := (i : Int) } }

/-- A brick whose only mask has no occupied cell. -/
def blankBrick : Brick :=
  { pos := ⟨5, 0⟩, color := 1, state := 0, total_states := 1,
    states := [[[0, 0, 0, 0], [0, 0, 0, 0], [0, 0, 0, 0], [0, 0, 0, 0]]] }

/-- A field whose bottom row alone is full. -/
def oneFullRowField : Grid :=
  List.replicate 18 (List.replicate 10 0) ++
    [[0, 2, 0, 0, 0, 0, 0, 0, 0, 3], [4, 4, 4, 4, 4, 4, 4, 4, 4, 4]]

/-- A field with two full rows around a row that is not full. -/
def twoFullRowsField : Grid :=
  List.replicate 17 (List.replicate 10 0) ++
    [[1, 1, 1, 1, 1, 1, 1, 1, 1, 1], [0, 2, 0, 0, 0, 0, 0, 0, 0, 3],
     [4, 4, 4, 4, 4, 4, 4, 4, 4, 4]]

/-- The catalog `provide_brick_repository` builds: the seven standard bricks. -/
def sampleCatalog : TetrisBrickRepository := populate_repo_defaults new_brick_repository

/-- A field with every cell occupied. -/
def fullField : Grid := List.replicate 20 (List.replicate 10 1)

/-- An engine without active piece over the standard catalog, in phase `state`,
with field `field`, next brick `nxt`, score 700 and high score 900. -/
def sampleIdle (state : TetriState) (field : Grid) (nxt : Option Nat) : Tetris :=
  { state := state
    data :=
      { info :=
          { field := field
            next := create_matrix 4 4
            score := 700
            high_score := 900
            level := 1
            speed := 0
            pause := 0 }
        current_brick := none
        next_brick := nxt }
    repository := sampleCatalog }

/-- An engine in phase ATTACH over the standard catalog whose field has one full
row, with score and high score 2147483600, 47 below `INT_MAX`. -/
def nearMaxEngine : Tetris :=
  { state := TetriState.TETRIS_ATTACH_STATE
    data :=
      { info :=
          { field := oneFullRowField
            next := create_matrix 4 4
            score := 2147483600
            high_score := 2147483600
            level := 10
            speed := 50
            pause := 0 }
        current_brick := none
        next_brick := some 3 }
    repository := sampleCatalog }

/-- A catalog with the T brick alone. -/
def loneCatalog : TetrisBrickRepository := _create new_brick_repository brickT

/-- A catalog with the O brick alone. -/
def squareCatalog : TetrisBrickRepository := _create new_brick_repository brickO

/-- The field whose two bottom rows hold `k` O bricks side by side from the left
wall. -/
def squaresField (k : Nat) : Grid :=
  List.replicate 18 (List.replicate 10 0) ++
    List.replicate 2 (List.replicate (2 * k) 4 ++ List.replicate (10 - 2 * k) 0)

/-! ## Auxiliary notions of the statements -/

/-- Grid coordinates `(row, col)` of the occupied cells of the current mask. -/
def brickCells (b : Brick) : List (Int × Int) :=
  (List.range 4).flatMap (fun (row : Nat) =>
    ((List.range 4).filter (fun (col : Nat) => decide (b.mask row col ≠ 0))).map
      (fun (col : Nat) => (b.pos.y + -1 + (row : Int), b.pos.x + -2 + (col : Int))))

/-- A coordinate a brick cell may not take: outside the field or occupied. -/
def cellBlocked (m : Grid) (p : Int × Int) : Bool :=
  decide (p.2 < 0 ∨ 10 ≤ p.2 ∨ p.1 < 0 ∨ 20 ≤ p.1 ∨ cell m p.1 p.2 ≠ 0)

/-- The brick placed at anchor `(x, y)`. -/
def Brick.moveTo (b : Brick) (x y : Int) : Brick :=
  { b with pos := { x := x, y := y } }

/-- The engine state in which the active piece `b`, the repository item behind
`current_brick = i`, is painted into the field: the field is the settled cells
`s`, a 20x10 grid with which `b` does not collide (so every cell of `b` is
inside the field and on an empty cell of `s`), with `b` placed on it. -/
structure Painted (t : Tetris) (s : Grid) (i : Nat) (b : Brick) : Prop where
  current : t.data.current_brick = some i
  brick : t.brickAt i = some b
  settled : wfGrid s
  free : is_collide s b = false
  painted : place_brick s b = some t.data.info.field

/-- The engine after a drop has attached the piece: phase ATTACH and
`current_brick = NULL`. -/
def Tetris.attach (self : Tetris) : Tetris :=
  { self with
    state := TetriState.TETRIS_ATTACH_STATE
    data := { self.data with current_brick := none } }

/-- The writes `matrix[p.1][p.2] = v` for the coordinates of `cells`, in order. -/
def writeCells (m : Grid) (cells : List (Int × Int)) (v : Int) : Option Grid :=
  cells.foldlM (fun (m : Grid) (p : Int × Int) => setCell m p.1 p.2 v) m

/-- The brick as `_get` hands it out: rotation state 0, position `(0, 0)`. -/
def Brick.fresh (b : Brick) : Brick :=
  { b with state := 0, pos := { x := 0, y := 0 } }

/-- The items after `_get` has handed out item `k`. -/
def handOut (items : List Brick) (k : Nat) : List Brick :=
  match items[k]? with
  | some b => items.set k b.fresh
  | none => items

/-- A matrix of `R` rows of `C` columns. -/
def dimGrid (R C : Nat) (m : Grid) : Prop :=
  m.length = R ∧ ∀ row ∈ m, row.length = C

instance (R C : Nat) (m : Grid) : Decidable (dimGrid R C m) := by
  unfold dimGrid; infer_instance

/-- The nine bricks `populate_repo_defaults` and `_populate_custom` register. -/
def catalogBricks : List Brick :=
  [brickI, brickO, brickS, brickZ, brickL, brickJ, brickT, brickCustom1, brickCustom2]

/-- The engine state as the C representation has it: the field is the 20x10
matrix and the preview the 4x4 matrix `new_tetris` allocates, and a queued next
brick points into the repository. -/
structure WfEngine (t : Tetris) : Prop where
  field : wfGrid t.data.info.field
  next : dimGrid 4 4 t.data.info.next
  queued : ∀ j, t.data.next_brick = some j → j < t.repository.items.length

/-- The random draws of a spawn of `t` on the stream `rand`: `c` is the index of
the brick that becomes current (the queued one, or a draw when none is queued),
`k` the index drawn for the new next brick, `rest` the values left. -/
def SpawnDraw (t : Tetris) (rand : List Nat) (c k : Nat) (rest : List Nat) : Prop :=
  (t.data.next_brick = some c ∧
    get_random_loop t.repository.items.length t.repository.last_index rand
      = some ((k : Int), rest)) ∨
  (t.data.next_brick = none ∧
    ∃ mid, get_random_loop t.repository.items.length t.repository.last_index rand
        = some ((c : Int), mid) ∧
      get_random_loop t.repository.items.length (c : Int) mid = some ((k : Int), rest))

/-- The repository items once a spawn of `t` has drawn `c` and `k`, before the
current brick is moved to the spawn anchor. -/
def spawnItems (t : Tetris) (c k : Nat) : List Brick :=
  match t.data.next_brick with
  | some _ => handOut t.repository.items k
  | none => handOut (handOut t.repository.items c) k

/-- The engine with `level` and `speed` rewritten, as the head of `__tick` does. -/
def Tetris.withLevelSpeed (self : Tetris) (level speed : Int) : Tetris :=
  { self with
    data := { self.data with
      info := { self.data.info with level := level, speed := speed } } }

/-- A coordinate inside the 20x10 field. -/
def inField (p : Int × Int) : Prop :=
  0 ≤ p.1 ∧ p.1 < 20 ∧ 0 ≤ p.2 ∧ p.2 < 10

instance (p : Int × Int) : Decidable (inField p) := by
  unfold inField; infer_instance

/-- A row with every column non-zero. -/
def fullRow (row : List Int) : Bool :=
  row.all (fun v => decide (v ≠ 0))

/-- The row `shift_ereased` leaves on top. -/
def zeroRow : List Int := List.replicate 10 0

/-- Down with hold = false applied again and again until the phase is ATTACH
(at least once); `fuel` bounds the number of applications. -/
def soft_drops : Nat → Tetris → Option Tetris
  | 0, _ => none
  | fuel + 1, self =>
    (_down 0 self false).bind (fun d =>
      if d.state = TetriState.TETRIS_ATTACH_STATE then some d else soft_drops fuel d)

/-- The frame of a move of the active piece behind slot `i` from the engine `t`
to the engine `t'`: with the footprint of the piece erased the field of `t'` is
`s`; preview, score, high score, level, speed, pause flag and the next-brick
pointer are those of `t`, and so is every repository slot other than `i`. -/
structure MoveFrame (t : Tetris) (s : Grid) (i : Nat) (t' : Tetris) : Prop where
  piece : ∃ b', t'.brickAt i = some b' ∧ remove_brick t'.data.info.field b' = some s
  next : t'.data.info.next = t.data.info.next
  score : t'.data.info.score = t.data.info.score
  high_score : t'.data.info.high_score = t.data.info.high_score
  level : t'.data.info.level = t.data.info.level
  speed : t'.data.info.speed = t.data.info.speed
  pause : t'.data.info.pause = t.data.info.pause
  next_brick : t'.data.next_brick = t.data.next_brick
  others : ∀ j, j ≠ i → t'.brickAt j = t.brickAt j

/-- One step of the host loop on the engine: a dispatched action or a tick.
`stored` is the content of the high score file, read by the first Start. -/
inductive Step (stored : Int) : Tetris → Tetris → Prop where
  | action (fuel : Nat) (t : Tetris) (a : UserAction_t) (hold : Bool) (rand : List Nat)
      (t' : Tetris) (rest : List Nat) :
      dispatch fuel t a hold stored rand = some (t', rest) → Step stored t t'
  | tick (fuel : Nat) (t : Tetris) (is_ticked : Bool) (speed : Int) (rand : List Nat)
      (t' : Tetris) (rest : List Nat) :
      __tick fuel t is_ticked speed rand = some (t', rest) → Step stored t t'

/-- The engine states reachable from the engine `new_tetris` builds over the
repository `repo` by dispatched actions and ticks. -/
inductive Reachable (repo : TetrisBrickRepository) (stored : Int) : Tetris → Prop where
  | fresh : Reachable repo stored (new_tetris repo)
  | step (t t' : Tetris) : Reachable repo stored t → Step stored t t' →
      Reachable repo stored t'

/-- The engine states reached from the fresh engine through states whose score
is at most `bound`. -/
inductive ReachableBelow (repo : TetrisBrickRepository) (stored : Int) (bound : Int) :
    Tetris → Prop where
  | fresh : ReachableBelow repo stored bound (new_tetris repo)
  | step (t t' : Tetris) : ReachableBelow repo stored bound t →
      t.data.info.score ≤ bound → Step stored t t' → ReachableBelow repo stored bound t'

/-- What a step from `t` to `t'` can be: a rewrite of level and speed possibly
followed by a write of one brick and the field and by the attachment of the
piece; a pause toggle; a termination; or a spawn from an engine `p` that has the
repository, the next brick and, according to the phase of `t`, the pause flag,
score and high score given (in phase ATTACH the score with a reward `r` added
as `__tick` adds it). -/
def StepShape (stored : Int) (t t' : Tetris) : Prop :=
  (∃ t0, (t0 = t ∨ ∃ l sp, t0 = t.withLevelSpeed l sp) ∧
    (t' = t0 ∨ (∃ i b g, t' = t0.store i b g) ∨
      (t.state = TetriState.TETRIS_MOVING_STATE ∧ ∃ i b g, t' = (t0.store i b g).attach))) ∨
  (t' = _pause t ∧
    (t.state = TetriState.TETRIS_SPAWN_STATE ∨ t.state = TetriState.TETRIS_MOVING_STATE ∨
      t.state = TetriState.TETRIS_PAUSE_STATE)) ∨
  t' = _terminate t ∨
  (∃ p rand rest, __spawn p rand = some (t', rest) ∧
    p.repository = t.repository ∧ p.data.next_brick = t.data.next_brick ∧
    ((t.state = TetriState.TETRIS_READY_STATE ∧ p.data.info.pause = t.data.info.pause ∧
        p.data.info.score = t.data.info.score ∧ p.data.info.high_score = stored) ∨
     (t.state = TetriState.TETRIS_GAMEOVER_STATE ∧ p.data.info.pause = 0 ∧
        p.data.info.score = 0 ∧ p.data.info.high_score = t.data.info.high_score) ∨
     (t.state = TetriState.TETRIS_ATTACH_STATE ∧ p.data.info.pause = t.data.info.pause ∧
        ∃ r : Int, 0 ≤ r ∧ r ≤ 1500 ∧ p.data.info.score = add_reward t.data.info.score r ∧
          p.data.info.high_score
            = if add_reward t.data.info.score r > t.data.info.high_score then
                add_reward t.data.info.score r
              else t.data.info.high_score)))

/-- The invariant of the reachable engine states over a repository of `n`
bricks: the repository keeps its length; a queued next brick is a slot of the
repository and the last index `_get_random` returned; with more than one brick
the current and the next brick are different slots; the phase SPAWN is never
entered; the pause flag is 0 in READY, MOVING and ATTACH, 1 in PAUSE and -1 in
GAMEOVER; in READY score and high score are still 0; and when the stored high
score is not negative, the high score is not negative and at least the score. -/
structure EngineInv (n : Nat) (stored : Int) (t : Tetris) : Prop where
  len : t.repository.items.length = n
  queued : ∀ j, t.data.next_brick = some j → j < n ∧ t.repository.last_index = (j : Int)
  distinct : 1 < n → ∀ c k, t.data.current_brick = some c → t.data.next_brick = some k → c ≠ k
  no_spawn : t.state ≠ TetriState.TETRIS_SPAWN_STATE
  running : (t.state = TetriState.TETRIS_READY_STATE ∨
      t.state = TetriState.TETRIS_MOVING_STATE ∨
      t.state = TetriState.TETRIS_ATTACH_STATE) → t.data.info.pause = 0
  paused : t.state = TetriState.TETRIS_PAUSE_STATE → t.data.info.pause = 1
  over : t.state = TetriState.TETRIS_GAMEOVER_STATE → t.data.info.pause = -1
  ready : t.state = TetriState.TETRIS_READY_STATE →
    t.data.info.score = 0 ∧ t.data.info.high_score = 0
  score : 0 ≤ stored →
    t.data.info.score ≤ t.data.info.high_score ∧ 0 ≤ t.data.info.high_score

/-- A brick as the catalogs register it and the moves keep it: the rotation
index is in `[0, total_states)` and the mask of every rotation state has an
occupied cell. -/
def GoodBrick (b : Brick) : Prop :=
  0 ≤ b.state ∧ b.state < b.total_states ∧
  ∀ st : Int, 0 ≤ st → st < b.total_states →
    ∃ r c : Nat, r < 4 ∧ c < 4 ∧ ({ b with state := st } : Brick).mask r c ≠ 0

/-- The invariant behind the in-bounds accesses: the bricks of the repository
are good, the field is 20x10, the preview 4x4, the queued brick a slot of the
repository, and in the phases MOVING and PAUSE the active piece is painted into
the field over settled cells. -/
structure PaintedInv (t : Tetris) : Prop where
  good : ∀ x ∈ t.repository.items, GoodBrick x
  wf : WfEngine t
  no_spawn : t.state ≠ TetriState.TETRIS_SPAWN_STATE
  painted : (t.state = TetriState.TETRIS_MOVING_STATE ∨
      t.state = TetriState.TETRIS_PAUSE_STATE) → ∃ s i b, Painted t s i b

/-- The outcome of a move of the painted piece `b` of slot `i` over the settled
cells `s`: the engine `t'` is `t` with a good brick `b'` that does not collide
with `s` written to slot `i` and painted over `s`, possibly attached. -/
def MovedTo (t : Tetris) (s : Grid) (i : Nat) (t' : Tetris) : Prop :=
  ∃ b' g, (t' = t.store i b' g ∨ t' = (t.store i b' g).attach) ∧ GoodBrick b' ∧
    is_collide s b' = false ∧ place_brick s b' = some g ∧ wfGrid g

/-- What a step from `t` to `t'` is: a rewrite of level and speed, possibly
followed by a move of the engine in phase MOVING; a pause toggle; a
termination; or a spawn from an engine `p` with the repository, next brick and
preview of `t` and a field that is 20x10 when the field of `t` is. -/
def StepKind (t t' : Tetris) : Prop :=
  (∃ t0, (t0 = t ∨ ∃ l sp, t0 = t.withLevelSpeed l sp) ∧
    (t' = t0 ∨
      (t.state = TetriState.TETRIS_MOVING_STATE ∧ ∃ fuel hold,
        _left t0 hold = some t' ∨ _right t0 hold = some t' ∨ _action t0 hold = some t' ∨
          _down fuel t0 hold = some t'))) ∨
  (t' = _pause t ∧
    (t.state = TetriState.TETRIS_SPAWN_STATE ∨ t.state = TetriState.TETRIS_MOVING_STATE ∨
      t.state = TetriState.TETRIS_PAUSE_STATE)) ∨
  t' = _terminate t ∨
  (∃ p rand rest, __spawn p rand = some (t', rest) ∧
    p.repository = t.repository ∧ p.data.next_brick = t.data.next_brick ∧
    p.data.info.next = t.data.info.next ∧
    (wfGrid t.data.info.field → wfGrid p.data.info.field))

/-- A reachable engine state over `squareCatalog` in phase MOVING with the O
brick of slot 0 painted at column `x` of the top row over the settled cells `s`,
slot 0 queued as next brick, and the score `score`. -/
def AtSquare (stored : Int) (s : Grid) (x : Int) (score : Int) (t : Tetris) : Prop :=
  Reachable squareCatalog stored t ∧ t.state = TetriState.TETRIS_MOVING_STATE ∧
  Painted t s 0 (brickO.moveTo x 0) ∧ t.data.next_brick = some 0 ∧
  t.data.info.score = score

/-! # Theorems -/

/-! ## Rotation -/

theorem next_state_iterate_add (k : Nat) (b : Brick) (h : b.state + k < b.total_states) :
    _next_state^[k] b = { b with state := b.state + k } := by
  induction k generalizing b with
  | zero => simp
  | succ n ih =>
    rw [Function.iterate_succ_apply]
    have hstep : _next_state b = { b with state := b.state + 1 } := by
      unfold _next_state
      rw [if_pos (by push_cast at h; omega)]
    rw [hstep, ih]
    · simp only [Brick.mk.injEq, true_and, and_true]
      push_cast; omega
    · simp only
      push_cast at h; omega

theorem prev_state_iterate_sub (k : Nat) (b : Brick) (h : (k : Int) ≤ b.state) :
    _prev_state^[k] b = { b with state := b.state - k } := by
  induction k generalizing b with
  | zero => simp
  | succ n ih =>
    rw [Function.iterate_succ_apply]
    have hstep : _prev_state b = { b with state := b.state - 1 } := by
      unfold _prev_state
      rw [if_neg (by push_cast at h; omega)]
    rw [hstep, ih]
    · simp only [Brick.mk.injEq, true_and, and_true]
      push_cast; omega
    · simp only
      push_cast at h; omega

theorem next_state_cycle (b : Brick) (h0 : 0 ≤ b.state) (h1 : b.state < b.total_states) :
    _next_state^[b.total_states.toNat] b = b := by
  have hsplit : b.total_states.toNat
      = b.state.toNat + (1 + (b.total_states - 1 - b.state).toNat) := by omega
  rw [hsplit, Function.iterate_add_apply, Function.iterate_add_apply,
    next_state_iterate_add _ b (by omega)]
  have hwrap : _next_state^[1] { b with state := b.state + ((b.total_states - 1 - b.state).toNat : Int) }
      = { b with state := 0 } := by
    simp only [Function.iterate_one]
    unfold _next_state
    rw [if_neg (by simp only; omega)]
  rw [hwrap, next_state_iterate_add _ _ (by simp only; omega)]
  cases b
  simp only [Brick.mk.injEq, true_and, and_true]
  simp only at h0
  omega

theorem prev_state_cycle (b : Brick) (h0 : 0 ≤ b.state) (h1 : b.state < b.total_states) :
    _prev_state^[b.total_states.toNat] b = b := by
  have hsplit : b.total_states.toNat
      = (b.total_states - 1 - b.state).toNat + (1 + b.state.toNat) := by omega
  rw [hsplit, Function.iterate_add_apply, Function.iterate_add_apply,
    prev_state_iterate_sub _ b (by omega)]
  have hwrap : _prev_state^[1] { b with state := b.state - (b.state.toNat : Int) }
      = { b with state := b.total_states - 1 } := by
    simp only [Function.iterate_one]
    unfold _prev_state
    rw [if_pos (by simp only; omega)]
  rw [hwrap, prev_state_iterate_sub _ _ (by simp only; omega)]
  cases b
  simp only [Brick.mk.injEq, true_and, and_true]
  simp only at h0 h1
  omega

theorem next_state_in_range (b : Brick) (h0 : 0 ≤ b.state) (h1 : b.state < b.total_states) :
    (_next_state b).total_states = b.total_states ∧ 0 ≤ (_next_state b).state ∧
      (_next_state b).state < b.total_states := by
  unfold _next_state
  split
  · refine ⟨rfl, ?_, ?_⟩ <;> simp only <;> omega
  · refine ⟨rfl, ?_, ?_⟩ <;> simp only <;> omega

theorem prev_state_in_range (b : Brick) (h0 : 0 ≤ b.state) (h1 : b.state < b.total_states) :
    (_prev_state b).total_states = b.total_states ∧ 0 ≤ (_prev_state b).state ∧
      (_prev_state b).state < b.total_states := by
  unfold _prev_state
  split
  · refine ⟨rfl, ?_, ?_⟩ <;> simp only <;> omega
  · refine ⟨rfl, ?_, ?_⟩ <;> simp only <;> omega

theorem next_state_iterate_in_range (k : Nat) (b : Brick) (h0 : 0 ≤ b.state)
    (h1 : b.state < b.total_states) :
    (_next_state^[k] b).total_states = b.total_states ∧ 0 ≤ (_next_state^[k] b).state ∧
      (_next_state^[k] b).state < b.total_states := by
  induction k with
  | zero => simp [h0, h1]
  | succ n ih =>
    rw [Function.iterate_succ_apply']
    obtain ⟨hT, ha, hb⟩ := ih
    have := next_state_in_range (_next_state^[n] b) ha (by omega)
    omega

theorem prev_state_iterate_in_range (k : Nat) (b : Brick) (h0 : 0 ≤ b.state)
    (h1 : b.state < b.total_states) :
    (_prev_state^[k] b).total_states = b.total_states ∧ 0 ≤ (_prev_state^[k] b).state ∧
      (_prev_state^[k] b).state < b.total_states := by
  induction k with
  | zero => simp [h0, h1]
  | succ n ih =>
    rw [Function.iterate_succ_apply']
    obtain ⟨hT, ha, hb⟩ := ih
    have := prev_state_in_range (_prev_state^[n] b) ha (by omega)
    omega

/-- C10: for a brick with `total_states >= 1` and rotation index in
`[0, total_states)`, `total_states` applications of `_next_state` give the brick
back, so do `total_states` applications of `_prev_state`, and after any number
of applications of either the index is still in `[0, total_states)`. -/
theorem C10_rotation_circular (b : Brick) (_hT : 1 ≤ b.total_states) (h0 : 0 ≤ b.state)
    (h1 : b.state < b.total_states) :
    _next_state^[b.total_states.toNat] b = b ∧
    _prev_state^[b.total_states.toNat] b = b ∧
    ∀ k : Nat,
      (0 ≤ (_next_state^[k] b).state ∧ (_next_state^[k] b).state < b.total_states) ∧
      (0 ≤ (_prev_state^[k] b).state ∧ (_prev_state^[k] b).state < b.total_states) :=
  ⟨next_state_cycle b h0 h1, prev_state_cycle b h0 h1, fun k =>
    ⟨(next_state_iterate_in_range k b h0 h1).2, (prev_state_iterate_in_range k b h0 h1).2⟩⟩

/-! ## Scoring and levelling -/

/-- C8: `get_reward_count n` is 0 for `n <= 0`, 100 for 1, 300 for 2, 700 for 3
and 1500 for every `n >= 4`. -/
theorem C8_scoring_table (n : Int) :
    get_reward_count n =
      if n ≤ 0 then 0 else if n = 1 then 100 else if n = 2 then 300
      else if n = 3 then 700 else 1500 := by
  unfold get_reward_count toSizeT
  by_cases h0 : n ≤ 0
  · simp [h0, not_lt.mpr h0]
  · by_cases h4 : 4 ≤ n
    · have e1 : ¬ n = 1 := by omega
      have e2 : ¬ n = 2 := by omega
      have e3 : ¬ n = 3 := by omega
      simp [h0, h4, e1, e2, e3, not_le.mp h0]
    · have hcases : n = 1 ∨ n = 2 ∨ n = 3 := by omega
      rcases hcases with h | h | h <;> subst h <;> decide

/-- C9: for every score `>= 0`, `get_level_by_score score` is
`min 10 (max 1 (score / 600))`; the levels of 0, 600, 1200, 2400, 4800, 6000
and 12000 are 1, 1, 2, 4, 8, 10 and 10. -/
theorem C9_leveling_formula :
    (∀ score : Int, 0 ≤ score →
      get_level_by_score score = min 10 (max 1 (score / 600))) ∧
    get_level_by_score 0 = 1 ∧ get_level_by_score 600 = 1 ∧
    get_level_by_score 1200 = 2 ∧ get_level_by_score 2400 = 4 ∧
    get_level_by_score 4800 = 8 ∧ get_level_by_score 6000 = 10 ∧
    get_level_by_score 12000 = 10 := by
  refine ⟨?_, by decide, by decide, by decide, by decide, by decide, by decide, by decide⟩
  intro score hs
  unfold get_level_by_score toSizeT
  simp only
  rw [Int.tdiv_eq_ediv hs (by norm_num)]
  have hq : 0 ≤ score / 600 := Int.ediv_nonneg hs (by norm_num)
  generalize score / 600 = q at hq
  by_cases hz : q = 0
  · subst hz; decide
  · by_cases hg : q > 10
    · rw [if_neg hz, if_pos hg]
      have : max 1 q = q := max_eq_right (by omega)
      rw [this, min_eq_left (by omega)]
      decide
    · rw [if_neg hz, if_neg hg]
      have : max 1 q = q := max_eq_right (by omega)
      rw [this, min_eq_right (by omega)]
      omega

/-! ## Collision -/

theorem foldl_sticky {α : Type} (t : α → Bool) (l : List α) (init : Bool) :
    l.foldl (fun r a => if r then r else t a) init = (init || l.any t) := by
  induction l generalizing init with
  | nil => simp
  | cons a l ih =>
    rw [List.foldl_cons, ih]
    cases init <;> simp

theorem foldl_sticky_or {α : Type} (t : α → Bool) (l : List α) (init : Bool) :
    l.foldl (fun r a => if r then r else (r || t a)) init = (init || l.any t) := by
  induction l generalizing init with
  | nil => simp
  | cons a l ih =>
    rw [List.foldl_cons, ih]
    cases init <;> simp

theorem is_collide_eq_any (m : Grid) (b : Brick) :
    is_collide m b = (brickCells b).any (cellBlocked m) := by
  unfold is_collide
  have hinner : ∀ row : Nat,
      (fun (result : Bool) (col : Nat) =>
        if result then result else
          if b.mask row col ≠ 0 then
            let matrix_pos_x := b.pos.x + (-BRICK_WIDTH).tdiv 2 + (col : Int)
            let matrix_pos_y := b.pos.y + ((-BRICK_HEIGHT).tdiv 2 + 1) + (row : Int)
            if matrix_pos_x < 0 ∨ matrix_pos_x ≥ TETRIS_FIELD_WIDTH then true
            else if matrix_pos_y < 0 ∨ matrix_pos_y ≥ TETRIS_FIELD_HEIGHT then true
            else decide (cell m matrix_pos_y matrix_pos_x ≠ 0)
          else result)
      = (fun (result : Bool) (col : Nat) =>
        if result then result else
          (decide (b.mask row col ≠ 0) &&
            cellBlocked m (b.pos.y + -1 + (row : Int), b.pos.x + -2 + (col : Int)))) := by
    intro row
    funext result col
    have e1 : (-BRICK_WIDTH).tdiv 2 = -2 := by decide
    have e2 : (-BRICK_HEIGHT).tdiv 2 + 1 = -1 := by decide
    cases result
    · simp only [e1, e2, cellBlocked]
      by_cases hm : b.mask row col = 0
      · simp [hm]
      · by_cases hx : b.pos.x + -2 + (col : Int) < 0 ∨ b.pos.x + -2 + (col : Int) ≥ 10
        · rcases hx with hx | hx <;> simp [hm, hx]
        · by_cases hy : b.pos.y + -1 + (row : Int) < 0 ∨ b.pos.y + -1 + (row : Int) ≥ 20
          · rcases hy with hy | hy <;> simp [hm, hy]
          · simp only [not_or, not_lt, ge_iff_le, not_le] at hx hy
            simp [hm, hx.1, hx.2, hy.1, hy.2, not_le.mpr hx.2, not_le.mpr hy.2,
              not_lt.mpr hx.1, not_lt.mpr hy.1]
    · simp
  simp only [hinner, foldl_sticky, foldl_sticky_or, Bool.false_or]
  unfold brickCells
  rw [Bool.eq_iff_iff]
  simp only [List.any_eq_true, List.mem_flatMap, List.mem_map, List.mem_filter, Bool.and_eq_true,
    decide_eq_true_eq]
  constructor
  · rintro ⟨row, hrow, col, hcol, hmask, hblk⟩
    exact ⟨_, ⟨row, hrow, col, ⟨hcol, hmask⟩, rfl⟩, hblk⟩
  · rintro ⟨p, ⟨row, hrow, col, ⟨hcol, hmask⟩, rfl⟩, hblk⟩
    exact ⟨row, hrow, col, hcol, hmask, hblk⟩

theorem mem_brickCells (b : Brick) (p : Int × Int) :
    p ∈ brickCells b ↔ ∃ r c : Nat, r < 4 ∧ c < 4 ∧ b.mask r c ≠ 0 ∧
      p = (b.pos.y + -1 + (r : Int), b.pos.x + -2 + (c : Int)) := by
  unfold brickCells
  simp only [List.mem_flatMap, List.mem_map, List.mem_filter, List.mem_range, decide_eq_true_eq]
  constructor
  · rintro ⟨row, hrow, col, ⟨hcol, hmask⟩, rfl⟩
    exact ⟨row, col, hrow, hcol, hmask, rfl⟩
  · rintro ⟨row, col, hrow, hcol, hmask, rfl⟩
    exact ⟨row, hrow, col, ⟨hcol, hmask⟩, rfl⟩

/-- C1: on a 20x10 grid, for a brick whose rotation index is in range,
`is_collide` is true exactly when some occupied cell `(r, c)` of the current
mask maps to column `x - 2 + c` and row `y - 1 + r` with the column outside
`[0, 10)`, or the row outside `[0, 20)`, or a non-zero grid cell there; a brick
whose occupied cells all map inside the grid onto empty cells does not collide. -/
theorem C1_is_collide_iff (m : Grid) (b : Brick) (_hm : wfGrid m) (_h0 : 0 ≤ b.state)
    (_h1 : b.state < b.total_states) :
    (is_collide m b = true ↔
      ∃ r c : Nat, r < 4 ∧ c < 4 ∧ b.mask r c ≠ 0 ∧
        (b.pos.x - 2 + (c : Int) < 0 ∨ 10 ≤ b.pos.x - 2 + (c : Int) ∨
         b.pos.y - 1 + (r : Int) < 0 ∨ 20 ≤ b.pos.y - 1 + (r : Int) ∨
         cell m (b.pos.y - 1 + (r : Int)) (b.pos.x - 2 + (c : Int)) ≠ 0)) ∧
    ((∀ r c : Nat, r < 4 → c < 4 → b.mask r c ≠ 0 →
        0 ≤ b.pos.x - 2 + (c : Int) ∧ b.pos.x - 2 + (c : Int) < 10 ∧
        0 ≤ b.pos.y - 1 + (r : Int) ∧ b.pos.y - 1 + (r : Int) < 20 ∧
        cell m (b.pos.y - 1 + (r : Int)) (b.pos.x - 2 + (c : Int)) = 0) →
      is_collide m b = false) := by
  have key : is_collide m b = true ↔
      ∃ r c : Nat, r < 4 ∧ c < 4 ∧ b.mask r c ≠ 0 ∧
        (b.pos.x - 2 + (c : Int) < 0 ∨ 10 ≤ b.pos.x - 2 + (c : Int) ∨
         b.pos.y - 1 + (r : Int) < 0 ∨ 20 ≤ b.pos.y - 1 + (r : Int) ∨
         cell m (b.pos.y - 1 + (r : Int)) (b.pos.x - 2 + (c : Int)) ≠ 0) := by
    rw [is_collide_eq_any, List.any_eq_true]
    constructor
    · rintro ⟨p, hp, hblk⟩
      obtain ⟨r, c, hr, hc, hmask, rfl⟩ := (mem_brickCells b p).mp hp
      refine ⟨r, c, hr, hc, hmask, ?_⟩
      simpa [cellBlocked, Int.sub_eq_add_neg] using hblk
    · rintro ⟨r, c, hr, hc, hmask, hblk⟩
      refine ⟨_, (mem_brickCells b _).mpr ⟨r, c, hr, hc, hmask, rfl⟩, ?_⟩
      simpa [cellBlocked, Int.sub_eq_add_neg] using hblk
  refine ⟨key, fun hfree => ?_⟩
  rw [← Bool.not_eq_true, key]
  rintro ⟨r, c, hr, hc, hmask, hblk⟩
  obtain ⟨a1, a2, a3, a4, a5⟩ := hfree r c hr hc hmask
  rcases hblk with h | h | h | h | h
  · omega
  · omega
  · omega
  · omega
  · exact h a5

/-! ## Field reads and writes -/

theorem wfGrid_row_length (m : Grid) (hm : wfGrid m) (r : Nat) (hr : r < 20) :
    (m.getD r []).length = 10 := by
  obtain ⟨hl, hrows⟩ := hm
  have hlt : r < m.length := by omega
  rw [List.getD_eq_getElem?_getD, List.getElem?_eq_getElem hlt]
  exact hrows _ (List.getElem_mem hlt)

theorem setCell_spec (m : Grid) (hm : wfGrid m) (r c v : Int) (hp : inField (r, c)) :
    ∃ m', setCell m r c v = some m' ∧ wfGrid m' ∧
      ∀ r' c' : Int, inField (r', c') →
        cell m' r' c' = if r' = r ∧ c' = c then v else cell m r' c' := by
  obtain ⟨h1, h2, h3, h4⟩ := hp
  simp only at h1 h2 h3 h4
  have hlen : m.length = 20 := hm.1
  have hrow : (m.getD r.toNat []).length = 10 := wfGrid_row_length m hm _ (by omega)
  refine ⟨m.set r.toNat ((m.getD r.toNat []).set c.toNat v), ?_, ?_, ?_⟩
  · unfold setCell
    rw [if_pos]
    refine ⟨h1, by omega, h3, by omega⟩
  · refine ⟨by simp [hlen], ?_⟩
    intro row hmem
    rcases List.mem_or_eq_of_mem_set hmem with h | h
    · exact hm.2 row h
    · rw [h, List.length_set]; exact hrow
  · intro r' c' hp'
    obtain ⟨g1, g2, g3, g4⟩ := hp'
    simp only at g1 g2 g3 g4
    unfold cell
    by_cases hr : r' = r
    · subst hr
      have hlt : r'.toNat < m.length := by omega
      simp only [List.getD_eq_getElem?_getD, List.getElem?_set, hlt, if_true, true_and,
        Option.getD_some]
      by_cases hc : c' = c
      · subst hc
        have hlt2 : c'.toNat < (m[r'.toNat]?.getD []).length := by
          rw [← List.getD_eq_getElem?_getD]; omega
        simp [hlt2]
      · have hne : ¬ c.toNat = c'.toNat := by omega
        simp [hc, hne]
    · have hne : ¬ r.toNat = r'.toNat := by omega
      simp [List.getD_eq_getElem?_getD, List.getElem?_set, hne, hr]

theorem grid_ext (m m' : Grid) (hm : wfGrid m) (hm' : wfGrid m')
    (h : ∀ r c : Int, inField (r, c) → cell m r c = cell m' r c) : m = m' := by
  apply List.ext_getElem (by rw [hm.1, hm'.1])
  intro i hi hi'
  have hi20 : i < 20 := by rw [hm.1] at hi; exact hi
  have hr := wfGrid_row_length m hm i hi20
  have hr' := wfGrid_row_length m' hm' i hi20
  rw [List.getD_eq_getElem?_getD, List.getElem?_eq_getElem hi] at hr
  rw [List.getD_eq_getElem?_getD, List.getElem?_eq_getElem hi'] at hr'
  simp only [Option.getD_some] at hr hr'
  apply List.ext_getElem (by rw [hr, hr'])
  intro j hj hj'
  have hj10 : j < 10 := by rw [hr] at hj; exact hj
  have := h (i : Int) (j : Int) ⟨by simp, by simp; omega, by simp, by simp; omega⟩
  unfold cell at this
  simpa [List.getD_eq_getElem?_getD, List.getElem?_eq_getElem hi, List.getElem?_eq_getElem hi',
    List.getElem?_eq_getElem hj, List.getElem?_eq_getElem hj'] using this

theorem writeCells_nil (m : Grid) (v : Int) : writeCells m [] v = some m := rfl

theorem writeCells_cons (m : Grid) (p : Int × Int) (cells : List (Int × Int)) (v : Int) :
    writeCells m (p :: cells) v = (setCell m p.1 p.2 v).bind (fun m' => writeCells m' cells v) := by
  simp only [writeCells, List.foldlM_cons]
  rfl

theorem writeCells_append (m : Grid) (xs ys : List (Int × Int)) (v : Int) :
    writeCells m (xs ++ ys) v = (writeCells m xs v).bind (fun m' => writeCells m' ys v) := by
  simp only [writeCells, List.foldlM_append]
  rfl

theorem foldlM_cols_eq_writeCells (cols : List Nat) (p : Nat → Bool) (g : Nat → Int × Int)
    (v : Int) (m : Grid) :
    cols.foldlM (fun (m : Grid) (col : Nat) =>
        if p col then setCell m (g col).1 (g col).2 v else some m) m
      = writeCells m ((cols.filter p).map g) v := by
  induction cols generalizing m with
  | nil => rfl
  | cons c cs ih =>
    rw [List.foldlM_cons]
    by_cases hc : p c = true
    · simp only [hc, if_true, List.filter_cons_of_pos, List.map_cons, writeCells_cons]
      cases h : setCell m (g c).1 (g c).2 v with
      | none => rfl
      | some m' => exact ih m'
    · have hc' : p c = false := by simpa using hc
      simp only [hc', Bool.false_eq_true, if_false, List.filter_cons_of_neg, not_false_eq_true]
      exact ih m

theorem foldlM_rows_eq_writeCells (rows : List Nat) (h : Nat → List (Int × Int)) (v : Int)
    (m : Grid) :
    rows.foldlM (fun (m : Grid) (row : Nat) => writeCells m (h row) v) m
      = writeCells m (rows.flatMap h) v := by
  induction rows generalizing m with
  | nil => rfl
  | cons r rs ih =>
    rw [List.foldlM_cons, List.flatMap_cons, writeCells_append]
    cases hw : writeCells m (h r) v with
    | none => rfl
    | some m' => exact ih m'

theorem foldlM_mask_eq_writeCells (b : Brick) (v : Int) (fy fx : Nat → Int)
    (hy : ∀ row : Nat, fy row = b.pos.y + -1 + (row : Int))
    (hx : ∀ col : Nat, fx col = b.pos.x + -2 + (col : Int)) (m : Grid) :
    (List.range 4).foldlM (fun (m : Grid) (row : Nat) =>
      (List.range 4).foldlM (fun (m : Grid) (col : Nat) =>
        if b.mask row col ≠ 0 then setCell m (fy row) (fx col) v else some m) m) m
      = writeCells m (brickCells b) v := by
  have hinner : ∀ row : Nat,
      (fun (m : Grid) (col : Nat) =>
        if b.mask row col ≠ 0 then setCell m (fy row) (fx col) v else some m)
      = (fun (m : Grid) (col : Nat) =>
        if (fun col => decide (b.mask row col ≠ 0)) col
        then setCell m ((fun (col : Nat) => (b.pos.y + -1 + (row : Int), b.pos.x + -2 + (col : Int))) col).1
          ((fun (col : Nat) => (b.pos.y + -1 + (row : Int), b.pos.x + -2 + (col : Int))) col).2 v
        else some m) := by
    intro row
    funext m col
    simp only [hy, hx, decide_eq_true_eq]
  have hrow : ∀ (row : Nat) (m : Grid),
      (List.range 4).foldlM (fun (m : Grid) (col : Nat) =>
        if b.mask row col ≠ 0 then setCell m (fy row) (fx col) v else some m) m
      = writeCells m (((List.range 4).filter (fun (col : Nat) => decide (b.mask row col ≠ 0))).map
          (fun (col : Nat) => (b.pos.y + -1 + (row : Int), b.pos.x + -2 + (col : Int)))) v := by
    intro row m
    rw [hinner row]
    exact foldlM_cols_eq_writeCells _ _ _ v m
  simp only [hrow]
  unfold brickCells
  exact foldlM_rows_eq_writeCells (List.range 4) _ v m

theorem place_brick_eq_writeCells (m : Grid) (b : Brick) :
    place_brick m b = writeCells m (brickCells b) b.color :=
  foldlM_mask_eq_writeCells b b.color
    (fun row => b.pos.y + ((-BRICK_HEIGHT).tdiv 2 + 1) + (row : Int))
    (fun col => b.pos.x + (-BRICK_WIDTH).tdiv 2 + (col : Int))
    (fun row => by
      have e : (-BRICK_HEIGHT).tdiv 2 + 1 = -1 := by decide
      simp only [e])
    (fun col => by
      have e : (-BRICK_WIDTH).tdiv 2 = -2 := by decide
      simp only [e]) m

theorem remove_brick_eq_writeCells (m : Grid) (b : Brick) :
    remove_brick m b = writeCells m (brickCells b) 0 :=
  foldlM_mask_eq_writeCells b 0
    (fun row => b.pos.y + (-BRICK_HEIGHT).tdiv 2 + 1 + (row : Int))
    (fun col => b.pos.x + (-BRICK_WIDTH).tdiv 2 + (col : Int))
    (fun row => by
      have e : (-BRICK_HEIGHT).tdiv 2 = -2 := by decide
      simp only [e]; omega)
    (fun col => by
      have e : (-BRICK_WIDTH).tdiv 2 = -2 := by decide
      simp only [e]) m

theorem writeCells_spec (cells : List (Int × Int)) (v : Int) (m : Grid) (hm : wfGrid m)
    (hin : ∀ p ∈ cells, inField p) :
    ∃ m', writeCells m cells v = some m' ∧ wfGrid m' ∧
      ∀ r c : Int, inField (r, c) →
        cell m' r c = if (r, c) ∈ cells then v else cell m r c := by
  induction cells generalizing m with
  | nil => exact ⟨m, rfl, hm, fun r c _ => by simp⟩
  | cons p ps ih =>
    obtain ⟨m1, h1, hwf1, hc1⟩ :=
      setCell_spec m hm p.1 p.2 v (hin p (List.mem_cons_self _ _))
    obtain ⟨m2, h2, hwf2, hc2⟩ := ih m1 hwf1 (fun q hq => hin q (List.mem_cons_of_mem _ hq))
    refine ⟨m2, ?_, hwf2, ?_⟩
    · rw [writeCells_cons, h1]; exact h2
    · intro r c hrc
      rw [hc2 r c hrc, hc1 r c hrc]
      by_cases hps : (r, c) ∈ ps
      · simp [hps]
      · by_cases hp : r = p.1 ∧ c = p.2
        · have : (r, c) = p := by obtain ⟨a, b⟩ := hp; subst a; subst b; rfl
          simp [hps, hp, this]
        · have : ¬ (r, c) = p := by
            intro h; apply hp; rw [← h]; exact ⟨rfl, rfl⟩
          simp [hps, hp, this]

theorem is_collide_false_iff (m : Grid) (b : Brick) :
    is_collide m b = false ↔ ∀ p ∈ brickCells b, inField p ∧ cell m p.1 p.2 = 0 := by
  rw [is_collide_eq_any, ← Bool.not_eq_true, List.any_eq_true]
  constructor
  · intro h p hp
    have hnb : ¬ cellBlocked m p = true := fun hb => h ⟨p, hp, hb⟩
    simp only [cellBlocked, decide_eq_true_eq, not_or, not_lt, not_le, ne_eq, not_not] at hnb
    exact ⟨⟨hnb.2.2.1, hnb.2.2.2.1, hnb.1, hnb.2.1⟩, hnb.2.2.2.2⟩
  · rintro h ⟨p, hp, hb⟩
    obtain ⟨⟨a1, a2, a3, a4⟩, a5⟩ := h p hp
    simp only [cellBlocked, decide_eq_true_eq] at hb
    rcases hb with hb | hb | hb | hb | hb
    · omega
    · omega
    · omega
    · omega
    · exact hb a5

theorem place_brick_spec (s : Grid) (b : Brick) (hs : wfGrid s)
    (hin : ∀ p ∈ brickCells b, inField p) :
    ∃ g, place_brick s b = some g ∧ wfGrid g ∧
      ∀ r c : Int, inField (r, c) →
        cell g r c = if (r, c) ∈ brickCells b then b.color else cell s r c := by
  rw [place_brick_eq_writeCells]
  exact writeCells_spec _ _ s hs hin

theorem remove_brick_spec (g : Grid) (b : Brick) (hg : wfGrid g)
    (hin : ∀ p ∈ brickCells b, inField p) :
    ∃ s, remove_brick g b = some s ∧ wfGrid s ∧
      ∀ r c : Int, inField (r, c) →
        cell s r c = if (r, c) ∈ brickCells b then 0 else cell g r c := by
  rw [remove_brick_eq_writeCells]
  exact writeCells_spec _ _ g hg hin

theorem remove_place_brick (s g : Grid) (b : Brick) (hs : wfGrid s)
    (hfree : is_collide s b = false) (hg : place_brick s b = some g) :
    remove_brick g b = some s := by
  have hcells := (is_collide_false_iff s b).mp hfree
  obtain ⟨g', hg', hwf, hcg⟩ := place_brick_spec s b hs (fun p hp => (hcells p hp).1)
  rw [hg] at hg'
  cases hg'
  obtain ⟨s', hs', hwf', hcs⟩ := remove_brick_spec g b hwf (fun p hp => (hcells p hp).1)
  rw [hs']
  congr 1
  apply grid_ext _ _ hwf' hs
  intro r c hrc
  rw [hcs r c hrc, hcg r c hrc]
  by_cases hmem : (r, c) ∈ brickCells b
  · simp only [hmem, if_true]
    exact ((hcells _ hmem).2).symm
  · simp only [hmem, if_false]

/-! ## Moves of the active piece -/

theorem list_set_getElem?_self {α : Type} (l : List α) (i : Nat) (a : α) (h : l[i]? = some a) :
    l.set i a = l := by
  induction l generalizing i with
  | nil => rfl
  | cons x xs ih =>
    cases i with
    | zero =>
      simp only [List.getElem?_cons_zero, Option.some.injEq] at h
      simp [h]
    | succ n =>
      simp only [List.getElem?_cons_succ] at h
      simp [ih n h]

theorem store_self (self : Tetris) (i : Nat) (b : Brick) (h : self.brickAt i = some b) :
    self.store i b self.data.info.field = self := by
  unfold Tetris.store
  unfold Tetris.brickAt at h
  rw [list_set_getElem?_self _ _ _ h]

theorem moveTo_self (b : Brick) : b.moveTo b.pos.x b.pos.y = b := rfl

theorem place_of_free (s : Grid) (b : Brick) (hs : wfGrid s) (hfree : is_collide s b = false) :
    ∃ g, place_brick s b = some g ∧ wfGrid g := by
  obtain ⟨g, hg, hwf, _⟩ :=
    place_brick_spec s b hs (fun p hp => ((is_collide_false_iff s b).mp hfree p hp).1)
  exact ⟨g, hg, hwf⟩

theorem painted_store (self : Tetris) (s : Grid) (i : Nat) (b b' : Brick) (g : Grid)
    (h : Painted self s i b) (hfree : is_collide s b' = false)
    (hg : place_brick s b' = some g) : Painted (self.store i b' g) s i b' := by
  refine ⟨h.current, ?_, h.settled, hfree, hg⟩
  have hb := h.brick
  unfold Tetris.brickAt at hb ⊢
  have hlt : i < self.repository.items.length := by
    rcases Nat.lt_or_ge i self.repository.items.length with hlt | hge
    · exact hlt
    · rw [List.getElem?_eq_none hge] at hb; cases hb
  simp [Tetris.store, List.getElem?_set_self hlt]

theorem left_eval (self : Tetris) (s : Grid) (i : Nat) (b : Brick) (hold : Bool)
    (h : Painted self s i b) :
    _left self hold =
      (place_brick s (if is_collide s (b.moveTo (b.pos.x - 1) b.pos.y) = true then b
          else b.moveTo (b.pos.x - 1) b.pos.y)).bind
        (fun g => some (self.store i
          (if is_collide s (b.moveTo (b.pos.x - 1) b.pos.y) = true then b
            else b.moveTo (b.pos.x - 1) b.pos.y) g)) := by
  unfold _left
  rw [h.current]
  simp only [h.brick, Option.bind, remove_place_brick s _ b h.settled h.free h.painted]
  have e1 : ({ b with pos := { b.pos with x := b.pos.x - 1 } } : Brick)
      = b.moveTo (b.pos.x - 1) b.pos.y := rfl
  rw [e1]
  have e2 : Brick.mk ⟨b.pos.x - 1 + 1, b.pos.y⟩ b.color b.state b.states b.total_states
      = b := by
    cases b with
    | mk pos color state states total_states =>
      cases pos
      simp [Brick.moveTo]
  rw [e2]

theorem right_eval (self : Tetris) (s : Grid) (i : Nat) (b : Brick) (hold : Bool)
    (h : Painted self s i b) :
    _right self hold =
      (place_brick s (if is_collide s (b.moveTo (b.pos.x + 1) b.pos.y) = true then b
          else b.moveTo (b.pos.x + 1) b.pos.y)).bind
        (fun g => some (self.store i
          (if is_collide s (b.moveTo (b.pos.x + 1) b.pos.y) = true then b
            else b.moveTo (b.pos.x + 1) b.pos.y) g)) := by
  unfold _right
  rw [h.current]
  simp only [h.brick, Option.bind, remove_place_brick s _ b h.settled h.free h.painted]
  have e1 : ({ b with pos := { b.pos with x := b.pos.x + 1 } } : Brick)
      = b.moveTo (b.pos.x + 1) b.pos.y := rfl
  rw [e1]
  have e2 : Brick.mk ⟨b.pos.x + 1 - 1, b.pos.y⟩ b.color b.state b.states b.total_states
      = b := by
    cases b with
    | mk pos color state states total_states =>
      cases pos
      simp [Brick.moveTo]
  rw [e2]

theorem prev_next_state (b : Brick) (h0 : 0 ≤ b.state) (h1 : b.state < b.total_states) :
    _prev_state (_next_state b) = b := by
  cases b with
  | mk pos color state states total_states =>
    simp only at h0 h1
    unfold _next_state
    by_cases hlt : state + 1 < total_states
    · simp only [hlt, if_true]
      unfold _prev_state
      rw [if_neg (by simp only; omega)]
      simp
    · simp only [hlt, if_false]
      unfold _prev_state
      simp only [if_true, Brick.mk.injEq, true_and, and_true]
      omega

theorem action_eval (self : Tetris) (s : Grid) (i : Nat) (b : Brick) (hold : Bool)
    (h : Painted self s i b) :
    _action self hold =
      (place_brick s (if is_collide s (_next_state b) = true then _prev_state (_next_state b)
          else _next_state b)).bind
        (fun g => some (self.store i
          (if is_collide s (_next_state b) = true then _prev_state (_next_state b)
            else _next_state b) g)) := by
  unfold _action
  rw [h.current]
  simp only [h.brick, Option.bind, remove_place_brick s _ b h.settled h.free h.painted]

/-- C2: in an engine state whose active piece (rotation index in range, as the
data model requires) is painted into the field on in-bounds cells that do not
overlap the settled cells, a Left, a Right or an Action that is rejected because
the shifted or rotated piece collides with the settled cells returns the engine
state unchanged: same position, same rotation index, same field. -/
theorem C2_move_atomicity (self : Tetris) (s : Grid) (i : Nat) (b : Brick) (hold : Bool)
    (h : Painted self s i b) :
    (is_collide s (b.moveTo (b.pos.x - 1) b.pos.y) = true → _left self hold = some self) ∧
    (is_collide s (b.moveTo (b.pos.x + 1) b.pos.y) = true → _right self hold = some self) ∧
    (0 ≤ b.state → b.state < b.total_states →
      is_collide s (_next_state b) = true → _action self hold = some self) := by
  refine ⟨fun hc => ?_, fun hc => ?_, fun h0 h1 hc => ?_⟩
  · rw [left_eval self s i b hold h, if_pos hc, h.painted]
    simp only [Option.bind]
    rw [store_self self i b h.brick]
  · rw [right_eval self s i b hold h, if_pos hc, h.painted]
    simp only [Option.bind]
    rw [store_self self i b h.brick]
  · rw [action_eval self s i b hold h, if_pos hc, prev_next_state b h0 h1, h.painted]
    simp only [Option.bind]
    rw [store_self self i b h.brick]

/-- C3: in an engine state whose active piece `b` at anchor `(x, y)` is painted
into the field over the settled cells `s`, Left returns a state whose piece `b'`
is painted over the same settled cells, with `b'` at `(x - 1, y)` exactly when
the piece at `(x - 1, y)` does not collide with `s` (otherwise `b' = b`); Right
does the same with `(x + 1, y)`; rotation index and row are those of `b`. -/
theorem C3_left_right (self : Tetris) (s : Grid) (i : Nat) (b : Brick) (hold : Bool)
    (h : Painted self s i b) :
    (∃ b' g, _left self hold = some (self.store i b' g) ∧ Painted (self.store i b' g) s i b' ∧
      b' = (if is_collide s (b.moveTo (b.pos.x - 1) b.pos.y) = true then b
            else b.moveTo (b.pos.x - 1) b.pos.y) ∧
      (b'.pos = ⟨b.pos.x - 1, b.pos.y⟩ ↔
        is_collide s (b.moveTo (b.pos.x - 1) b.pos.y) = false) ∧
      b'.pos.y = b.pos.y ∧ b'.state = b.state) ∧
    (∃ b' g, _right self hold = some (self.store i b' g) ∧ Painted (self.store i b' g) s i b' ∧
      b' = (if is_collide s (b.moveTo (b.pos.x + 1) b.pos.y) = true then b
            else b.moveTo (b.pos.x + 1) b.pos.y) ∧
      (b'.pos = ⟨b.pos.x + 1, b.pos.y⟩ ↔
        is_collide s (b.moveTo (b.pos.x + 1) b.pos.y) = false) ∧
      b'.pos.y = b.pos.y ∧ b'.state = b.state) := by
  constructor
  · rw [left_eval self s i b hold h]
    by_cases hc : is_collide s (b.moveTo (b.pos.x - 1) b.pos.y) = true
    · refine ⟨b, self.data.info.field, ?_, ?_, ?_, ?_, rfl, rfl⟩
      · rw [if_pos hc, h.painted]; rfl
      · rw [store_self self i b h.brick]; exact h
      · rw [if_pos hc]
      · rw [hc]
        constructor
        · intro hp
          have := congrArg BrickPosition.x hp
          simp only at this
          omega
        · intro hf; cases hf
    · have hf : is_collide s (b.moveTo (b.pos.x - 1) b.pos.y) = false := by
        simpa using hc
      obtain ⟨g, hg, _⟩ := place_of_free s _ h.settled hf
      refine ⟨b.moveTo (b.pos.x - 1) b.pos.y, g, ?_, ?_, ?_, ?_, rfl, rfl⟩
      · rw [if_neg hc, hg]; rfl
      · exact painted_store self s i b _ g h hf hg
      · rw [if_neg hc]
      · exact ⟨fun _ => hf, fun _ => rfl⟩
  · rw [right_eval self s i b hold h]
    by_cases hc : is_collide s (b.moveTo (b.pos.x + 1) b.pos.y) = true
    · refine ⟨b, self.data.info.field, ?_, ?_, ?_, ?_, rfl, rfl⟩
      · rw [if_pos hc, h.painted]; rfl
      · rw [store_self self i b h.brick]; exact h
      · rw [if_pos hc]
      · rw [hc]
        constructor
        · intro hp
          have := congrArg BrickPosition.x hp
          simp only at this
          omega
        · intro hf; cases hf
    · have hf : is_collide s (b.moveTo (b.pos.x + 1) b.pos.y) = false := by
        simpa using hc
      obtain ⟨g, hg, _⟩ := place_of_free s _ h.settled hf
      refine ⟨b.moveTo (b.pos.x + 1) b.pos.y, g, ?_, ?_, ?_, ?_, rfl, rfl⟩
      · rw [if_neg hc, hg]; rfl
      · exact painted_store self s i b _ g h hf hg
      · rw [if_neg hc]
      · exact ⟨fun _ => hf, fun _ => rfl⟩

/-- The settled cells of a painted state are the field with the piece removed,
and a state is painted exactly when the field is a 20x10 grid in which every
occupied cell of the active piece lies inside the field and holds its colour. -/
theorem painted_iff_cells (self : Tetris) (i : Nat) (b : Brick)
    (hcur : self.data.current_brick = some i) (hb : self.brickAt i = some b) :
    (∃ s, Painted self s i b) ↔
      (wfGrid self.data.info.field ∧
        ∀ p ∈ brickCells b, inField p ∧ cell self.data.info.field p.1 p.2 = b.color) := by
  constructor
  · rintro ⟨s, hp⟩
    have hcells := (is_collide_false_iff s b).mp hp.free
    obtain ⟨g, hg, hwf, hcg⟩ := place_brick_spec s b hp.settled (fun p h => (hcells p h).1)
    rw [hp.painted] at hg
    cases hg
    refine ⟨hwf, fun p h => ⟨(hcells p h).1, ?_⟩⟩
    have := hcg p.1 p.2 (hcells p h).1
    rw [if_pos h] at this
    exact this
  · rintro ⟨hwf, hcells⟩
    obtain ⟨s, hs, hwfs, hcs⟩ := remove_brick_spec self.data.info.field b hwf
      (fun p h => (hcells p h).1)
    have hfree : is_collide s b = false := by
      rw [is_collide_false_iff]
      intro p h
      refine ⟨(hcells p h).1, ?_⟩
      have := hcs p.1 p.2 (hcells p h).1
      rw [if_pos h] at this
      exact this
    obtain ⟨g, hg, hwfg, hcg⟩ := place_brick_spec s b hwfs (fun p h => (hcells p h).1)
    refine ⟨s, hcur, hb, hwfs, hfree, ?_⟩
    rw [hg]
    congr 1
    apply grid_ext _ _ hwfg hwf
    intro r c hrc
    rw [hcg r c hrc, hcs r c hrc]
    by_cases hmem : (r, c) ∈ brickCells b
    · rw [if_pos hmem]
      exact ((hcells _ hmem).2).symm
    · rw [if_neg hmem, if_neg hmem]

/-! ## Drops -/

theorem mem_brickCells_moveTo (b : Brick) (x y : Int) (p : Int × Int) :
    p ∈ brickCells (b.moveTo x y) ↔ ∃ r c : Nat, r < 4 ∧ c < 4 ∧ b.mask r c ≠ 0 ∧
      p = (y + -1 + (r : Int), x + -2 + (c : Int)) :=
  mem_brickCells (b.moveTo x y) p

theorem down_soft_eval (fuel : Nat) (self : Tetris) (s : Grid) (i : Nat) (b : Brick)
    (h : Painted self s i b) :
    _down fuel self false =
      if is_collide s (b.moveTo b.pos.x (b.pos.y + 1)) = true then
        (place_brick s b).bind (fun g => some (self.store i b g).attach)
      else
        (place_brick s (b.moveTo b.pos.x (b.pos.y + 1))).bind
          (fun g => some (self.store i (b.moveTo b.pos.x (b.pos.y + 1)) g)) := by
  unfold _down
  rw [h.current]
  simp only [h.brick, Option.bind, remove_place_brick s _ b h.settled h.free h.painted]
  have e2 : Brick.mk ⟨b.pos.x, b.pos.y + 1 - 1⟩ b.color b.state b.states b.total_states
      = b := by
    cases b with
    | mk pos color state states total_states =>
      cases pos
      simp
  by_cases hc : is_collide s (b.moveTo b.pos.x (b.pos.y + 1)) = true
  · have hc' : is_collide s
        (Brick.mk ⟨b.pos.x, b.pos.y + 1⟩ b.color b.state b.states b.total_states) = true := hc
    simp only [hc, hc', if_true, Bool.not_false, e2]
    cases place_brick s b <;> rfl
  · have hc' : ¬ is_collide s
        (Brick.mk ⟨b.pos.x, b.pos.y + 1⟩ b.color b.state b.states b.total_states) = true := hc
    simp only [hc, hc', if_false, Bool.not_false, if_true, Bool.false_eq_true]
    rfl

theorem down_hard_eval (fuel : Nat) (self : Tetris) (s : Grid) (i : Nat) (b : Brick)
    (h : Painted self s i b) :
    _down fuel self true =
      (drop_loop fuel s b).bind (fun brick =>
        (place_brick s (brick.moveTo brick.pos.x (brick.pos.y - 1))).bind
          (fun g => some (self.store i (brick.moveTo brick.pos.x (brick.pos.y - 1)) g).attach)) := by
  unfold _down
  rw [h.current]
  simp only [h.brick, Option.bind, remove_place_brick s _ b h.settled h.free h.painted]
  cases drop_loop fuel s b with
  | none => rfl
  | some brick =>
    simp only [Bool.not_true, Bool.false_eq_true, if_false, if_true]
    rfl

theorem drop_loop_spec (s : Grid) (n : Nat) (fuel : Nat) (b : Brick) (hfuel : n < fuel)
    (hfree : ∀ j : Nat, j < n → is_collide s (b.moveTo b.pos.x (b.pos.y + (j : Int))) = false)
    (hhit : is_collide s (b.moveTo b.pos.x (b.pos.y + (n : Int))) = true) :
    drop_loop fuel s b = some (b.moveTo b.pos.x (b.pos.y + (n : Int))) := by
  induction n generalizing fuel b with
  | zero =>
    obtain ⟨f, rfl⟩ : ∃ f, fuel = f + 1 := ⟨fuel - 1, by omega⟩
    have e : b.moveTo b.pos.x (b.pos.y + ((0 : Nat) : Int)) = b := by
      cases b with
      | mk pos color state states total_states =>
        cases pos
        simp [Brick.moveTo]
    rw [e] at hhit ⊢
    simp [drop_loop, hhit]
  | succ n ih =>
    obtain ⟨f, rfl⟩ : ∃ f, fuel = f + 1 := ⟨fuel - 1, by omega⟩
    have h0 : is_collide s b = false := by
      have := hfree 0 (by omega)
      have e : b.moveTo b.pos.x (b.pos.y + ((0 : Nat) : Int)) = b := by
        cases b with
        | mk pos color state states total_states =>
          cases pos
          simp [Brick.moveTo]
      rwa [e] at this
    have hstep : ({ b with pos := { b.pos with y := b.pos.y + 1 } } : Brick)
        = b.moveTo b.pos.x (b.pos.y + 1) := rfl
    have harith : ∀ j : Nat, b.pos.y + 1 + (j : Int) = b.pos.y + ((j + 1 : Nat) : Int) := by
      intro j; push_cast; omega
    simp only [drop_loop, h0, bne_iff_ne, ne_eq, not_false_eq_true, if_true, hstep]
    rw [ih f (b.moveTo b.pos.x (b.pos.y + 1)) (by omega)]
    · show some (b.moveTo b.pos.x (b.pos.y + 1 + (n : Int))) = _
      rw [harith n]
    · intro j hj
      show is_collide s (b.moveTo b.pos.x (b.pos.y + 1 + (j : Int))) = false
      rw [harith j]
      exact hfree (j + 1) (by omega)
    · show is_collide s (b.moveTo b.pos.x (b.pos.y + 1 + (n : Int))) = true
      rw [harith n]
      exact hhit

theorem collide_below_field (s : Grid) (b : Brick)
    (hcell : ∃ r c : Nat, r < 4 ∧ c < 4 ∧ b.mask r c ≠ 0)
    (hfree : is_collide s b = false) :
    is_collide s (b.moveTo b.pos.x (b.pos.y + ((20 : Nat) : Int))) = true := by
  obtain ⟨r, c, hr, hc, hmask⟩ := hcell
  have hmem : (b.pos.y + -1 + (r : Int), b.pos.x + -2 + (c : Int)) ∈ brickCells b :=
    (mem_brickCells b _).mpr ⟨r, c, hr, hc, hmask, rfl⟩
  have hin := ((is_collide_false_iff s b).mp hfree _ hmem).1
  rw [← Bool.not_eq_false]
  intro hf
  have hmem' : (b.pos.y + ((20 : Nat) : Int) + -1 + (r : Int), b.pos.x + -2 + (c : Int))
      ∈ brickCells (b.moveTo b.pos.x (b.pos.y + ((20 : Nat) : Int))) :=
    (mem_brickCells_moveTo b _ _ _).mpr ⟨r, c, hr, hc, hmask, rfl⟩
  have hin' := ((is_collide_false_iff s _).mp hf _ hmem').1
  obtain ⟨a1, a2, a3, a4⟩ := hin
  obtain ⟨b1, b2, b3, b4⟩ := hin'
  simp only at a1 a2 b1 b2
  push_cast at b2
  omega

/-- C5: in an engine state whose active piece `b` at anchor `(x, y)` is painted
into the field over the settled cells `s`, Down with hold = false gives, when
the piece at `(x, y + 1)` does not collide with `s`, the piece painted at
`(x, y + 1)` with the phase as it was (MOVING stays MOVING) and the active-piece
pointer kept; otherwise the engine as it was (piece painted at `(x, y)`) with
phase ATTACH and the active-piece pointer cleared. -/
theorem C5_soft_drop (fuel : Nat) (self : Tetris) (s : Grid) (i : Nat) (b : Brick)
    (h : Painted self s i b) :
    (is_collide s (b.moveTo b.pos.x (b.pos.y + 1)) = false →
      ∃ g, _down fuel self false = some (self.store i (b.moveTo b.pos.x (b.pos.y + 1)) g) ∧
        Painted (self.store i (b.moveTo b.pos.x (b.pos.y + 1)) g) s i
          (b.moveTo b.pos.x (b.pos.y + 1)) ∧
        (self.store i (b.moveTo b.pos.x (b.pos.y + 1)) g).state = self.state ∧
        (self.state = TetriState.TETRIS_MOVING_STATE →
          (self.store i (b.moveTo b.pos.x (b.pos.y + 1)) g).state
            = TetriState.TETRIS_MOVING_STATE) ∧
        (self.store i (b.moveTo b.pos.x (b.pos.y + 1)) g).data.current_brick = some i) ∧
    (is_collide s (b.moveTo b.pos.x (b.pos.y + 1)) = true →
      _down fuel self false = some self.attach ∧
        place_brick s b = some self.attach.data.info.field ∧
        self.attach.brickAt i = some b ∧
        self.attach.state = TetriState.TETRIS_ATTACH_STATE ∧
        self.attach.data.current_brick = none) := by
  constructor
  · intro hf
    obtain ⟨g, hg, _⟩ := place_of_free s _ h.settled hf
    refine ⟨g, ?_, painted_store self s i b _ g h hf hg, rfl, fun hm => hm, h.current⟩
    rw [down_soft_eval fuel self s i b h, if_neg (by rw [hf]; decide), hg]
    rfl
  · intro hc
    refine ⟨?_, h.painted, h.brick, rfl, rfl⟩
    rw [down_soft_eval fuel self s i b h, if_pos hc, h.painted]
    simp only [Option.bind]
    rw [store_self self i b h.brick]

theorem moveTo_zero (b : Brick) : b.moveTo b.pos.x (b.pos.y + ((0 : Nat) : Int)) = b := by
  cases b with
  | mk pos color state states total_states =>
    cases pos
    simp [Brick.moveTo]

/-- C4 (amended): in an engine state whose active piece `b` at anchor `(x, y)`,
with at least one occupied cell in its current mask, is painted into the field
over the settled cells `s`, there is a unique row `y' >= y` such that the piece
does not collide with `s` at any row of `[y, y']` and collides at row `y' + 1`;
with fuel for 21 iterations, Down with hold = true returns the engine with the
piece painted at `(x, y')`, same rotation, phase ATTACH and the active-piece
pointer cleared. -/
theorem C4_hard_drop (self : Tetris) (s : Grid) (i : Nat) (b : Brick)
    (h : Painted self s i b) (hcell : ∃ r c : Nat, r < 4 ∧ c < 4 ∧ b.mask r c ≠ 0) :
    ∃ (y' : Int) (g : Grid), b.pos.y ≤ y' ∧
      (∀ r : Int, b.pos.y ≤ r → r ≤ y' → is_collide s (b.moveTo b.pos.x r) = false) ∧
      is_collide s (b.moveTo b.pos.x (y' + 1)) = true ∧
      (∀ y'' : Int, b.pos.y ≤ y'' →
        (∀ r : Int, b.pos.y ≤ r → r ≤ y'' → is_collide s (b.moveTo b.pos.x r) = false) →
        is_collide s (b.moveTo b.pos.x (y'' + 1)) = true → y'' = y') ∧
      place_brick s (b.moveTo b.pos.x y') = some g ∧
      (b.moveTo b.pos.x y').state = b.state ∧
      (self.store i (b.moveTo b.pos.x y') g).attach.state = TetriState.TETRIS_ATTACH_STATE ∧
      (self.store i (b.moveTo b.pos.x y') g).attach.data.current_brick = none ∧
      ∀ fuel : Nat, 21 ≤ fuel →
        _down fuel self true = some (self.store i (b.moveTo b.pos.x y') g).attach := by
  have hex : ∃ n : Nat, is_collide s (b.moveTo b.pos.x (b.pos.y + (n : Int))) = true :=
    ⟨20, collide_below_field s b hcell h.free⟩
  have hspec := Nat.find_spec hex
  have hmin : ∀ j : Nat, j < Nat.find hex →
      is_collide s (b.moveTo b.pos.x (b.pos.y + (j : Int))) = false := by
    intro j hj
    have := Nat.find_min hex hj
    simpa using this
  have hle : Nat.find hex ≤ 20 := Nat.find_min' hex (collide_below_field s b hcell h.free)
  have hpos : 0 < Nat.find hex := by
    rcases Nat.eq_zero_or_pos (Nat.find hex) with h0 | h0
    · rw [h0, moveTo_zero, h.free] at hspec; cases hspec
    · exact h0
  generalize Nat.find hex = n at hspec hmin hle hpos
  have hrow : ∀ r : Int, b.pos.y ≤ r → r ≤ b.pos.y + ((n - 1 : Nat) : Int) →
      is_collide s (b.moveTo b.pos.x r) = false := by
    intro r hr1 hr2
    have := hmin (r - b.pos.y).toNat (by omega)
    have e : b.pos.y + (((r - b.pos.y).toNat : Nat) : Int) = r := by omega
    rwa [e] at this
  have hnext : b.pos.y + ((n - 1 : Nat) : Int) + 1 = b.pos.y + (n : Int) := by omega
  obtain ⟨g, hg, _⟩ := place_of_free s (b.moveTo b.pos.x (b.pos.y + ((n - 1 : Nat) : Int)))
    h.settled (hrow _ (by omega) (le_refl _))
  refine ⟨b.pos.y + ((n - 1 : Nat) : Int), g, by omega, hrow, ?_, ?_, hg, rfl, rfl, rfl, ?_⟩
  · rw [hnext]; exact hspec
  · intro y'' hy1 hy2 hy3
    by_contra hne
    rcases lt_or_gt_of_ne hne with hlt | hgt
    · have := hrow (y'' + 1) (by omega) (by omega)
      rw [this] at hy3; cases hy3
    · have := hy2 (b.pos.y + (n : Int)) (by omega) (by omega)
      rw [this] at hspec; cases hspec
  · intro fuel hfuel
    rw [down_hard_eval fuel self s i b h, drop_loop_spec s n fuel b (by omega) hmin hspec]
    have e : (b.moveTo b.pos.x (b.pos.y + (n : Int))).moveTo
          (b.moveTo b.pos.x (b.pos.y + (n : Int))).pos.x
          ((b.moveTo b.pos.x (b.pos.y + (n : Int))).pos.y - 1)
        = b.moveTo b.pos.x (b.pos.y + ((n - 1 : Nat) : Int)) := by
      have : b.pos.y + (n : Int) - 1 = b.pos.y + ((n - 1 : Nat) : Int) := by omega
      simp only [Brick.moveTo, this]
    simp only [Option.bind, e, hg]

/-! ## Line clearing -/

theorem shift_cols_spec (r : Int) (hr1 : 1 ≤ r) (hr2 : r < 20) (cols : List Nat)
    (hcols : ∀ k ∈ cols, k < 10) (m : Grid) (hm : wfGrid m) :
    ∃ m', cols.foldlM (fun (m : Grid) (col : Nat) =>
        setCell m r col (cell m (r - 1) col)) m = some m' ∧ wfGrid m' ∧
      ∀ a c : Int, inField (a, c) →
        cell m' a c = if a = r ∧ c.toNat ∈ cols then cell m (r - 1) c else cell m a c := by
  induction cols generalizing m with
  | nil => exact ⟨m, rfl, hm, fun a c _ => by simp⟩
  | cons k ks ih =>
    have hk : k < 10 := hcols k (List.mem_cons_self _ _)
    obtain ⟨m1, h1, hwf1, hc1⟩ := setCell_spec m hm r (k : Int) (cell m (r - 1) k)
      ⟨by simp only; omega, by simp only; omega, by simp only; omega, by simp only; omega⟩
    obtain ⟨m2, h2, hwf2, hc2⟩ := ih (fun j hj => hcols j (List.mem_cons_of_mem _ hj)) m1 hwf1
    refine ⟨m2, ?_, hwf2, ?_⟩
    · rw [List.foldlM_cons, h1]; exact h2
    · intro a c hac
      obtain ⟨a1, a2, a3, a4⟩ := hac
      simp only at a1 a2 a3 a4
      have hsrc : cell m1 (r - 1) c = cell m (r - 1) c := by
        rw [hc1 (r - 1) c ⟨by simp only; omega, by simp only; omega, a3, a4⟩]
        rw [if_neg (by omega)]
      rw [hc2 a c ⟨a1, a2, a3, a4⟩, hsrc, hc1 a c ⟨a1, a2, a3, a4⟩]
      by_cases hks : a = r ∧ c.toNat ∈ ks
      · simp [hks]
      · by_cases hk' : a = r ∧ c = (k : Int)
        · obtain ⟨e1, e2⟩ := hk'
          subst e1; subst e2
          simp
        · have hne : ¬ (a = r ∧ c.toNat = k) := by
            rintro ⟨e1, e2⟩
            exact hk' ⟨e1, by omega⟩
          rw [if_neg hks, if_neg hk']
          rw [if_neg]
          rintro ⟨e1, e2⟩
          rcases List.mem_cons.mp e2 with e3 | e3
          · exact hne ⟨e1, e3⟩
          · exact hks ⟨e1, e3⟩

theorem shift_row_spec (r : Int) (hr1 : 1 ≤ r) (hr2 : r < 20) (m : Grid) (hm : wfGrid m) :
    ∃ m', shift_row m r = some m' ∧ wfGrid m' ∧
      ∀ a c : Int, inField (a, c) →
        cell m' a c = if a = r then cell m (r - 1) c else cell m a c := by
  obtain ⟨m', h1, hwf, hc⟩ := shift_cols_spec r hr1 hr2 (List.range 10)
    (fun k hk => List.mem_range.mp hk) m hm
  refine ⟨m', h1, hwf, ?_⟩
  intro a c hac
  rw [hc a c hac]
  obtain ⟨a1, a2, a3, a4⟩ := hac
  simp only at a3 a4
  have : c.toNat ∈ List.range 10 := List.mem_range.mpr (by omega)
  simp [this]

theorem shift_rows_spec (n : Nat) (hn : n < 20) (m : Grid) (hm : wfGrid m) :
    ∃ m', shift_rows n m = some m' ∧ wfGrid m' ∧
      ∀ a c : Int, inField (a, c) →
        cell m' a c = if 1 ≤ a ∧ a ≤ (n : Int) then cell m (a - 1) c else cell m a c := by
  induction n generalizing m with
  | zero =>
    refine ⟨m, rfl, hm, fun a c _ => ?_⟩
    rw [if_neg]
    push_cast
    omega
  | succ n ih =>
    obtain ⟨m1, h1, hwf1, hc1⟩ := shift_row_spec ((n : Int) + 1) (by omega) (by omega) m hm
    obtain ⟨m2, h2, hwf2, hc2⟩ := ih (by omega) m1 hwf1
    refine ⟨m2, ?_, hwf2, ?_⟩
    · simp only [shift_rows, h1, Option.bind]; exact h2
    · intro a c hac
      obtain ⟨a1, a2, a3, a4⟩ := hac
      simp only at a1 a2 a3 a4
      rw [hc2 a c ⟨a1, a2, a3, a4⟩]
      by_cases hlow : 1 ≤ a ∧ a ≤ (n : Int)
      · rw [if_pos hlow, if_pos (by push_cast; omega),
          hc1 (a - 1) c ⟨by simp only; omega, by simp only; omega, a3, a4⟩,
          if_neg (by omega)]
      · rw [if_neg hlow, hc1 a c ⟨a1, a2, a3, a4⟩]
        by_cases htop : a = (n : Int) + 1
        · rw [if_pos htop, if_pos (by push_cast; omega), htop]
        · rw [if_neg htop, if_neg (by push_cast; omega)]

theorem zero_top_spec (m : Grid) (hm : wfGrid m) :
    ∃ m', (List.range 10).foldlM (fun (m : Grid) (col : Nat) => setCell m 0 col 0) m = some m' ∧
      wfGrid m' ∧
      ∀ a c : Int, inField (a, c) → cell m' a c = if a = 0 then 0 else cell m a c := by
  have hfold : (List.range 10).foldlM (fun (m : Grid) (col : Nat) => setCell m 0 col 0) m
      = writeCells m ((List.range 10).map (fun (col : Nat) => ((0 : Int), (col : Int)))) 0 := by
    unfold writeCells
    rw [List.foldlM_map]
  obtain ⟨m', h1, hwf, hc⟩ := writeCells_spec
    ((List.range 10).map (fun (col : Nat) => ((0 : Int), (col : Int)))) 0 m hm (by
      intro p hp
      obtain ⟨k, hk, rfl⟩ := List.mem_map.mp hp
      have := List.mem_range.mp hk
      exact ⟨by simp, by simp, by simp, by simp only; omega⟩)
  refine ⟨m', by rw [hfold]; exact h1, hwf, ?_⟩
  intro a c hac
  rw [hc a c hac]
  obtain ⟨a1, a2, a3, a4⟩ := hac
  simp only at a3 a4
  by_cases ha : a = 0
  · have : (a, c) ∈ (List.range 10).map (fun (col : Nat) => ((0 : Int), (col : Int))) :=
      List.mem_map.mpr ⟨c.toNat, List.mem_range.mpr (by omega), by
        rw [ha]
        congr 1
        omega⟩
    rw [if_pos this, if_pos ha]
  · have : ¬ (a, c) ∈ (List.range 10).map (fun (col : Nat) => ((0 : Int), (col : Int))) := by
      intro hmem
      obtain ⟨k, _, hk⟩ := List.mem_map.mp hmem
      exact ha (congrArg Prod.fst hk).symm
    rw [if_neg this, if_neg ha]

theorem shift_ereased_cells (m : Grid) (hm : wfGrid m) (row : Int) (h0 : 0 ≤ row)
    (h1 : row < 20) :
    ∃ m', shift_ereased m row = some m' ∧ wfGrid m' ∧
      ∀ a c : Int, inField (a, c) →
        cell m' a c = if a = 0 then 0 else if a ≤ row then cell m (a - 1) c else cell m a c := by
  obtain ⟨m1, e1, hwf1, hc1⟩ := shift_rows_spec row.toNat (by omega) m hm
  obtain ⟨m2, e2, hwf2, hc2⟩ := zero_top_spec m1 hwf1
  refine ⟨m2, ?_, hwf2, ?_⟩
  · simp only [shift_ereased, e1, Option.bind]; exact e2
  · intro a c hac
    rw [hc2 a c hac, hc1 a c hac]
    obtain ⟨a1, a2, a3, a4⟩ := hac
    simp only at a1
    by_cases ha : a = 0
    · rw [if_pos ha, if_pos ha]
    · rw [if_neg ha, if_neg ha]
      by_cases hle : a ≤ row
      · rw [if_pos (by omega), if_pos hle]
      · rw [if_neg (by omega), if_neg hle]

theorem wfGrid_shifted (m : Grid) (hm : wfGrid m) (k : Nat) (hk : k < 20) :
    wfGrid (zeroRow :: m.eraseIdx k) := by
  constructor
  · rw [List.length_cons, List.length_eraseIdx_of_lt (by rw [hm.1]; exact hk), hm.1]
  · intro row hrow
    rcases List.mem_cons.mp hrow with h | h
    · rw [h]; simp [zeroRow]
    · exact hm.2 row (List.mem_of_mem_eraseIdx h)

theorem getD_replicate_zero (n j : Nat) : (List.replicate n (0 : Int)).getD j 0 = 0 := by
  rw [List.getD_eq_getElem?_getD, List.getElem?_replicate]
  split <;> rfl

theorem cell_shifted (m : Grid) (k : Nat) (a c : Int) (ha : 0 ≤ a) :
    cell (zeroRow :: m.eraseIdx k) a c
      = if a = 0 then 0 else if a ≤ (k : Int) then cell m (a - 1) c else cell m a c := by
  unfold cell
  by_cases h0 : a = 0
  · subst h0
    rw [if_pos rfl]
    show (List.replicate 10 (0 : Int)).getD c.toNat 0 = 0
    exact getD_replicate_zero 10 c.toNat
  · rw [if_neg h0]
    obtain ⟨j, hj⟩ : ∃ j : Nat, a.toNat = j + 1 := ⟨a.toNat - 1, by omega⟩
    rw [hj, List.getD_cons_succ]
    have hrow : (m.eraseIdx k).getD j [] = if j < k then m.getD j [] else m.getD (j + 1) [] := by
      simp only [List.getD_eq_getElem?_getD, List.getElem?_eraseIdx]
      split <;> rfl
    rw [hrow]
    by_cases hle : a ≤ (k : Int)
    · rw [if_pos hle, if_pos (by omega)]
      have : (a - 1).toNat = j := by omega
      rw [this]
    · rw [if_neg hle, if_neg (by omega)]

theorem shift_ereased_eq (m : Grid) (hm : wfGrid m) (k : Nat) (hk : k < 20) :
    shift_ereased m (k : Int) = some (zeroRow :: m.eraseIdx k) := by
  obtain ⟨m', e, hwf, hc⟩ := shift_ereased_cells m hm (k : Int) (by omega) (by omega)
  rw [e]
  congr 1
  apply grid_ext _ _ hwf (wfGrid_shifted m hm k hk)
  intro a c hac
  rw [hc a c hac, cell_shifted m k a c hac.1]

theorem foldl_count_eq (l : List Nat) (P : Nat → Bool) (init : Int) :
    l.foldl (fun (p : Int) (col : Nat) => if P col = true then p + 1 else p) init
      = init + (l.countP P : Int) := by
  induction l generalizing init with
  | nil => simp
  | cons x xs ih =>
    rw [List.foldl_cons, ih, List.countP_cons]
    by_cases hx : P x = true
    · simp only [hx, if_true]; push_cast; omega
    · simp only [hx, if_false]; push_cast; omega

theorem populated_eq_iff (m : Grid) (hm : wfGrid m) (k : Nat) (hk : k < 20) :
    populated m (k : Int) = TETRIS_FIELD_WIDTH ↔ fullRow (m.getD k []) = true := by
  have hlen := wfGrid_row_length m hm k hk
  have hfold : populated m (k : Int)
      = ((List.range 10).countP (fun (col : Nat) => decide (cell m (k : Int) (col : Int) ≠ 0)) : Int) := by
    unfold populated
    have := foldl_count_eq (List.range 10)
      (fun (col : Nat) => decide (cell m (k : Int) (col : Int) ≠ 0)) 0
    simp only [decide_eq_true_eq, zero_add] at this
    exact this
  rw [hfold]
  have hten : (TETRIS_FIELD_WIDTH : Int) = (((List.range 10).length : Nat) : Int) := by
    simp
  rw [hten, Int.ofNat_inj, List.countP_eq_length]
  unfold fullRow
  rw [List.all_eq_true]
  simp only [List.mem_range, decide_eq_true_eq, cell, Int.toNat_ofNat]
  generalize m.getD k [] = R at hlen
  constructor
  · intro h v hv
    obtain ⟨j, hj, rfl⟩ := List.getElem_of_mem hv
    have := h j (by omega)
    rwa [List.getD_eq_getElem?_getD, List.getElem?_eq_getElem hj, Option.getD_some] at this
  · intro h j hj
    have hj' : j < R.length := by omega
    have := h _ (List.getElem_mem hj')
    rwa [List.getD_eq_getElem?_getD, List.getElem?_eq_getElem hj', Option.getD_some]

theorem take_eraseIdx_self {α : Type} (l : List α) (n : Nat) (h : n ≤ l.length) :
    (l.eraseIdx n).take n = l.take n := by
  rw [List.eraseIdx_eq_take_drop_succ]
  exact List.take_left' (List.length_take_of_le h)

theorem drop_eraseIdx_self {α : Type} (l : List α) (n : Nat) (h : n ≤ l.length) :
    (l.eraseIdx n).drop n = l.drop (n + 1) := by
  rw [List.eraseIdx_eq_take_drop_succ]
  exact List.drop_left' (List.length_take_of_le h)

theorem take_succ_getD (m : Grid) (n : Nat) (h : n < m.length) :
    m.take (n + 1) = m.take n ++ [m.getD n []] := by
  rw [List.take_succ, List.getD_eq_getElem?_getD, List.getElem?_eq_getElem h]
  rfl

theorem drop_getD_cons (m : Grid) (n : Nat) (h : n < m.length) :
    m.drop n = m.getD n [] :: m.drop (n + 1) := by
  rw [List.drop_eq_getElem_cons h, List.getD_eq_getElem?_getD, List.getElem?_eq_getElem h]
  rfl

theorem fullRow_zeroRow : fullRow zeroRow = false := by decide

theorem replicate_append_cons {α : Type} (k : Nat) (z : α) (l : List α) :
    List.replicate k z ++ z :: l = List.replicate (k + 1) z ++ l := by
  induction k with
  | zero => rfl
  | succ n ih =>
    rw [List.replicate_succ, List.cons_append, ih]
    rfl

theorem erase_lines_loop_spec (fuel : Nat) :
    ∀ (n : Nat) (m : Grid) (cnt : Int), wfGrid m → n ≤ 20 →
      n + (m.take n).countP fullRow + 1 ≤ fuel →
      erase_lines_loop fuel m ((n : Int) - 1) cnt
        = some (List.replicate ((m.take n).countP fullRow) zeroRow ++
                  ((m.take n).filter (fun r => !fullRow r) ++ m.drop n),
                cnt + (((m.take n).countP fullRow : Nat) : Int)) := by
  induction fuel with
  | zero => intro n m cnt _ _ hf; omega
  | succ fuel ih =>
    intro n m cnt hm hn hf
    cases n with
    | zero =>
      simp [erase_lines_loop]
    | succ n =>
      have hlen : n < m.length := by rw [hm.1]; omega
      have hrow : ((n + 1 : Nat) : Int) - 1 = (n : Int) := by push_cast; omega
      have htake := take_succ_getD m n hlen
      have hdrop := drop_getD_cons m n hlen
      have hiff := populated_eq_iff m hm n (by omega)
      generalize m.getD n [] = R at htake hdrop hiff
      rw [hrow]
      unfold erase_lines_loop
      rw [if_pos (by omega)]
      by_cases hfull : fullRow R = true
      · have hpop : populated m (n : Int) = TETRIS_FIELD_WIDTH := hiff.mpr hfull
        have hcount : (m.take (n + 1)).countP fullRow = (m.take n).countP fullRow + 1 := by
          rw [htake, List.countP_append]
          simp [hfull]
        have hfilter : (m.take (n + 1)).filter (fun r => !fullRow r)
            = (m.take n).filter (fun r => !fullRow r) := by
          rw [htake, List.filter_append]
          simp [hfull]
        rw [if_pos hpop, shift_ereased_eq m hm n (by omega)]
        simp only [Option.bind]
        have hback : (n : Int) + 1 - 1 = ((n + 1 : Nat) : Int) - 1 := by push_cast; omega
        have htake1 : (zeroRow :: m.eraseIdx n).take (n + 1) = zeroRow :: m.take n := by
          rw [List.take_succ_cons, take_eraseIdx_self m n (by omega)]
        have hdrop1 : (zeroRow :: m.eraseIdx n).drop (n + 1) = m.drop (n + 1) := by
          rw [List.drop_succ_cons, drop_eraseIdx_self m n (by omega)]
        have hcount1 : ((zeroRow :: m.eraseIdx n).take (n + 1)).countP fullRow
            = (m.take n).countP fullRow := by
          rw [htake1, List.countP_cons, fullRow_zeroRow]
          simp
        rw [hback, ih (n + 1) (zeroRow :: m.eraseIdx n) (cnt + 1) (wfGrid_shifted m hm n (by omega))
          hn (by rw [hcount1]; omega)]
        rw [hcount1, htake1, hdrop1, hcount, hfilter]
        have hfz : List.filter (fun r => !fullRow r) (zeroRow :: m.take n)
            = zeroRow :: List.filter (fun r => !fullRow r) (m.take n) := by
          rw [List.filter_cons_of_pos]
          rw [fullRow_zeroRow]; rfl
        rw [hfz, List.cons_append, replicate_append_cons]
        congr 2
        push_cast
        omega
      · have hpop : ¬ populated m (n : Int) = TETRIS_FIELD_WIDTH := fun h =>
          hfull (hiff.mp h)
        have hfull' : fullRow R = false := by simpa using hfull
        have hcount : (m.take (n + 1)).countP fullRow = (m.take n).countP fullRow := by
          rw [htake, List.countP_append]
          simp [hfull']
        have hfilter : (m.take (n + 1)).filter (fun r => !fullRow r)
            = (m.take n).filter (fun r => !fullRow r) ++ [R] := by
          rw [htake, List.filter_append]
          simp [hfull']
        rw [if_neg hpop, ih n m cnt hm (by omega) (by rw [hcount] at hf; omega)]
        rw [hcount, hfilter, List.append_assoc, List.singleton_append, ← hdrop]

theorem erase_lines_eq (g : Grid) (hg : wfGrid g) (fuel : Nat) (hfuel : 41 ≤ fuel) :
    erase_lines fuel g
      = some (List.replicate (g.countP fullRow) zeroRow ++ g.filter (fun r => !fullRow r),
              ((g.countP fullRow : Nat) : Int)) := by
  have htake : g.take 20 = g := List.take_of_length_le (by rw [hg.1])
  have hdrop : g.drop 20 = [] := List.drop_of_length_le (by rw [hg.1])
  have hcount : g.countP fullRow ≤ 20 := by
    have := List.countP_le_length fullRow (l := g)
    rw [hg.1] at this
    exact this
  have h := erase_lines_loop_spec fuel 20 g 0 hg (le_refl _) (by rw [htake]; omega)
  rw [htake, hdrop, List.append_nil, zero_add] at h
  exact h

theorem single_full_row {α : Type} (p : α → Bool) (d : α) (l : List α) (k : Nat)
    (hk : k < l.length) (hfull : p (l.getD k d) = true)
    (hothers : ∀ j : Nat, j < l.length → j ≠ k → p (l.getD j d) = false) :
    l.countP p = 1 ∧ l.filter (fun r => !p r) = l.eraseIdx k := by
  induction l generalizing k with
  | nil => simp at hk
  | cons x xs ih =>
    cases k with
    | zero =>
      have hx : p x = true := hfull
      have hrest : ∀ a ∈ xs, p a = false := by
        intro a ha
        obtain ⟨j, hj, rfl⟩ := List.getElem_of_mem ha
        have := hothers (j + 1) (by simp only [List.length_cons]; omega) (by omega)
        rwa [List.getD_cons_succ, List.getD_eq_getElem?_getD, List.getElem?_eq_getElem hj,
          Option.getD_some] at this
      constructor
      · rw [List.countP_cons, if_pos hx]
        have : xs.countP p = 0 := List.countP_eq_zero.mpr (fun a ha => by simp [hrest a ha])
        omega
      · rw [List.filter_cons_of_neg (by simp [hx]), List.eraseIdx_cons_zero]
        exact List.filter_eq_self.mpr (fun a ha => by simp [hrest a ha])
    | succ k =>
      have hx : p x = false := hothers 0 (by simp) (by omega)
      obtain ⟨h1, h2⟩ := ih k (by simpa using hk) hfull (fun j hj hne => by
        have := hothers (j + 1) (by simp only [List.length_cons]; omega) (by omega)
        rwa [List.getD_cons_succ] at this)
      constructor
      · rw [List.countP_cons, hx, h1]; simp
      · rw [List.filter_cons_of_pos (by simp [hx]), h2, List.eraseIdx_cons_succ]

/-- C7: for a 20x10 grid and fuel for 41 iterations, `erase_lines` returns, and
the count it returns is the number `n` of full rows of the input; the grid it
leaves is `n` all-zero rows followed by the non-full rows of the input in their
order, holds no full row, and is the input when `n = 0`. -/
theorem C7_erase_lines_general (g : Grid) (hg : wfGrid g) (fuel : Nat) (hfuel : 41 ≤ fuel) :
    erase_lines fuel g
      = some (List.replicate (g.countP fullRow) zeroRow ++ g.filter (fun r => !fullRow r),
              ((g.countP fullRow : Nat) : Int)) ∧
    (∀ row ∈ List.replicate (g.countP fullRow) zeroRow ++ g.filter (fun r => !fullRow r),
      fullRow row = false) ∧
    (g.countP fullRow = 0 → erase_lines fuel g = some (g, 0)) := by
  refine ⟨erase_lines_eq g hg fuel hfuel, ?_, ?_⟩
  · intro row hrow
    rcases List.mem_append.mp hrow with h | h
    · rw [(List.mem_replicate.mp h).2]; exact fullRow_zeroRow
    · have := (List.mem_filter.mp h).2
      simpa using this
  · intro h0
    rw [erase_lines_eq g hg fuel hfuel, h0]
    have hall : ∀ a ∈ g, (fun r => !fullRow r) a = true := by
      intro a ha
      have := List.countP_eq_zero.mp h0 a ha
      simpa using this
    rw [List.filter_eq_self.mpr hall]
    rfl

/-- C6: for a 20x10 grid in which row `k` is full and no other row is, and fuel
for 41 iterations, `erase_lines` returns 1, and in the grid it leaves row 0 is
all zeros, every row `i` with `1 <= i <= k` is row `i - 1` of the input, and
every row below `k` is the row of the input. -/
theorem C6_erase_single_full_row (g : Grid) (hg : wfGrid g) (k : Nat) (hk : k < 20)
    (hfull : fullRow (g.getD k []) = true)
    (hothers : ∀ j : Nat, j < 20 → j ≠ k → fullRow (g.getD j []) = false)
    (fuel : Nat) (hfuel : 41 ≤ fuel) :
    ∃ g', erase_lines fuel g = some (g', 1) ∧
      g'.getD 0 [] = List.replicate 10 0 ∧
      (∀ i : Nat, 1 ≤ i → i ≤ k → g'.getD i [] = g.getD (i - 1) []) ∧
      (∀ i : Nat, k < i → i < 20 → g'.getD i [] = g.getD i []) := by
  obtain ⟨hcount, hfilter⟩ := single_full_row fullRow [] g k (by rw [hg.1]; exact hk) hfull
    (fun j hj hne => hothers j (by rw [hg.1] at hj; exact hj) hne)
  have hrow : ∀ j : Nat, (g.eraseIdx k).getD j []
      = if j < k then g.getD j [] else g.getD (j + 1) [] := by
    intro j
    simp only [List.getD_eq_getElem?_getD, List.getElem?_eraseIdx]
    split <;> rfl
  refine ⟨zeroRow :: g.eraseIdx k, ?_, rfl, ?_, ?_⟩
  · rw [erase_lines_eq g hg fuel hfuel, hcount, hfilter]
    rfl
  · intro i h1 h2
    obtain ⟨j, rfl⟩ : ∃ j, i = j + 1 := ⟨i - 1, by omega⟩
    rw [List.getD_cons_succ, hrow j, if_pos (by omega)]
    rfl
  · intro i h1 h2
    obtain ⟨j, rfl⟩ : ∃ j, i = j + 1 := ⟨i - 1, by omega⟩
    rw [List.getD_cons_succ, hrow j, if_neg (by omega)]

/-! ## The statements at sample inputs -/

/-- The T brick at the spawn anchor on the empty field is painted. -/
theorem painted_sample_spawn :
    Painted (sampleEngine emptyField 6 (brickT.moveTo 5 0)) emptyField 6 (brickT.moveTo 5 0) :=
  ⟨rfl, rfl, by decide, by decide, by decide⟩

/-- The T brick against the left wall of the empty field is painted. -/
theorem painted_sample_wall :
    Painted (sampleEngine emptyField 6 (brickT.moveTo 1 0)) emptyField 6 (brickT.moveTo 1 0) :=
  ⟨rfl, rfl, by decide, by decide, by decide⟩

/-- C1 at the T brick on the spawn anchor of the empty field. -/
theorem C1_witness :
    wfGrid emptyField ∧ is_collide emptyField (brickT.moveTo 5 0) = false :=
  ⟨by decide,
    (C1_is_collide_iff emptyField (brickT.moveTo 5 0) (by decide) (by decide) (by decide)).2
      (by
        intro r c hr hc hmask
        interval_cases r <;> interval_cases c <;>
          first
          | decide
          | exact absurd (by decide) hmask)⟩

/-- C10 at the T brick: four rotations either way give it back. -/
theorem C10_witness :
    _next_state^[brickT.total_states.toNat] brickT = brickT ∧
    _prev_state^[brickT.total_states.toNat] brickT = brickT :=
  ⟨(C10_rotation_circular brickT (by decide) (by decide) (by decide)).1,
    (C10_rotation_circular brickT (by decide) (by decide) (by decide)).2.1⟩

/-- C9 at score 3000. -/
theorem C9_witness : get_level_by_score 3000 = min 10 (max 1 (3000 / 600)) :=
  C9_leveling_formula.1 3000 (by decide)

/-- C2 at the T brick against the left wall, top row: Left and Action are
rejected and leave the engine as it was. -/
theorem C2_witness :
    _left (sampleEngine emptyField 6 (brickT.moveTo 1 0)) false
      = some (sampleEngine emptyField 6 (brickT.moveTo 1 0)) ∧
    _action (sampleEngine emptyField 6 (brickT.moveTo 1 0)) false
      = some (sampleEngine emptyField 6 (brickT.moveTo 1 0)) :=
  ⟨(C2_move_atomicity _ emptyField 6 (brickT.moveTo 1 0) false painted_sample_wall).1
      (by decide),
    (C2_move_atomicity _ emptyField 6 (brickT.moveTo 1 0) false painted_sample_wall).2.2
      (by decide) (by decide) (by decide)⟩

/-- C3 at the T brick on the spawn anchor of the empty field: Left moves it to
column 4. -/
theorem C3_witness :
    ∃ b' g, _left (sampleEngine emptyField 6 (brickT.moveTo 5 0)) false
        = some ((sampleEngine emptyField 6 (brickT.moveTo 5 0)).store 6 b' g) ∧
      b'.pos = ⟨(brickT.moveTo 5 0).pos.x - 1, (brickT.moveTo 5 0).pos.y⟩ := by
  obtain ⟨⟨b', g, h1, _, _, h4, _⟩, _⟩ :=
    C3_left_right _ emptyField 6 (brickT.moveTo 5 0) false painted_sample_spawn
  exact ⟨b', g, h1, h4.mpr (by decide)⟩

/-- C5 at the T brick on the spawn anchor of the empty field: the soft drop
moves it one row down. -/
theorem C5_witness :
    ∃ g, _down 0 (sampleEngine emptyField 6 (brickT.moveTo 5 0)) false
      = some ((sampleEngine emptyField 6 (brickT.moveTo 5 0)).store 6
          ((brickT.moveTo 5 0).moveTo (brickT.moveTo 5 0).pos.x
            ((brickT.moveTo 5 0).pos.y + 1)) g) := by
  obtain ⟨g, h1, _⟩ :=
    (C5_soft_drop 0 _ emptyField 6 (brickT.moveTo 5 0) painted_sample_spawn).1 (by decide)
  exact ⟨g, h1⟩

/-- C4 (amended) at the T brick on the spawn anchor of the empty field. -/
theorem C4_witness :
    ∃ (y' : Int) (g : Grid),
      place_brick emptyField ((brickT.moveTo 5 0).moveTo (brickT.moveTo 5 0).pos.x y') = some g ∧
      _down 21 (sampleEngine emptyField 6 (brickT.moveTo 5 0)) true
        = some ((sampleEngine emptyField 6 (brickT.moveTo 5 0)).store 6
            ((brickT.moveTo 5 0).moveTo (brickT.moveTo 5 0).pos.x y') g).attach := by
  obtain ⟨y', g, _, _, _, _, hg, _, _, _, hdown⟩ :=
    C4_hard_drop _ emptyField 6 (brickT.moveTo 5 0) painted_sample_spawn
      ⟨1, 1, by decide, by decide, by decide⟩
  exact ⟨y', g, hg, hdown 21 (le_refl _)⟩

theorem blankBrick_mask (x y : Int) (r c : Nat) : (blankBrick.moveTo x y).mask r c = 0 := by
  show ((([[[0, 0, 0, 0], [0, 0, 0, 0], [0, 0, 0, 0], [0, 0, 0, 0]]] :
    List (List (List Int))).getD 0 []).getD r []).getD c 0 = 0
  rw [List.getD_cons_zero]
  rcases r with _ | _ | _ | _ | r <;> rcases c with _ | _ | _ | _ | c <;> rfl

theorem blankBrick_free (s : Grid) (x y : Int) : is_collide s (blankBrick.moveTo x y) = false := by
  rw [is_collide_false_iff]
  intro p hp
  obtain ⟨r, c, _, _, hmask, _⟩ := (mem_brickCells (blankBrick.moveTo x y) p).mp hp
  exact absurd (blankBrick_mask x y r c) hmask

theorem blankBrick_drop_loop (fuel : Nat) (s : Grid) (y : Int) :
    drop_loop fuel s (blankBrick.moveTo 5 y) = none := by
  induction fuel generalizing y with
  | zero => rfl
  | succ n ih =>
    unfold drop_loop
    rw [blankBrick_free s 5 y, if_pos (by decide)]
    exact ih (y + 1)

/-- C4 as stated fails: the engine whose active piece is the blank brick is a
painted state (the brick collides nowhere, so no row `y'` has a collision at
`y' + 1`), and Down with hold = true returns for no amount of fuel: the loop
of `_down` never ends. -/
theorem C4_blank_brick_never_lands :
    Painted (sampleEngine emptyField 0 blankBrick) emptyField 0 blankBrick ∧
    (∀ y' : Int, is_collide emptyField (blankBrick.moveTo blankBrick.pos.x (y' + 1)) = false) ∧
    ∀ fuel : Nat, _down fuel (sampleEngine emptyField 0 blankBrick) true = none := by
  have hp : Painted (sampleEngine emptyField 0 blankBrick) emptyField 0 blankBrick :=
    ⟨rfl, rfl, by decide, by decide, by decide⟩
  refine ⟨hp, fun y' => blankBrick_free emptyField _ _, fun fuel => ?_⟩
  rw [down_hard_eval fuel _ emptyField 0 blankBrick hp]
  have := blankBrick_drop_loop fuel emptyField 0
  have e : blankBrick.moveTo 5 0 = blankBrick := rfl
  rw [e] at this
  rw [this]
  rfl

/-- C6 at a field whose bottom row alone is full. -/
theorem C6_witness : ∃ g', erase_lines 41 oneFullRowField = some (g', 1) := by
  obtain ⟨g', h1, _⟩ :=
    C6_erase_single_full_row oneFullRowField (by decide) 19 (by decide) (by decide)
      (by decide) 41 (le_refl _)
  exact ⟨g', h1⟩

/-- C7 at a field with two full rows. -/
theorem C7_witness :
    erase_lines 41 twoFullRowsField
      = some (List.replicate (twoFullRowsField.countP fullRow) zeroRow ++
                twoFullRowsField.filter (fun r => !fullRow r),
              ((twoFullRowsField.countP fullRow : Nat) : Int)) :=
  (C7_erase_lines_general twoFullRowsField (by decide) 41 (le_refl _)).1

/-! ## Matrices of any size: writes of every cell -/

theorem dimGrid_row_length (R C : Nat) (m : Grid) (hm : dimGrid R C m) (r : Nat) (hr : r < R) :
    (m.getD r []).length = C := by
  obtain ⟨hl, hrows⟩ := hm
  have hlt : r < m.length := by omega
  rw [List.getD_eq_getElem?_getD, List.getElem?_eq_getElem hlt]
  exact hrows _ (List.getElem_mem hlt)

theorem wfGrid_iff_dimGrid (m : Grid) : wfGrid m ↔ dimGrid 20 10 m := Iff.rfl

theorem setCell_dim (R C : Nat) (m : Grid) (hm : dimGrid R C m) (r c : Nat) (v : Int)
    (hr : r < R) (hc : c < C) :
    ∃ m', setCell m (r : Int) (c : Int) v = some m' ∧ dimGrid R C m' ∧
      ∀ r' c' : Nat, r' < R → c' < C →
        cell m' (r' : Int) (c' : Int) = if r' = r ∧ c' = c then v else cell m (r' : Int) (c' : Int) := by
  have hlen : m.length = R := hm.1
  have hrow : (m.getD r []).length = C := dimGrid_row_length R C m hm r hr
  refine ⟨m.set r ((m.getD r []).set c v), ?_, ?_, ?_⟩
  · unfold setCell
    simp only [Int.toNat_ofNat]
    rw [if_pos]
    refine ⟨by omega, by omega, by omega, by omega⟩
  · refine ⟨by simp [hlen], ?_⟩
    intro row hmem
    rcases List.mem_or_eq_of_mem_set hmem with h | h
    · exact hm.2 row h
    · rw [h, List.length_set]; exact hrow
  · intro r' c' hr' hc'
    unfold cell
    simp only [Int.toNat_ofNat]
    by_cases hrr : r' = r
    · subst hrr
      have hlt : r' < m.length := by omega
      simp only [List.getD_eq_getElem?_getD, List.getElem?_set, hlt, if_true, true_and,
        Option.getD_some]
      by_cases hcc : c' = c
      · subst hcc
        have hlt2 : c' < (m[r']?.getD []).length := by
          rw [← List.getD_eq_getElem?_getD]; omega
        simp [hlt2]
      · have hne : ¬ c = c' := fun h => hcc h.symm
        simp [hcc, hne]
    · have hne : ¬ r = r' := fun h => hrr h.symm
      simp [List.getD_eq_getElem?_getD, List.getElem?_set, hne, hrr]

theorem fill_cols_spec (R C : Nat) (f : Nat → Int) (r : Nat) (hr : r < R) (cols : List Nat)
    (hcols : ∀ k ∈ cols, k < C) (m : Grid) (hm : dimGrid R C m) :
    ∃ m', cols.foldlM (fun (m : Grid) (col : Nat) => setCell m (r : Int) (col : Int) (f col)) m
        = some m' ∧ dimGrid R C m' ∧
      ∀ r' c' : Nat, r' < R → c' < C →
        cell m' (r' : Int) (c' : Int)
          = if r' = r ∧ c' ∈ cols then f c' else cell m (r' : Int) (c' : Int) := by
  induction cols generalizing m with
  | nil => exact ⟨m, rfl, hm, fun r' c' _ _ => by simp⟩
  | cons k ks ih =>
    have hk : k < C := hcols k (List.mem_cons_self _ _)
    obtain ⟨m1, h1, hwf1, hc1⟩ := setCell_dim R C m hm r k (f k) hr hk
    obtain ⟨m2, h2, hwf2, hc2⟩ := ih (fun j hj => hcols j (List.mem_cons_of_mem _ hj)) m1 hwf1
    refine ⟨m2, ?_, hwf2, ?_⟩
    · rw [List.foldlM_cons, h1]; exact h2
    · intro r' c' hr' hc'
      rw [hc2 r' c' hr' hc', hc1 r' c' hr' hc']
      by_cases hks : r' = r ∧ c' ∈ ks
      · simp [hks]
      · by_cases hk' : r' = r ∧ c' = k
        · obtain ⟨e1, e2⟩ := hk'
          subst e1; subst e2
          simp
        · rw [if_neg hks, if_neg hk', if_neg]
          rintro ⟨e1, e2⟩
          rcases List.mem_cons.mp e2 with e3 | e3
          · exact hk' ⟨e1, e3⟩
          · exact hks ⟨e1, e3⟩

theorem fill_rows_spec (R C : Nat) (f : Nat → Nat → Int) (rows : List Nat)
    (hrows : ∀ k ∈ rows, k < R) (m : Grid) (hm : dimGrid R C m) :
    ∃ m', rows.foldlM (fun (m : Grid) (row : Nat) =>
        (List.range C).foldlM (fun (m : Grid) (col : Nat) =>
          setCell m (row : Int) (col : Int) (f row col)) m) m = some m' ∧ dimGrid R C m' ∧
      ∀ r' c' : Nat, r' < R → c' < C →
        cell m' (r' : Int) (c' : Int)
          = if r' ∈ rows then f r' c' else cell m (r' : Int) (c' : Int) := by
  induction rows generalizing m with
  | nil => exact ⟨m, rfl, hm, fun r' c' _ _ => by simp⟩
  | cons k ks ih =>
    have hk : k < R := hrows k (List.mem_cons_self _ _)
    obtain ⟨m1, h1, hwf1, hc1⟩ := fill_cols_spec R C (f k) k hk (List.range C)
      (fun j hj => List.mem_range.mp hj) m hm
    obtain ⟨m2, h2, hwf2, hc2⟩ := ih (fun j hj => hrows j (List.mem_cons_of_mem _ hj)) m1 hwf1
    refine ⟨m2, ?_, hwf2, ?_⟩
    · rw [List.foldlM_cons, h1]; exact h2
    · intro r' c' hr' hc'
      rw [hc2 r' c' hr' hc', hc1 r' c' hr' hc']
      have hmem : c' ∈ List.range C := List.mem_range.mpr hc'
      by_cases hks : r' ∈ ks
      · simp [hks]
      · by_cases hk' : r' = k
        · subst hk'
          simp [hmem]
        · have : ¬ r' ∈ k :: ks := by
            intro h
            rcases List.mem_cons.mp h with e | e
            · exact hk' e
            · exact hks e
          simp [hks, hk', this]

theorem fill_spec (R C : Nat) (f : Nat → Nat → Int) (m : Grid) (hm : dimGrid R C m) :
    ∃ m', (List.range R).foldlM (fun (m : Grid) (row : Nat) =>
        (List.range C).foldlM (fun (m : Grid) (col : Nat) =>
          setCell m (row : Int) (col : Int) (f row col)) m) m = some m' ∧ dimGrid R C m' ∧
      ∀ r c : Nat, r < R → c < C → cell m' (r : Int) (c : Int) = f r c := by
  obtain ⟨m', h1, hwf, hc⟩ := fill_rows_spec R C f (List.range R)
    (fun k hk => List.mem_range.mp hk) m hm
  refine ⟨m', h1, hwf, fun r c hr hc' => ?_⟩
  rw [hc r c hr hc', if_pos (List.mem_range.mpr hr)]

theorem clear_tetris_fields_eq (field : Grid) (hf : wfGrid field) :
    clear_tetris_fields field = some emptyField := by
  obtain ⟨m', h1, hwf, hc⟩ := fill_spec 20 10 (fun _ _ => 0) field hf
  unfold clear_tetris_fields
  rw [h1]
  congr 1
  apply grid_ext _ _ hwf (by decide)
  intro r c hrc
  obtain ⟨a1, a2, a3, a4⟩ := hrc
  simp only at a1 a2 a3 a4
  have := hc r.toNat c.toNat (by omega) (by omega)
  rw [Int.toNat_of_nonneg a1, Int.toNat_of_nonneg a3] at this
  rw [this]
  unfold cell emptyField create_matrix
  have hrow : (List.replicate 20 (List.replicate 10 (0 : Int))).getD r.toNat []
      = List.replicate 10 0 := by
    rw [List.getD_eq_getElem?_getD, List.getElem?_replicate, if_pos (by omega)]
    rfl
  rw [hrow, getD_replicate_zero]

theorem populate_next_spec (next : Grid) (hn : dimGrid 4 4 next) (brick : Brick) :
    ∃ m', populate_next next brick = some m' ∧ dimGrid 4 4 m' ∧
      ∀ r c : Nat, r < 4 → c < 4 →
        cell m' (r : Int) (c : Int) = if brick.mask r c ≠ 0 then brick.color else 0 := by
  obtain ⟨m', h1, hwf, hc⟩ :=
    fill_spec 4 4 (fun r c => if brick.mask r c ≠ 0 then brick.color else 0) next hn
  refine ⟨m', ?_, hwf, hc⟩
  rw [← h1]
  unfold populate_next
  congr 1
  funext m row
  congr 1
  funext m col
  split <;> rfl

/-! ## The catalog hands out bricks -/

theorem get_random_loop_spec (n : Nat) (last : Int) (rand : List Nat) (idx : Int)
    (rest : List Nat) (h : get_random_loop n last rand = some (idx, rest)) :
    ∃ k : Nat, idx = (k : Int) ∧ k < n ∧ (1 < n → (k : Int) ≠ last) := by
  induction rand with
  | nil => simp [get_random_loop] at h
  | cons r rs ih =>
    unfold get_random_loop at h
    by_cases hn : n = 0
    · simp [hn] at h
    · rw [if_neg hn] at h
      by_cases hrep : ((r % n : Nat) : Int) = last ∧ n > 1
      · simp only [hrep, and_self, if_true] at h
        exact ih h
      · simp only [hrep, if_false, Option.some.injEq, Prod.mk.injEq] at h
        refine ⟨r % n, h.1.symm, Nat.mod_lt _ (Nat.pos_of_ne_zero hn), fun h1 heq => ?_⟩
        exact hrep ⟨heq, h1⟩

theorem get_random_loop_isSome_iff (n : Nat) (last : Int) (rand : List Nat) :
    (∃ idx rest, get_random_loop n last rand = some (idx, rest)) ↔
      n ≠ 0 ∧ ∃ r ∈ rand, n = 1 ∨ ((r % n : Nat) : Int) ≠ last := by
  induction rand with
  | nil => simp [get_random_loop]
  | cons r rs ih =>
    unfold get_random_loop
    by_cases hn : n = 0
    · simp [hn]
    · rw [if_neg hn]
      by_cases hrep : ((r % n : Nat) : Int) = last ∧ n > 1
      · simp only [hrep, and_self, if_true]
        rw [ih]
        constructor
        · rintro ⟨h0, x, hx, hx'⟩
          exact ⟨h0, x, List.mem_cons_of_mem _ hx, hx'⟩
        · rintro ⟨h0, x, hx, hx'⟩
          rcases List.mem_cons.mp hx with e | e
          · subst e
            rcases hx' with h1 | h1
            · omega
            · exact absurd hrep.1 h1
          · exact ⟨h0, x, e, hx'⟩
      · simp only [hrep, if_false]
        constructor
        · intro _
          refine ⟨hn, r, List.mem_cons_self _ _, ?_⟩
          by_cases h1 : n = 1
          · exact Or.inl h1
          · right
            intro heq
            exact hrep ⟨heq, by omega⟩
        · intro _
          exact ⟨_, _, rfl⟩

theorem handOut_length (items : List Brick) (k : Nat) : (handOut items k).length = items.length := by
  unfold handOut
  split
  · simp
  · rfl

theorem handOut_getElem? (items : List Brick) (k j : Nat) :
    (handOut items k)[j]? = if j = k then (items[j]?).map Brick.fresh else items[j]? := by
  unfold handOut
  by_cases hjk : j = k
  · subst hjk
    rw [if_pos rfl]
    cases h : items[j]? with
    | none => simp [h]
    | some b =>
      have hlt : j < items.length := by
        rcases Nat.lt_or_ge j items.length with hlt | hge
        · exact hlt
        · rw [List.getElem?_eq_none hge] at h; cases h
      simp [List.getElem?_set_self hlt]
  · rw [if_neg hjk]
    cases h : items[k]? with
    | none => rfl
    | some b =>
      have hne : ¬ k = j := fun e => hjk e.symm
      simp [List.getElem?_set, hne]

theorem get_random_eval (self : TetrisBrickRepository) (rand : List Nat) (k : Nat)
    (rest : List Nat)
    (h : get_random_loop self.items.length self.last_index rand = some ((k : Int), rest)) :
    _get_random self rand
      = some (({ items := handOut self.items k, last_index := (k : Int) }, some k), rest) ∧
    k < self.items.length := by
  obtain ⟨k', hk', hlt, _⟩ := get_random_loop_spec _ _ _ _ _ h
  have hkk : k' = k := by omega
  subst hkk
  refine ⟨?_, hlt⟩
  unfold _get_random
  rw [h]
  simp only [Option.bind]
  unfold _get
  have hne : ¬ self.items = [] := by
    intro he
    rw [he] at hlt
    simp at hlt
  simp only [hne, if_false, Int.toNat_ofNat]
  rw [if_pos ⟨by omega, by omega⟩, List.getElem?_eq_getElem hlt]
  simp only [Option.bind]
  unfold handOut
  rw [List.getElem?_eq_getElem hlt]
  rfl

/-! ## Spawn -/

theorem spawn_eval (t : Tetris) (rand : List Nat) (c k : Nat) (rest : List Nat)
    (hd : SpawnDraw t rand c k rest) (hq : ∀ j, t.data.next_brick = some j →
      j < t.repository.items.length) :
    __spawn t rand
      = (spawn_place t { items := spawnItems t c k, last_index := (k : Int) } c k).bind
          (fun t' => some (t', rest)) ∧
    c < t.repository.items.length ∧ k < t.repository.items.length := by
  rcases hd with ⟨hnext, hloop⟩ | ⟨hnext, mid, hloop1, hloop2⟩
  · obtain ⟨hev, hk⟩ := get_random_eval t.repository rand k rest hloop
    refine ⟨?_, hq c hnext, hk⟩
    unfold __spawn spawnItems
    simp only [hnext, Option.bind, hev]
  · obtain ⟨hev1, hc⟩ := get_random_eval t.repository rand c mid hloop1
    have hloop2' : get_random_loop
        ({ items := handOut t.repository.items c, last_index := (c : Int) } :
          TetrisBrickRepository).items.length
        ({ items := handOut t.repository.items c, last_index := (c : Int) } :
          TetrisBrickRepository).last_index mid = some ((k : Int), rest) := by
      simp only [handOut_length]
      exact hloop2
    obtain ⟨hev2, hk⟩ := get_random_eval _ mid k rest hloop2'
    simp only [handOut_length] at hk
    refine ⟨?_, hc, hk⟩
    unfold __spawn spawnItems
    simp only [hnext, Option.bind, hev1, hev2]

theorem spawn_anchor : TETRIS_FIELD_WIDTH.tdiv 2 = 5 := by decide

theorem spawn_place_eval (t : Tetris) (repo : TetrisBrickRepository) (c k : Nat)
    (nb cb0 : Brick) (hk : repo.items[k]? = some nb) (hc : repo.items[c]? = some cb0)
    (hn : dimGrid 4 4 t.data.info.next) :
    ∃ next, populate_next t.data.info.next nb = some next ∧ dimGrid 4 4 next ∧
      (∀ r c' : Nat, r < 4 → c' < 4 →
        cell next (r : Int) (c' : Int) = if nb.mask r c' ≠ 0 then nb.color else 0) ∧
      spawn_place t repo c k =
        if is_collide t.data.info.field (cb0.moveTo 5 0) = true then
          some
            { state := TetriState.TETRIS_GAMEOVER_STATE
              data :=
                { info := { t.data.info with next := next, pause := -1 }
                  current_brick := some c
                  next_brick := some k }
              repository := { repo with items := repo.items.set c (cb0.moveTo 5 0) } }
        else
          (place_brick t.data.info.field (cb0.moveTo 5 0)).bind (fun field =>
            some
              { state := TetriState.TETRIS_MOVING_STATE
                data :=
                  { info := { t.data.info with field := field, next := next }
                    current_brick := some c
                    next_brick := some k }
                repository := { repo with items := repo.items.set c (cb0.moveTo 5 0) } }) := by
  obtain ⟨next, h1, hdim, hcells⟩ := populate_next_spec t.data.info.next hn nb
  refine ⟨next, h1, hdim, hcells, ?_⟩
  unfold spawn_place
  simp only [hk, hc, h1, Option.bind, spawn_anchor]
  have e : ({ cb0 with pos := { x := 5, y := 0 } } : Brick) = cb0.moveTo 5 0 := rfl
  rw [e]
  by_cases hcol : is_collide t.data.info.field (cb0.moveTo 5 0) = true
  · simp only [hcol, Bool.not_true, Bool.false_eq_true, if_false, if_true]
  · have hf : is_collide t.data.info.field (cb0.moveTo 5 0) = false := by simpa using hcol
    simp only [hf, Bool.not_false, if_true, Bool.false_eq_true, if_false]

theorem spawnItems_length (t : Tetris) (c k : Nat) :
    (spawnItems t c k).length = t.repository.items.length := by
  unfold spawnItems
  split <;> simp only [handOut_length]

theorem spawnItems_next (t : Tetris) (c k : Nat) (hk : k < t.repository.items.length) :
    ∃ x : Brick, (spawnItems t c k)[k]? = some x.fresh := by
  unfold spawnItems
  split
  · rw [handOut_getElem?, if_pos rfl, List.getElem?_eq_getElem hk]
    exact ⟨_, rfl⟩
  · have hk' : k < (handOut t.repository.items c).length := by rw [handOut_length]; exact hk
    rw [handOut_getElem?, if_pos rfl, List.getElem?_eq_getElem hk']
    exact ⟨_, rfl⟩

/-- What a spawn does, for the draws `c` and `k`: the current brick is item `c`
moved to the anchor `(5, 0)`, the next brick is item `k` in rotation 0, the
preview shows it, and the collision test of the current brick with the field
decides between GAMEOVER (pause -1, field untouched) and MOVING (brick painted). -/
theorem spawn_spec (t : Tetris) (rand : List Nat) (c k : Nat) (rest : List Nat)
    (hw : WfEngine t) (hd : SpawnDraw t rand c k rest) :
    ∃ (t' : Tetris) (cb0 nb : Brick),
      __spawn t rand = some (t', rest) ∧
      (spawnItems t c k)[c]? = some cb0 ∧
      t'.data.current_brick = some c ∧ t'.data.next_brick = some k ∧
      t'.brickAt c = some (cb0.moveTo 5 0) ∧ t'.brickAt k = some nb ∧ nb.state = 0 ∧
      (∀ r c' : Nat, r < 4 → c' < 4 →
        cell t'.data.info.next (r : Int) (c' : Int)
          = if nb.mask r c' ≠ 0 then nb.color else 0) ∧
      t'.repository
        = { items := (spawnItems t c k).set c (cb0.moveTo 5 0), last_index := (k : Int) } ∧
      t'.data.info.score = t.data.info.score ∧
      t'.data.info.high_score = t.data.info.high_score ∧
      t'.data.info.level = t.data.info.level ∧
      t'.data.info.speed = t.data.info.speed ∧
      WfEngine t' ∧
      (is_collide t.data.info.field (cb0.moveTo 5 0) = true →
        t'.state = TetriState.TETRIS_GAMEOVER_STATE ∧ t'.data.info.pause = -1 ∧
        t'.data.info.field = t.data.info.field) ∧
      (is_collide t.data.info.field (cb0.moveTo 5 0) = false →
        t'.state = TetriState.TETRIS_MOVING_STATE ∧
        t'.data.info.pause = t.data.info.pause ∧
        Painted t' t.data.info.field c (cb0.moveTo 5 0)) := by
  obtain ⟨hev, hc, hk⟩ := spawn_eval t rand c k rest hd hw.queued
  have hlen := spawnItems_length t c k
  obtain ⟨x, hx⟩ := spawnItems_next t c k hk
  have hc' : c < (spawnItems t c k).length := by rw [hlen]; exact hc
  have hk' : k < (spawnItems t c k).length := by rw [hlen]; exact hk
  have hcb : (spawnItems t c k)[c]? = some (spawnItems t c k)[c] := List.getElem?_eq_getElem hc'
  generalize (spawnItems t c k)[c] = cb0 at hcb
  obtain ⟨next, _, hdim, hcells, hplace⟩ :=
    spawn_place_eval t { items := spawnItems t c k, last_index := (k : Int) } c k x.fresh cb0
      hx hcb hw.next
  -- the next brick after the current one was moved
  have hnb : ∃ nb : Brick, ((spawnItems t c k).set c (cb0.moveTo 5 0))[k]? = some nb ∧
      nb.state = 0 ∧ nb.mask = x.fresh.mask ∧ nb.color = x.fresh.color := by
    by_cases hkc : k = c
    · subst hkc
      refine ⟨cb0.moveTo 5 0, List.getElem?_set_self hk', ?_, ?_, ?_⟩
      · rw [hx] at hcb
        cases hcb
        rfl
      · rw [hx] at hcb
        cases hcb
        rfl
      · rw [hx] at hcb
        cases hcb
        rfl
    · refine ⟨x.fresh, ?_, rfl, rfl, rfl⟩
      rw [List.getElem?_set, if_neg (fun e => hkc e.symm)]
      exact hx
  obtain ⟨nb, hnb1, hnb2, hnb3, hnb4⟩ := hnb
  have hcur : ((spawnItems t c k).set c (cb0.moveTo 5 0))[c]? = some (cb0.moveTo 5 0) :=
    List.getElem?_set_self hc'
  by_cases hcol : is_collide t.data.info.field (cb0.moveTo 5 0) = true
  · rw [if_pos hcol] at hplace
    refine ⟨{ state := TetriState.TETRIS_GAMEOVER_STATE
              data :=
                { info := { t.data.info with next := next, pause := -1 }
                  current_brick := some c
                  next_brick := some k }
              repository :=
                { items := (spawnItems t c k).set c (cb0.moveTo 5 0), last_index := (k : Int) } },
      cb0, nb, ?_, hcb, rfl, rfl, hcur, hnb1, hnb2, ?_, rfl, rfl, rfl, rfl, rfl,
      ⟨hw.field, hdim, ?_⟩, fun _ => ⟨rfl, rfl, rfl⟩, fun hf => ?_⟩
    · rw [hev, hplace]; rfl
    · intro r c' hr hc4
      rw [hnb3, hnb4]
      exact hcells r c' hr hc4
    · intro j hj
      cases hj
      simp only [List.length_set]
      exact hk'
    · rw [hcol] at hf; cases hf
  · have hf : is_collide t.data.info.field (cb0.moveTo 5 0) = false := by simpa using hcol
    obtain ⟨g, hg, hgwf⟩ := place_of_free t.data.info.field _ hw.field hf
    rw [if_neg hcol, hg] at hplace
    refine ⟨{ state := TetriState.TETRIS_MOVING_STATE
              data :=
                { info := { t.data.info with field := g, next := next }
                  current_brick := some c
                  next_brick := some k }
              repository :=
                { items := (spawnItems t c k).set c (cb0.moveTo 5 0), last_index := (k : Int) } },
      cb0, nb, ?_, hcb, rfl, rfl, hcur, hnb1, hnb2, ?_, rfl, rfl, rfl, rfl, rfl,
      ⟨hgwf, hdim, ?_⟩, fun hc1 => ?_, fun _ => ⟨rfl, rfl, ⟨rfl, hcur, hw.field, hf, hg⟩⟩⟩
    · rw [hev, hplace]; rfl
    · intro r c' hr hc4
      rw [hnb3, hnb4]
      exact hcells r c' hr hc4
    · intro j hj
      cases hj
      simp only [List.length_set]
      exact hk'
    · exact absurd hc1 hcol

theorem moveTo_fresh_of_state (b : Brick) (x y : Int) (h : b.state = 0) :
    b.moveTo x y = b.fresh.moveTo x y := by
  cases b with
  | mk pos color state states total_states =>
    simp only at h
    subst h
    rfl

theorem spawn_current (t : Tetris) (c k : Nat) (b cb0 : Brick)
    (hnext : t.data.next_brick = none ∨ t.data.next_brick = some c)
    (hb : t.repository.items[c]? = some b)
    (hfresh : t.data.next_brick = some c → b.state = 0)
    (hcb : (spawnItems t c k)[c]? = some cb0) :
    cb0.moveTo 5 0 = b.fresh.moveTo 5 0 := by
  unfold spawnItems at hcb
  rcases hnext with hn | hn
  · rw [hn] at hcb
    simp only [handOut_getElem?, hb, Option.map_some', if_true] at hcb
    split at hcb
    · cases hcb; rfl
    · cases hcb; rfl
  · rw [hn] at hcb
    simp only [handOut_getElem?, hb, Option.map_some'] at hcb
    split at hcb
    · cases hcb; rfl
    · cases hcb
      exact moveTo_fresh_of_state _ 5 0 (hfresh hn)

theorem spawnDraw_next (t : Tetris) (rand : List Nat) (c k : Nat) (rest : List Nat)
    (hd : SpawnDraw t rand c k rest) :
    t.data.next_brick = none ∨ t.data.next_brick = some c := by
  rcases hd with ⟨h, _⟩ | ⟨h, _⟩
  · exact Or.inr h
  · exact Or.inl h

/-- C11: for every engine state (20x10 field, 4x4 preview, queued brick inside
the repository) and every draw of the catalog, let `b` be the brick that becomes
current, handed out in rotation 0; if `b` in rotation 0 at the spawn anchor
`(5, 0)` collides with the field, `__spawn` returns the engine in phase GAMEOVER
(not MOVING) with pause -1 and the field unchanged. -/
theorem C11_spawn_blocked (t : Tetris) (rand : List Nat) (c k : Nat) (rest : List Nat)
    (b : Brick) (hw : WfEngine t) (hd : SpawnDraw t rand c k rest)
    (hb : t.repository.items[c]? = some b)
    (hfresh : t.data.next_brick = some c → b.state = 0)
    (hcol : is_collide t.data.info.field (b.fresh.moveTo 5 0) = true) :
    ∃ t', __spawn t rand = some (t', rest) ∧
      t'.state = TetriState.TETRIS_GAMEOVER_STATE ∧
      t'.state ≠ TetriState.TETRIS_MOVING_STATE ∧
      t'.data.info.pause = -1 ∧
      t'.data.info.field = t.data.info.field ∧
      t'.data.current_brick = some c ∧
      t'.brickAt c = some (b.fresh.moveTo 5 0) := by
  obtain ⟨t', cb0, nb, h1, hcb, hcur, _, hbc, _, _, _, _, _, _, _, _, _, hG, _⟩ :=
    spawn_spec t rand c k rest hw hd
  have e := spawn_current t c k b cb0 (spawnDraw_next t rand c k rest hd) hb hfresh hcb
  rw [e] at hG hbc
  obtain ⟨g1, g2, g3⟩ := hG hcol
  refine ⟨t', h1, g1, ?_, g2, g3, hcur, hbc⟩
  rw [g1]
  decide

/-- C19: after a spawn, with `nb` the queued next brick, every cell `(r, c)` of
the 4x4 preview is the colour of `nb` when the current rotation mask of `nb` is
occupied at `(r, c)`, and 0 otherwise. -/
theorem C19_next_preview (t : Tetris) (rand : List Nat) (c k : Nat) (rest : List Nat)
    (hw : WfEngine t) (hd : SpawnDraw t rand c k rest) :
    ∃ t' nb, __spawn t rand = some (t', rest) ∧
      t'.data.next_brick = some k ∧ t'.brickAt k = some nb ∧
      dimGrid 4 4 t'.data.info.next ∧
      ∀ r c' : Nat, r < 4 → c' < 4 →
        cell t'.data.info.next (r : Int) (c' : Int)
          = if nb.mask r c' ≠ 0 then nb.color else 0 := by
  obtain ⟨t', cb0, nb, h1, _, _, hnext, _, hnb, _, hcells, _, _, _, _, _, hw', _, _⟩ :=
    spawn_spec t rand c k rest hw hd
  exact ⟨t', nb, h1, hnext, hnb, hw'.next, hcells⟩

/-! ## Start -/

theorem catalog_spawn_free :
    ∀ b ∈ catalogBricks, is_collide emptyField (b.fresh.moveTo 5 0) = false := by decide

theorem catalog_fresh : ∀ b ∈ catalogBricks, b.fresh = b := by decide

/-- C12: for the engine `new_tetris` builds (phase READY, empty field) on a
repository whose items are any of the seven standard and two custom bricks, and
for every outcome `c`, `k` of the two random draws, Start returns the engine in
phase MOVING with current brick `c` and next brick `k`, the current brick
painted on the empty field in rotation 0 at the anchor `(5, 0)`; no catalog
brick collides at the spawn anchor of the empty field. -/
theorem C12_start_fresh (repo : TetrisBrickRepository) (fuel : Nat) (hold : Bool)
    (stored : Int) (rand : List Nat) (c k : Nat) (mid rest : List Nat)
    (hsel : ∀ b ∈ repo.items, b ∈ catalogBricks)
    (h1 : get_random_loop repo.items.length repo.last_index rand = some ((c : Int), mid))
    (h2 : get_random_loop repo.items.length (c : Int) mid = some ((k : Int), rest)) :
    (∃ t' b nb, _start (new_tetris repo) stored rand = some (t', rest) ∧
      dispatch fuel (new_tetris repo) UserAction_t.Start hold stored rand = some (t', rest) ∧
      t'.state = TetriState.TETRIS_MOVING_STATE ∧
      t'.data.current_brick = some c ∧ t'.data.next_brick = some k ∧
      repo.items[c]? = some b ∧ t'.brickAt k = some nb ∧
      Painted t' emptyField c (b.moveTo 5 0) ∧
      (b.moveTo 5 0).state = 0 ∧ (b.moveTo 5 0).pos = ⟨5, 0⟩) ∧
    (∀ b ∈ catalogBricks, is_collide emptyField (b.moveTo 5 0) = false) := by
  constructor
  · have hw : WfEngine (_on_startup (new_tetris repo) stored) :=
      ⟨(by decide : wfGrid (create_matrix 20 10)), (by decide : dimGrid 4 4 (create_matrix 4 4)),
        fun j hj => by cases hj⟩
    have hd : SpawnDraw (_on_startup (new_tetris repo) stored) rand c k rest :=
      Or.inr ⟨rfl, mid, h1, h2⟩
    obtain ⟨t', cb0, nb, hs, hcb, hcur, hnext, _, hnb, _, _, _, _, _, _, _, _, _, hM⟩ :=
      spawn_spec _ rand c k rest hw hd
    obtain ⟨_, hc, _⟩ := spawn_eval _ rand c k rest hd hw.queued
    have hc' : c < repo.items.length := hc
    have hb : repo.items[c]? = some repo.items[c] := List.getElem?_eq_getElem hc'
    have hmem : repo.items[c] ∈ catalogBricks := hsel _ (List.getElem_mem hc')
    generalize repo.items[c] = b at hb hmem
    have e := spawn_current (_on_startup (new_tetris repo) stored) c k b cb0 (Or.inl rfl) hb
      (fun h => by cases h) hcb
    rw [catalog_fresh b hmem] at e
    rw [e] at hM
    have hfree : is_collide emptyField (b.moveTo 5 0) = false := by
      have := catalog_spawn_free b hmem
      rwa [catalog_fresh b hmem] at this
    obtain ⟨g1, _, g3⟩ := hM hfree
    have hstart : _start (new_tetris repo) stored rand = some (t', rest) := by
      rw [← hs]
      rfl
    refine ⟨t', b, nb, hstart, hstart, g1, hcur, hnext, hb, hnb, g3, ?_, rfl⟩
    have := catalog_fresh b hmem
    rw [← this]
    rfl
  · intro b hb
    have := catalog_spawn_free b hb
    rwa [catalog_fresh b hb] at this

theorem start_gameover_eval (t : Tetris) (stored : Int) (rand : List Nat)
    (hstate : t.state = TetriState.TETRIS_GAMEOVER_STATE) (hf : wfGrid t.data.info.field) :
    _start t stored rand
      = __spawn
          { t with
            data := { t.data with
              info := { t.data.info with field := emptyField, level := 1, score := 0, pause := 0 } } }
          rand := by
  have hne : ¬ t.state = TetriState.TETRIS_READY_STATE := by rw [hstate]; decide
  unfold _start
  simp only [if_neg hne, if_pos hstate, clear_tetris_fields_eq t.data.info.field hf, Option.bind]

/-- C18: for every engine state in phase GAMEOVER (20x10 field of any content,
any score and level) on a repository whose items are standard or custom bricks
in any position and rotation, the queued next brick, if any, in rotation 0 as
the catalog hands it out: dispatching Start returns the engine in phase MOVING
with score 0, level 1, pause 0, the same high score, and a field that is the
empty field with the new current brick painted at the anchor `(5, 0)`. -/
theorem C18_restart (t : Tetris) (fuel : Nat) (hold : Bool) (stored : Int) (rand : List Nat)
    (c k : Nat) (rest : List Nat) (b : Brick)
    (hstate : t.state = TetriState.TETRIS_GAMEOVER_STATE) (hw : WfEngine t)
    (hcat : ∀ x ∈ t.repository.items, x.fresh ∈ catalogBricks)
    (hd : SpawnDraw t rand c k rest)
    (hb : t.repository.items[c]? = some b)
    (hfresh : t.data.next_brick = some c → b.state = 0) :
    ∃ t', dispatch fuel t UserAction_t.Start hold stored rand = some (t', rest) ∧
      t'.data.info.score = 0 ∧ t'.data.info.level = 1 ∧ t'.data.info.pause = 0 ∧
      t'.data.info.high_score = t.data.info.high_score ∧
      t'.state = TetriState.TETRIS_MOVING_STATE ∧
      t'.data.current_brick = some c ∧
      Painted t' emptyField c (b.fresh.moveTo 5 0) := by
  have hclear := clear_tetris_fields_eq t.data.info.field hw.field
  have hw1 : WfEngine
      { t with
        data := { t.data with
          info := { t.data.info with field := emptyField, level := 1, score := 0, pause := 0 } } } :=
    ⟨(by decide : wfGrid emptyField), hw.next, hw.queued⟩
  have hd1 : SpawnDraw
      { t with
        data := { t.data with
          info := { t.data.info with field := emptyField, level := 1, score := 0, pause := 0 } } }
      rand c k rest := hd
  obtain ⟨t', cb0, nb, hs, hcb, hcur, _, _, _, _, _, _, hsc, hhs, hlv, _, _, _, hM⟩ :=
    spawn_spec _ rand c k rest hw1 hd1
  have e := spawn_current _ c k b cb0 (spawnDraw_next _ rand c k rest hd1) hb hfresh hcb
  rw [e] at hM
  have hmem : b ∈ t.repository.items := by
    rcases List.getElem?_eq_some_iff.mp hb with ⟨hlt, hbe⟩
    rw [← hbe]
    exact List.getElem_mem hlt
  have hfree := catalog_spawn_free b.fresh (hcat b hmem)
  have hff : b.fresh.fresh = b.fresh := rfl
  rw [hff] at hfree
  obtain ⟨g1, g2, g3⟩ := hM hfree
  refine ⟨t', ?_, hsc, hlv, g2, hhs, g1, hcur, g3⟩
  rw [← hs, ← start_gameover_eval t stored rand hstate hw.field]
  unfold dispatch
  rw [hstate]

/-! ## Tick -/

theorem down_withLevelSpeed (fuel : Nat) (t : Tetris) (hold : Bool) (l sp : Int) :
    _down fuel (t.withLevelSpeed l sp) hold
      = (_down fuel t hold).map (fun d => d.withLevelSpeed l sp) := by
  obtain ⟨st, ⟨info, cur, nxt⟩, repo⟩ := t
  unfold _down
  simp only [Tetris.withLevelSpeed, Tetris.brickAt]
  cases cur with
  | none => rfl
  | some i =>
    simp only
    cases repo.items[i]? with
    | none => rfl
    | some brick =>
      simp only [Option.bind]
      cases remove_brick info.field brick with
      | none => rfl
      | some field =>
        simp only
        cases hold with
        | false =>
          simp only [Bool.not_false, if_true]
          cases is_collide field
              { brick with pos := { brick.pos with y := brick.pos.y + 1 } } with
          | false =>
            simp only [Bool.false_eq_true, if_false]
            cases place_brick field { brick with pos := { brick.pos with y := brick.pos.y + 1 } }
              <;> rfl
          | true =>
            simp only [if_true]
            cases place_brick field
                { pos := { x := brick.pos.x, y := brick.pos.y + 1 - 1 }, color := brick.color,
                  state := brick.state, states := brick.states,
                  total_states := brick.total_states } <;> rfl
        | true =>
          simp only [Bool.not_true, Bool.false_eq_true, if_false]
          cases drop_loop fuel field brick with
          | none => rfl
          | some b' =>
            simp only
            cases place_brick field { b' with pos := { b'.pos with y := b'.pos.y - 1 } } <;> rfl

theorem tick_moving_fired (fuel : Nat) (t : Tetris) (speed : Int) (rand : List Nat)
    (hstate : t.state = TetriState.TETRIS_MOVING_STATE) :
    __tick fuel t true speed rand
      = (_down fuel t false).bind (fun d =>
          some (d.withLevelSpeed (toInt (get_level_by_score t.data.info.score)) speed, rand)) := by
  have key : __tick fuel t true speed rand
      = (_down fuel (t.withLevelSpeed (toInt (get_level_by_score t.data.info.score)) speed)
          false).bind (fun d => some (d, rand)) := by
    unfold __tick Tetris.withLevelSpeed
    simp only [hstate, decide_True, Bool.and_self, if_true]
  rw [key, down_withLevelSpeed]
  cases _down fuel t false <;> rfl

theorem tick_moving_idle (fuel : Nat) (t : Tetris) (speed : Int) (rand : List Nat)
    (hstate : t.state = TetriState.TETRIS_MOVING_STATE) :
    __tick fuel t false speed rand
      = some (t.withLevelSpeed (toInt (get_level_by_score t.data.info.score)) speed, rand) := by
  unfold __tick Tetris.withLevelSpeed
  simp only [hstate, Bool.false_and, Bool.false_eq_true, if_false]
  rw [if_neg (by decide)]

theorem tick_attach_eval (fuel : Nat) (t : Tetris) (is_ticked : Bool) (speed : Int)
    (rand : List Nat) (hstate : t.state = TetriState.TETRIS_ATTACH_STATE) :
    __tick fuel t is_ticked speed rand
      = (erase_lines fuel t.data.info.field).bind (fun e =>
          __spawn
            { t with
              data := { t.data with
                info := { t.data.info with
                  field := e.1
                  score := add_reward t.data.info.score (get_reward_count e.2)
                  high_score :=
                    if add_reward t.data.info.score (get_reward_count e.2)
                        > t.data.info.high_score then
                      add_reward t.data.info.score (get_reward_count e.2)
                    else t.data.info.high_score
                  level := toInt (get_level_by_score t.data.info.score)
                  speed := speed } } }
            rand) := by
  unfold __tick
  have hne : ¬ (TetriState.TETRIS_ATTACH_STATE = TetriState.TETRIS_MOVING_STATE) := by decide
  cases is_ticked <;>
    simp only [hstate, hne, decide_False, Bool.and_false, Bool.false_and, Bool.false_eq_true,
      if_false, if_true]

theorem erased_wf (g : Grid) (hg : wfGrid g) :
    wfGrid (List.replicate (g.countP fullRow) zeroRow ++ g.filter (fun r => !fullRow r)) := by
  have hlen : ∀ l : List (List Int),
      (List.replicate (l.countP fullRow) zeroRow ++ l.filter (fun r => !fullRow r)).length
        = l.length := by
    intro l
    induction l with
    | nil => rfl
    | cons x xs ih =>
      simp only [List.length_append, List.length_replicate, List.length_cons] at ih ⊢
      by_cases hx : fullRow x = true
      · simp only [List.countP_cons, hx, if_true, List.filter_cons, Bool.not_true,
          Bool.false_eq_true, if_false]
        omega
      · have hx' : fullRow x = false := by simpa using hx
        simp only [List.countP_cons, hx', Bool.false_eq_true, if_false, List.filter_cons,
          Bool.not_false, if_true, List.length_cons]
        omega
  refine ⟨by rw [hlen, hg.1], ?_⟩
  intro row hrow
  rcases List.mem_append.mp hrow with h | h
  · rw [(List.mem_replicate.mp h).2]
    rfl
  · exact hg.2 row (List.mem_filter.mp h).1

theorem reward_le (n : Int) : get_reward_count n ≤ 1500 := by
  unfold get_reward_count toSizeT
  by_cases h0 : n ≤ 0
  · simp [h0, not_lt.mpr h0]
  · by_cases h4 : 4 ≤ n
    · simp [h0, h4, not_le.mp h0]
    · have hcases : n = 1 ∨ n = 2 ∨ n = 3 := by omega
      rcases hcases with h | h | h <;> subst h <;> decide

theorem reward_nonneg (n : Int) : 0 ≤ get_reward_count n := by
  unfold get_reward_count toSizeT
  exact Int.emod_nonneg _ (by norm_num)

theorem add_reward_exact (score reward : Int) (hlo : -(2 ^ 31) ≤ score) (hr : 0 ≤ reward)
    (hhi : score + reward < 2 ^ 31) : add_reward score reward = score + reward := by
  unfold add_reward toInt toSizeT
  omega

theorem add_reward_eq (score reward : Int) : add_reward score reward = toInt (score + reward) := by
  unfold add_reward toInt toSizeT
  omega

theorem tick_attach_spec (fuel : Nat) (t : Tetris) (is_ticked : Bool) (speed : Int)
    (rand : List Nat) (c k : Nat) (rest : List Nat)
    (hstate : t.state = TetriState.TETRIS_ATTACH_STATE) (hw : WfEngine t)
    (hfuel : 41 ≤ fuel) (hd : SpawnDraw t rand c k rest) :
    ∃ t', __tick fuel t is_ticked speed rand = some (t', rest) ∧
      t'.data.info.score
        = add_reward t.data.info.score
            (get_reward_count ((t.data.info.field.countP fullRow : Nat) : Int)) ∧
      t'.data.info.high_score
        = max t.data.info.high_score
            (add_reward t.data.info.score
              (get_reward_count ((t.data.info.field.countP fullRow : Nat) : Int))) ∧
      t'.state ≠ TetriState.TETRIS_ATTACH_STATE ∧
      ((t'.state = TetriState.TETRIS_GAMEOVER_STATE ∧
          t'.data.info.field
            = List.replicate (t.data.info.field.countP fullRow) zeroRow
              ++ t.data.info.field.filter (fun r => !fullRow r)) ∨
       (t'.state = TetriState.TETRIS_MOVING_STATE ∧
          t'.data.current_brick = some c ∧ t'.data.next_brick = some k ∧
          ∃ b, Painted t'
            (List.replicate (t.data.info.field.countP fullRow) zeroRow
              ++ t.data.info.field.filter (fun r => !fullRow r)) c b)) := by
  rw [tick_attach_eval fuel t is_ticked speed rand hstate,
    erase_lines_eq t.data.info.field hw.field fuel hfuel]
  simp only [Option.bind]
  obtain ⟨t', cb0, _, h1, _, hcur, hnext, _, _, _, _, _, hs, hh, _, _, _, hG, hM⟩ :=
    spawn_spec
      { t with
        data := { t.data with
          info := { t.data.info with
            field := List.replicate (t.data.info.field.countP fullRow) zeroRow
              ++ t.data.info.field.filter (fun r => !fullRow r)
            score := add_reward t.data.info.score
              (get_reward_count ((t.data.info.field.countP fullRow : Nat) : Int))
            high_score :=
              if add_reward t.data.info.score
                  (get_reward_count ((t.data.info.field.countP fullRow : Nat) : Int))
                  > t.data.info.high_score then
                add_reward t.data.info.score
                  (get_reward_count ((t.data.info.field.countP fullRow : Nat) : Int))
              else t.data.info.high_score
            level := toInt (get_level_by_score t.data.info.score)
            speed := speed } } }
      rand c k rest
      (WfEngine.mk (erased_wf t.data.info.field hw.field) hw.next hw.queued) hd
  refine ⟨t', h1, hs, ?_, ?_, ?_⟩
  · rw [hh]
    simp only
    split
    · rw [max_eq_right (le_of_lt (by assumption))]
    · rw [max_eq_left (by omega)]
  · cases hcol : is_collide
        (List.replicate (t.data.info.field.countP fullRow) zeroRow
          ++ t.data.info.field.filter (fun r => !fullRow r)) (cb0.moveTo 5 0) with
    | true =>
      rw [(hG hcol).1]
      decide
    | false =>
      rw [(hM hcol).1]
      decide
  · cases hcol : is_collide
        (List.replicate (t.data.info.field.countP fullRow) zeroRow
          ++ t.data.info.field.filter (fun r => !fullRow r)) (cb0.moveTo 5 0) with
    | true => exact Or.inl ⟨(hG hcol).1, (hG hcol).2.2⟩
    | false => exact Or.inr ⟨(hM hcol).1, hcur, hnext, _, (hM hcol).2.2⟩

/-- C13 (amended): for an engine in phase ATTACH with the 20x10 field, on a
random stream on which the draws of the spawn end, one tick (whether or not the
timer fired) returns an engine whose score is the old score plus
`get_reward_count n`, with `n` the number of full rows the field had, the sum
taken in `size_t` and stored back as `int`: it is the exact sum whenever the
old score is an `int` and the sum is below `2^31`; whose high score is the
maximum of the old high score and the new score; and which has spawned over the
field with the full rows erased: its phase is GAMEOVER with exactly the erased
field, or MOVING with the new current brick painted over the erased field; it
is never ATTACH. -/
theorem C13_tick_attach (fuel : Nat) (t : Tetris) (is_ticked : Bool) (speed : Int)
    (rand : List Nat) (c k : Nat) (rest : List Nat)
    (hstate : t.state = TetriState.TETRIS_ATTACH_STATE) (hw : WfEngine t)
    (hfuel : 41 ≤ fuel) (hd : SpawnDraw t rand c k rest) :
    ∃ t', __tick fuel t is_ticked speed rand = some (t', rest) ∧
      t'.data.info.score
        = toInt (t.data.info.score
            + get_reward_count ((t.data.info.field.countP fullRow : Nat) : Int)) ∧
      (-(2 ^ 31) ≤ t.data.info.score →
        t.data.info.score
            + get_reward_count ((t.data.info.field.countP fullRow : Nat) : Int) < 2 ^ 31 →
        t'.data.info.score
          = t.data.info.score
            + get_reward_count ((t.data.info.field.countP fullRow : Nat) : Int) ∧
        t'.data.info.high_score
          = max t.data.info.high_score
              (t.data.info.score
                + get_reward_count ((t.data.info.field.countP fullRow : Nat) : Int))) ∧
      t'.data.info.high_score = max t.data.info.high_score t'.data.info.score ∧
      t'.state ≠ TetriState.TETRIS_ATTACH_STATE ∧
      ((t'.state = TetriState.TETRIS_GAMEOVER_STATE ∧
          t'.data.info.field
            = List.replicate (t.data.info.field.countP fullRow) zeroRow
              ++ t.data.info.field.filter (fun r => !fullRow r)) ∨
       (t'.state = TetriState.TETRIS_MOVING_STATE ∧
          ∃ b, Painted t'
            (List.replicate (t.data.info.field.countP fullRow) zeroRow
              ++ t.data.info.field.filter (fun r => !fullRow r)) c b)) := by
  obtain ⟨t', h1, hs, hh, hne, hphase⟩ :=
    tick_attach_spec fuel t is_ticked speed rand c k rest hstate hw hfuel hd
  refine ⟨t', h1, ?_, ?_, ?_, hne, ?_⟩
  · rw [hs, add_reward_eq]
  · intro hlo hhi
    have e := add_reward_exact t.data.info.score _ hlo (reward_nonneg _) hhi
    rw [e] at hs hh
    exact ⟨hs, hh⟩
  · rw [hh, hs]
  · rcases hphase with hg | ⟨hm, _, _, hp⟩
    · exact Or.inl hg
    · exact Or.inr ⟨hm, hp⟩

theorem painted_withLevelSpeed (t : Tetris) (s : Grid) (i : Nat) (b : Brick) (l sp : Int)
    (h : Painted t s i b) : Painted (t.withLevelSpeed l sp) s i b :=
  ⟨h.current, h.brick, h.settled, h.free, h.painted⟩

/-- C14: for an engine in phase MOVING, a tick on which the timer fired is the
non-held Down of the same engine followed by the rewrite of level and speed: the
field, the active piece (pointer and repository items) and the phase after the
tick are those of the non-held Down, and the tick returns whenever the Down does,
which it does when the active piece is painted into the field; such a piece with
the cells one row lower free is then painted one row lower, in phase MOVING.  A
tick on which the timer did not fire returns with the field, the active piece,
the score and the phase unchanged. -/
theorem C14_gravity_tick (fuel : Nat) (t : Tetris) (speed : Int) (rand : List Nat)
    (hstate : t.state = TetriState.TETRIS_MOVING_STATE) :
    __tick fuel t true speed rand
        = (_down fuel t false).bind (fun d =>
            some (d.withLevelSpeed (toInt (get_level_by_score t.data.info.score)) speed,
              rand)) ∧
    (∀ d, _down fuel t false = some d →
      ∃ t', __tick fuel t true speed rand = some (t', rand) ∧
        t'.data.info.field = d.data.info.field ∧
        t'.data.current_brick = d.data.current_brick ∧
        t'.repository = d.repository ∧
        t'.state = d.state) ∧
    (∀ s i b, Painted t s i b →
      ∃ d t', _down fuel t false = some d ∧
        __tick fuel t true speed rand = some (t', rand) ∧
        t'.data.info.field = d.data.info.field ∧
        t'.data.current_brick = d.data.current_brick ∧
        t'.repository = d.repository ∧
        t'.state = d.state ∧
        (is_collide s (b.moveTo b.pos.x (b.pos.y + 1)) = false →
          Painted t' s i (b.moveTo b.pos.x (b.pos.y + 1)) ∧
          t'.state = TetriState.TETRIS_MOVING_STATE)) ∧
    (∃ t', __tick fuel t false speed rand = some (t', rand) ∧
      t'.data.info.field = t.data.info.field ∧
      t'.data.current_brick = t.data.current_brick ∧
      t'.repository = t.repository ∧
      t'.data.info.score = t.data.info.score ∧
      t'.state = t.state) := by
  have key := tick_moving_fired fuel t speed rand hstate
  refine ⟨key, ?_, ?_, ?_⟩
  · intro d hd
    rw [key, hd]
    exact ⟨_, rfl, rfl, rfl, rfl, rfl⟩
  · intro s i b h
    cases hc : is_collide s (b.moveTo b.pos.x (b.pos.y + 1)) with
    | false =>
      obtain ⟨g, hg, _⟩ := place_of_free s _ h.settled hc
      have hp := painted_store t s i b _ g h hc hg
      have hs : (t.store i (b.moveTo b.pos.x (b.pos.y + 1)) g).state = t.state := rfl
      have hd : _down fuel t false
          = some (t.store i (b.moveTo b.pos.x (b.pos.y + 1)) g) := by
        rw [down_soft_eval fuel t s i b h, if_neg (by rw [hc]; decide), hg]
        rfl
      rw [key, hd]
      refine ⟨_, _, rfl, rfl, rfl, rfl, rfl, rfl, fun _ => ⟨?_, ?_⟩⟩
      · exact painted_withLevelSpeed _ s i _ _ _ hp
      · exact hs.trans hstate
    | true =>
      have hd : _down fuel t false = some t.attach := by
        rw [down_soft_eval fuel t s i b h, if_pos hc, h.painted]
        simp only [Option.bind]
        rw [store_self t i b h.brick]
      rw [key, hd]
      exact ⟨_, _, rfl, rfl, rfl, rfl, rfl, rfl, fun h' => absurd h' (by decide)⟩
  · rw [tick_moving_idle fuel t speed rand hstate]
    exact ⟨_, rfl, rfl, rfl, rfl, rfl, rfl⟩

/-! ## Dispatch: pause, terminate, dropped actions -/

/-- C15: for an engine in phase MOVING with pause flag 0, dispatching Pause
returns the engine `_pause` gives, in phase PAUSE with pause flag 1 and nothing
else changed, and dispatching Pause again returns exactly the engine before the
two Pause actions (so phase MOVING, pause flag 0, and the same field, pieces,
score, high score and level). -/
theorem C15_pause_toggle (fuel : Nat) (t : Tetris) (hold hold2 : Bool) (stored : Int)
    (rand : List Nat) (hstate : t.state = TetriState.TETRIS_MOVING_STATE)
    (hpause : t.data.info.pause = 0) :
    dispatch fuel t UserAction_t.Pause hold stored rand = some (_pause t, rand) ∧
    (_pause t).state = TetriState.TETRIS_PAUSE_STATE ∧
    (_pause t).data.info.pause = 1 ∧
    _pause t
      = { t with
          state := TetriState.TETRIS_PAUSE_STATE
          data := { t.data with info := { t.data.info with pause := 1 } } } ∧
    dispatch fuel (_pause t) UserAction_t.Pause hold2 stored rand = some (t, rand) ∧
    _pause (_pause t) = t := by
  obtain ⟨st, ⟨⟨field, next, score, high, level, speed, pause⟩, cur, nxt⟩, repo⟩ := t
  simp only at hstate hpause
  subst hstate
  subst hpause
  exact ⟨rfl, rfl, rfl, rfl, rfl, rfl⟩

/-- C16 (amended): for an engine in phase READY, SPAWN, MOVING, PAUSE or GAMEOVER,
dispatching Terminate with either hold value returns the engine `_terminate`
gives, in phase TERMINATED with nothing else changed; for an engine in phase
ATTACH, dispatch has no case and returns the engine unchanged, still in phase
ATTACH. -/
theorem C16_terminate (fuel : Nat) (t : Tetris) (hold : Bool) (stored : Int)
    (rand : List Nat) :
    ((t.state = TetriState.TETRIS_READY_STATE ∨ t.state = TetriState.TETRIS_SPAWN_STATE ∨
        t.state = TetriState.TETRIS_MOVING_STATE ∨ t.state = TetriState.TETRIS_PAUSE_STATE ∨
        t.state = TetriState.TETRIS_GAMEOVER_STATE) →
      dispatch fuel t UserAction_t.Terminate hold stored rand = some (_terminate t, rand) ∧
      (_terminate t).state = TetriState.TETRIS_TERMINATED_STATE ∧
      (_terminate t).data = t.data ∧ (_terminate t).repository = t.repository) ∧
    (t.state = TetriState.TETRIS_ATTACH_STATE →
      dispatch fuel t UserAction_t.Terminate hold stored rand = some (t, rand)) := by
  obtain ⟨st, data, repo⟩ := t
  constructor
  · intro h
    simp only at h
    rcases h with h | h | h | h | h <;> subst h <;> exact ⟨rfl, rfl, rfl, rfl⟩
  · intro h
    simp only at h
    subst h
    rfl

/-- C17: dispatching Pause, Left, Right, Up, Down or Action in phase READY,
Start in phase MOVING, Left, Right, Up, Down or Action in phase PAUSE, and Pause,
Left, Right, Up, Down or Action in phase GAMEOVER returns the engine unchanged
(and draws no random value). -/
theorem C17_dropped_actions (fuel : Nat) (t : Tetris) (a : UserAction_t) (hold : Bool)
    (stored : Int) (rand : List Nat)
    (h : (t.state = TetriState.TETRIS_READY_STATE ∧
            (a = UserAction_t.Pause ∨ a = UserAction_t.Left ∨ a = UserAction_t.Right ∨
              a = UserAction_t.Up ∨ a = UserAction_t.Down ∨ a = UserAction_t.Action)) ∨
         (t.state = TetriState.TETRIS_MOVING_STATE ∧ a = UserAction_t.Start) ∨
         (t.state = TetriState.TETRIS_PAUSE_STATE ∧
            (a = UserAction_t.Left ∨ a = UserAction_t.Right ∨
              a = UserAction_t.Up ∨ a = UserAction_t.Down ∨ a = UserAction_t.Action)) ∨
         (t.state = TetriState.TETRIS_GAMEOVER_STATE ∧
            (a = UserAction_t.Pause ∨ a = UserAction_t.Left ∨ a = UserAction_t.Right ∨
              a = UserAction_t.Up ∨ a = UserAction_t.Down ∨ a = UserAction_t.Action))) :
    dispatch fuel t a hold stored rand = some (t, rand) := by
  obtain ⟨st, data, repo⟩ := t
  simp only at h
  rcases h with ⟨hs, ha⟩ | ⟨hs, ha⟩ | ⟨hs, ha⟩ | ⟨hs, ha⟩
  · subst hs
    rcases ha with ha | ha | ha | ha | ha | ha <;> subst ha <;> rfl
  · subst hs
    subst ha
    rfl
  · subst hs
    rcases ha with ha | ha | ha | ha | ha <;> subst ha <;> rfl
  · subst hs
    rcases ha with ha | ha | ha | ha | ha | ha <;> subst ha <;> rfl

/-! ## No immediate repeat -/

theorem wf_sampleIdle_full (state : TetriState) :
    WfEngine (sampleIdle state fullField (some 3)) :=
  ⟨(by decide : wfGrid fullField), (by decide : dimGrid 4 4 (create_matrix 4 4)),
    fun j hj => by cases hj; exact (by decide : 3 < sampleCatalog.items.length)⟩

theorem wf_sampleIdle_rows (state : TetriState) :
    WfEngine (sampleIdle state twoFullRowsField (some 3)) :=
  ⟨(by decide : wfGrid twoFullRowsField), (by decide : dimGrid 4 4 (create_matrix 4 4)),
    fun j hj => by cases hj; exact (by decide : 3 < sampleCatalog.items.length)⟩

theorem draw_sampleIdle (state : TetriState) (field : Grid) :
    SpawnDraw (sampleIdle state field (some 3)) [4] 3 4 [] :=
  Or.inl ⟨rfl,
    (by decide : get_random_loop sampleCatalog.items.length sampleCatalog.last_index [4]
      = some (((4 : Nat) : Int), []))⟩

/-- C11 at the full field: the queued Z brick cannot be placed. -/
theorem C11_witness :
    ∃ t', __spawn (sampleIdle TetriState.TETRIS_ATTACH_STATE fullField (some 3)) [4]
        = some (t', []) ∧
      t'.state = TetriState.TETRIS_GAMEOVER_STATE ∧ t'.data.info.pause = -1 ∧
      t'.data.info.field = fullField := by
  obtain ⟨t', h1, h2, _, h4, h5, _⟩ :=
    C11_spawn_blocked (sampleIdle TetriState.TETRIS_ATTACH_STATE fullField (some 3)) [4] 3 4 []
      brickZ (wf_sampleIdle_full _) (draw_sampleIdle _ _) rfl (fun _ => rfl) (by decide)
  exact ⟨t', h1, h2, h4, h5⟩

/-- C19 at a spawn over the field with two full rows: the L brick is queued. -/
theorem C19_witness :
    ∃ t' nb, __spawn (sampleIdle TetriState.TETRIS_ATTACH_STATE twoFullRowsField (some 3)) [4]
        = some (t', []) ∧
      t'.data.next_brick = some 4 ∧ t'.brickAt 4 = some nb ∧
      ∀ r c : Nat, r < 4 → c < 4 →
        cell t'.data.info.next (r : Int) (c : Int) = if nb.mask r c ≠ 0 then nb.color else 0 := by
  obtain ⟨t', nb, h1, h2, h3, _, h5⟩ :=
    C19_next_preview (sampleIdle TetriState.TETRIS_ATTACH_STATE twoFullRowsField (some 3)) [4]
      3 4 [] (wf_sampleIdle_rows _) (draw_sampleIdle _ _)
  exact ⟨t', nb, h1, h2, h3, h5⟩

/-- C12 at the standard catalog with the draws 3 and 4. -/
theorem C12_witness :
    ∃ (t' : Tetris) (b : Brick), dispatch 0 (new_tetris sampleCatalog) UserAction_t.Start false 0 [3, 4]
        = some (t', []) ∧
      t'.state = TetriState.TETRIS_MOVING_STATE ∧
      t'.data.current_brick = some 3 ∧ t'.data.next_brick = some 4 ∧
      Painted t' emptyField 3 (b.moveTo 5 0) := by
  obtain ⟨t', b, _, _, h2, h3, h4, h5, _, _, h8, _⟩ :=
    (C12_start_fresh sampleCatalog 0 false 0 [3, 4] 3 4 [4] [] (by decide) (by decide)
      (by decide)).1
  exact ⟨t', b, h2, h3, h4, h5, h8⟩

/-- C18 at a game over on the full field. -/
theorem C18_witness :
    ∃ t', dispatch 0 (sampleIdle TetriState.TETRIS_GAMEOVER_STATE fullField (some 3))
        UserAction_t.Start false 0 [4] = some (t', []) ∧
      t'.data.info.score = 0 ∧ t'.data.info.level = 1 ∧ t'.data.info.pause = 0 ∧
      t'.data.info.high_score = 900 ∧
      t'.state = TetriState.TETRIS_MOVING_STATE ∧
      Painted t' emptyField 3 (brickZ.fresh.moveTo 5 0) := by
  obtain ⟨t', h1, h2, h3, h4, h5, h6, _, h8⟩ :=
    C18_restart (sampleIdle TetriState.TETRIS_GAMEOVER_STATE fullField (some 3)) 0 false 0 [4]
      3 4 [] brickZ rfl (wf_sampleIdle_full _) (by decide) (draw_sampleIdle _ _) rfl
      (fun _ => rfl)
  exact ⟨t', h1, h2, h3, h4, h5, h6, h8⟩

/-- C13 (amended) at the field with two full rows, score 700 and high score 900:
the tick scores 300 and the high score becomes 1000. -/
theorem C13_witness :
    ∃ t', __tick 41 (sampleIdle TetriState.TETRIS_ATTACH_STATE twoFullRowsField (some 3))
        false 0 [4] = some (t', []) ∧
      t'.data.info.score = 1000 ∧ t'.data.info.high_score = 1000 ∧
      t'.state ≠ TetriState.TETRIS_ATTACH_STATE := by
  obtain ⟨t', h1, _, h3, _, h5, _⟩ :=
    C13_tick_attach 41 (sampleIdle TetriState.TETRIS_ATTACH_STATE twoFullRowsField (some 3))
      false 0 [4] 3 4 [] rfl (wf_sampleIdle_rows _) (le_refl 41) (draw_sampleIdle _ _)
  obtain ⟨e1, e2⟩ := h3 (by decide) (by decide)
  refine ⟨t', h1, ?_, ?_, h5⟩
  · rw [e1]
    decide
  · rw [e2]
    decide

theorem wf_nearMaxEngine : WfEngine nearMaxEngine :=
  ⟨(by decide : wfGrid oneFullRowField), (by decide : dimGrid 4 4 (create_matrix 4 4)),
    fun j hj => by cases hj; exact (by decide : 3 < sampleCatalog.items.length)⟩

/-- C13 as stated fails at the score 2147483600 with one full row: the sum
2147483700 is taken in `size_t` and stored back as `int`, so the tick leaves the
score -2147483596, not the old score plus the reward, and the high score stays
2147483600, not the maximum of the old high score and that sum. -/
theorem C13_score_wraps :
    nearMaxEngine.state = TetriState.TETRIS_ATTACH_STATE ∧
    nearMaxEngine.data.info.score = 2147483600 ∧
    get_reward_count ((nearMaxEngine.data.info.field.countP fullRow : Nat) : Int) = 100 ∧
    ∃ t', __tick 41 nearMaxEngine false 0 [4] = some (t', []) ∧
      t'.data.info.score = -2147483596 ∧
      t'.data.info.score ≠ 2147483600 + 100 ∧
      t'.data.info.high_score = 2147483600 ∧
      t'.data.info.high_score ≠ max 2147483600 (2147483600 + 100) := by
  refine ⟨rfl, rfl, by decide, ?_⟩
  obtain ⟨t', h1, hs, hh, _⟩ :=
    tick_attach_spec 41 nearMaxEngine false 0 [4] 3 4 [] rfl wf_nearMaxEngine (le_refl 41)
      (Or.inl ⟨rfl,
        (by decide : get_random_loop sampleCatalog.items.length sampleCatalog.last_index [4]
          = some (((4 : Nat) : Int), []))⟩)
  have e : add_reward nearMaxEngine.data.info.score
      (get_reward_count ((nearMaxEngine.data.info.field.countP fullRow : Nat) : Int))
      = -2147483596 := by decide
  rw [e] at hs hh
  have hhigh : t'.data.info.high_score = 2147483600 := by
    rw [hh]
    decide
  refine ⟨t', h1, hs, ?_, hhigh, ?_⟩
  · rw [hs]
    decide
  · rw [hhigh]
    decide

/-- C14 at the T brick on the spawn anchor of the empty field: the fired tick
moves it to row 1. -/
theorem C14_witness :
    ∃ t', __tick 0 (sampleEngine emptyField 6 (brickT.moveTo 5 0)) true 0 [] = some (t', []) ∧
      Painted t' emptyField 6 (brickT.moveTo 5 1) ∧
      t'.state = TetriState.TETRIS_MOVING_STATE := by
  obtain ⟨_, t', _, h2, _, _, _, _, h7⟩ :=
    (C14_gravity_tick 0 (sampleEngine emptyField 6 (brickT.moveTo 5 0)) 0 [] rfl).2.2.1
      emptyField 6 (brickT.moveTo 5 0) painted_sample_spawn
  exact ⟨t', h2, (h7 (by decide)).1, (h7 (by decide)).2⟩

/-- C15 at the T brick on the spawn anchor of the empty field. -/
theorem C15_witness :
    dispatch 0 (_pause (sampleEngine emptyField 6 (brickT.moveTo 5 0))) UserAction_t.Pause
        false 0 []
      = some (sampleEngine emptyField 6 (brickT.moveTo 5 0), []) :=
  (C15_pause_toggle 0 (sampleEngine emptyField 6 (brickT.moveTo 5 0)) false false 0 [] rfl
    rfl).2.2.2.2.1

/-- C16 (amended) at an engine in phase MOVING. -/
theorem C16_witness :
    dispatch 0 (sampleEngine emptyField 6 (brickT.moveTo 5 0)) UserAction_t.Terminate true 0 []
      = some (_terminate (sampleEngine emptyField 6 (brickT.moveTo 5 0)), []) :=
  ((C16_terminate 0 (sampleEngine emptyField 6 (brickT.moveTo 5 0)) true 0 []).1
    (Or.inr (Or.inr (Or.inl rfl)))).1

/-- The T brick resting on the floor of the empty field is painted. -/
theorem painted_sample_floor :
    Painted (sampleEngine emptyField 6 (brickT.moveTo 5 18)) emptyField 6 (brickT.moveTo 5 18) :=
  ⟨rfl, rfl, by decide, by decide, by decide⟩

/-- C16 as stated fails in phase ATTACH: a non-held Down of the T brick resting on
the floor returns the engine in phase ATTACH, and dispatching Terminate to that
engine, with either hold value, returns it unchanged, in phase ATTACH and not
TERMINATED. -/
theorem C16_terminate_dropped_in_attach :
    dispatch 0 (sampleEngine emptyField 6 (brickT.moveTo 5 18)) UserAction_t.Down false 0 []
      = some ((sampleEngine emptyField 6 (brickT.moveTo 5 18)).attach, []) ∧
    (sampleEngine emptyField 6 (brickT.moveTo 5 18)).attach.state
      = TetriState.TETRIS_ATTACH_STATE ∧
    ∀ hold : Bool, ∃ t',
      dispatch 0 (sampleEngine emptyField 6 (brickT.moveTo 5 18)).attach
          UserAction_t.Terminate hold 0 [] = some (t', []) ∧
        t' = (sampleEngine emptyField 6 (brickT.moveTo 5 18)).attach ∧
        t'.state ≠ TetriState.TETRIS_TERMINATED_STATE := by
  refine ⟨?_, rfl, fun hold => ⟨_, rfl, rfl, by decide⟩⟩
  have hd : _down 0 (sampleEngine emptyField 6 (brickT.moveTo 5 18)) false
      = some (sampleEngine emptyField 6 (brickT.moveTo 5 18)).attach := by
    rw [down_soft_eval 0 _ emptyField 6 (brickT.moveTo 5 18) painted_sample_floor,
      if_pos (by decide), painted_sample_floor.painted]
    simp only [Option.bind]
    rw [store_self _ 6 _ painted_sample_floor.brick]
  show (_down 0 (sampleEngine emptyField 6 (brickT.moveTo 5 18)) false).bind
      (fun t => some (t, [])) = _
  rw [hd]
  rfl

/-- C17 at the fresh engine: Left in phase READY is dropped. -/
theorem C17_witness :
    dispatch 0 (new_tetris sampleCatalog) UserAction_t.Left false 0 [3, 4]
      = some (new_tetris sampleCatalog, [3, 4]) :=
  C17_dropped_actions 0 (new_tetris sampleCatalog) UserAction_t.Left false 0 [3, 4]
    (Or.inl ⟨rfl, Or.inr (Or.inl rfl)⟩)

/-- C21: for an engine in phase TERMINATED, every dispatched action with either
hold value returns the engine unchanged, and every tick, fired or not, returns
the engine in phase TERMINATED with the field, the preview, the current and next
brick, the repository, the score, the high score and the pause flag unchanged
(the tick rewrites level and speed only). -/
theorem C21_terminated_terminal (fuel : Nat) (t : Tetris) (a : UserAction_t) (hold : Bool)
    (stored : Int) (is_ticked : Bool) (speed : Int) (rand : List Nat)
    (hstate : t.state = TetriState.TETRIS_TERMINATED_STATE) :
    dispatch fuel t a hold stored rand = some (t, rand) ∧
    ∃ t', __tick fuel t is_ticked speed rand = some (t', rand) ∧
      t'.state = TetriState.TETRIS_TERMINATED_STATE ∧
      t'.data.info.field = t.data.info.field ∧
      t'.data.info.next = t.data.info.next ∧
      t'.data.current_brick = t.data.current_brick ∧
      t'.data.next_brick = t.data.next_brick ∧
      t'.repository = t.repository ∧
      t'.data.info.score = t.data.info.score ∧
      t'.data.info.high_score = t.data.info.high_score ∧
      t'.data.info.pause = t.data.info.pause := by
  constructor
  · obtain ⟨st, data, repo⟩ := t
    simp only at hstate
    subst hstate
    cases a <;> rfl
  · have hm : ¬ (TetriState.TETRIS_TERMINATED_STATE = TetriState.TETRIS_MOVING_STATE) := by
      decide
    have ha : ¬ (TetriState.TETRIS_TERMINATED_STATE = TetriState.TETRIS_ATTACH_STATE) := by
      decide
    refine ⟨t.withLevelSpeed (toInt (get_level_by_score t.data.info.score)) speed, ?_,
      hstate, rfl, rfl, rfl, rfl, rfl, rfl, rfl, rfl⟩
    unfold __tick Tetris.withLevelSpeed
    cases is_ticked <;>
      simp only [hstate, hm, ha, decide_False, Bool.and_false, Bool.false_and,
        Bool.false_eq_true, if_false]

/-- C21 at a terminated engine: Start is dropped. -/
theorem C21_witness :
    dispatch 0 (_terminate (new_tetris sampleCatalog)) UserAction_t.Start false 0 [3, 4]
      = some (_terminate (new_tetris sampleCatalog), [3, 4]) :=
  (C21_terminated_terminal 0 (_terminate (new_tetris sampleCatalog)) UserAction_t.Start false
    0 false 0 [3, 4] rfl).1

/-! ## Level of a negative score -/

theorem start_fresh_spec (repo : TetrisBrickRepository) (fuel : Nat) (hold : Bool)
    (stored : Int) (rand : List Nat) (c k : Nat) (mid rest : List Nat)
    (hsel : ∀ b ∈ repo.items, b ∈ catalogBricks)
    (h1 : get_random_loop repo.items.length repo.last_index rand = some ((c : Int), mid))
    (h2 : get_random_loop repo.items.length (c : Int) mid = some ((k : Int), rest)) :
    ∃ (t' : Tetris) (b : Brick),
      dispatch fuel (new_tetris repo) UserAction_t.Start hold stored rand = some (t', rest) ∧
      t'.state = TetriState.TETRIS_MOVING_STATE ∧
      t'.data.current_brick = some c ∧ t'.data.next_brick = some k ∧
      repo.items[c]? = some b ∧ b ∈ catalogBricks ∧
      Painted t' emptyField c (b.moveTo 5 0) ∧
      t'.data.info.score = 0 ∧ t'.data.info.high_score = stored := by
  have hw : WfEngine (_on_startup (new_tetris repo) stored) :=
    ⟨(by decide : wfGrid (create_matrix 20 10)), (by decide : dimGrid 4 4 (create_matrix 4 4)),
      fun j hj => by cases hj⟩
  have hd : SpawnDraw (_on_startup (new_tetris repo) stored) rand c k rest :=
    Or.inr ⟨rfl, mid, h1, h2⟩
  obtain ⟨t', cb0, nb, hs, hcb, hcur, hnext, _, _, _, _, _, hsc, hhs, _, _, _, _, hM⟩ :=
    spawn_spec _ rand c k rest hw hd
  obtain ⟨_, hc, _⟩ := spawn_eval _ rand c k rest hd hw.queued
  have hc' : c < repo.items.length := hc
  have hb : repo.items[c]? = some repo.items[c] := List.getElem?_eq_getElem hc'
  have hmem : repo.items[c] ∈ catalogBricks := hsel _ (List.getElem_mem hc')
  generalize repo.items[c] = b at hb hmem
  have e := spawn_current (_on_startup (new_tetris repo) stored) c k b cb0 (Or.inl rfl) hb
    (fun h => by cases h) hcb
  rw [catalog_fresh b hmem] at e
  rw [e] at hM
  have hfree : is_collide emptyField (b.moveTo 5 0) = false := by
    have := catalog_spawn_free b hmem
    rwa [catalog_fresh b hmem] at this
  obtain ⟨g1, _, g3⟩ := hM hfree
  have hstart : dispatch fuel (new_tetris repo) UserAction_t.Start hold stored rand
      = some (t', rest) := by
    rw [← hs]
    rfl
  exact ⟨t', b, hstart, g1, hcur, hnext, hb, hmem, g3, hsc, hhs⟩

theorem catalog_rotation_at_spawn :
    ∀ b ∈ catalogBricks, 1 < b.total_states →
      (if is_collide emptyField (_next_state (b.moveTo 5 0)) = true then
          _prev_state (_next_state (b.moveTo 5 0))
        else _next_state (b.moveTo 5 0))
        = (if b = brickCustom1 ∨ b = brickCustom2 then
            { b.moveTo 5 0 with state := 1 }
          else b.moveTo 5 0) ∧
      is_collide emptyField
        (if b = brickCustom1 ∨ b = brickCustom2 then { b.moveTo 5 0 with state := 1 }
          else b.moveTo 5 0) = false := by
  decide

theorem action_after_spawn (fuel : Nat) (t : Tetris) (i : Nat) (b : Brick) (hold : Bool)
    (stored speed : Int) (rand : List Nat)
    (hb : b ∈ catalogBricks) (hmany : 1 < b.total_states)
    (hstate : t.state = TetriState.TETRIS_MOVING_STATE)
    (h : Painted t emptyField i (b.moveTo 5 0)) :
    ∃ t1 t2 g, __tick fuel t false speed rand = some (t1, rand) ∧
      Painted t1 emptyField i (b.moveTo 5 0) ∧
      dispatch fuel t1 UserAction_t.Action hold stored rand = some (t2, rand) ∧
      t2 = t1.store i
        (if b = brickCustom1 ∨ b = brickCustom2 then { b.moveTo 5 0 with state := 1 }
          else b.moveTo 5 0) g ∧
      Painted t2 emptyField i
        (if b = brickCustom1 ∨ b = brickCustom2 then { b.moveTo 5 0 with state := 1 }
          else b.moveTo 5 0) := by
  obtain ⟨hrot, hfree⟩ := catalog_rotation_at_spawn b hb hmany
  have h1 := painted_withLevelSpeed t emptyField i (b.moveTo 5 0)
    (toInt (get_level_by_score t.data.info.score)) speed h
  obtain ⟨g, hg, _⟩ := place_of_free emptyField _ h.settled hfree
  refine ⟨_, _, g, tick_moving_idle fuel t speed rand hstate, h1, ?_, rfl,
    painted_store _ emptyField i _ _ g h1 hfree hg⟩
  have hd : dispatch fuel (t.withLevelSpeed (toInt (get_level_by_score t.data.info.score)) speed)
      UserAction_t.Action hold stored rand
      = (_action (t.withLevelSpeed (toInt (get_level_by_score t.data.info.score)) speed)
          hold).bind (fun t' => some (t', rand)) := by
    unfold dispatch
    have hs : (t.withLevelSpeed (toInt (get_level_by_score t.data.info.score)) speed).state
        = TetriState.TETRIS_MOVING_STATE := hstate
    rw [hs]
  rw [hd, action_eval _ emptyField i _ hold h1, hrot, hg]
  rfl

/-- C22 (amended): let a catalog brick `b` with more than one rotation state be
painted in rotation 0 at the spawn anchor `(5, 0)` of the otherwise empty field,
in phase MOVING.  After a tick on which the timer did not fire, Action returns;
for the two custom bricks the rotation index becomes 1, so it differs from the
index before; for the standard bricks I, S, Z, L, J and T the rotation is
rejected (rotation 1 occupies mask row 0, above the field) and the index stays
0. -/
theorem C22_rotation_after_spawn (fuel : Nat) (t : Tetris) (i : Nat) (b : Brick)
    (hold : Bool) (stored speed : Int) (rand : List Nat)
    (hb : b ∈ catalogBricks) (hmany : 1 < b.total_states)
    (hstate : t.state = TetriState.TETRIS_MOVING_STATE)
    (h : Painted t emptyField i (b.moveTo 5 0)) :
    ∃ t1 t2 b2, __tick fuel t false speed rand = some (t1, rand) ∧
      t1.brickAt i = some (b.moveTo 5 0) ∧ (b.moveTo 5 0).state = 0 ∧
      dispatch fuel t1 UserAction_t.Action hold stored rand = some (t2, rand) ∧
      t2.brickAt i = some b2 ∧
      ((b = brickCustom1 ∨ b = brickCustom2) → b2.state = 1) ∧
      (b ∈ [brickI, brickS, brickZ, brickL, brickJ, brickT] →
        b2.state = 0 ∧ t2 = t1) := by
  obtain ⟨t1, t2, g, htick, hp1, hact, ht2, hp2⟩ :=
    action_after_spawn fuel t i b hold stored speed rand hb hmany hstate h
  have hst : (b.moveTo 5 0).state = 0 := by
    have : ∀ x ∈ catalogBricks, (x.moveTo 5 0).state = 0 := by decide
    exact this b hb
  refine ⟨t1, t2, _, htick, hp1.brick, hst, hact, hp2.brick, ?_, ?_⟩
  · intro hc
    rw [if_pos hc]
  · intro hs
    have hne : ¬ (b = brickCustom1 ∨ b = brickCustom2) := by
      have : ∀ x ∈ [brickI, brickS, brickZ, brickL, brickJ, brickT],
          ¬ (x = brickCustom1 ∨ x = brickCustom2) := by decide
      exact this b hs
    rw [if_neg hne] at ht2 hp2 ⊢
    refine ⟨hst, ?_⟩
    have hgf : g = t1.data.info.field := by
      have h1 := hp1.painted
      have h2 := hp2.painted
      rw [ht2] at h2
      have h3 : place_brick emptyField (b.moveTo 5 0) = some g := h2
      rw [h1] at h3
      cases h3
      rfl
    rw [ht2, hgf]
    exact store_self t1 i _ hp1.brick

/-- C22 (amended) at the first custom brick: the rotation index becomes 1. -/
theorem C22_witness :
    ∃ t1 t2 b2,
      __tick 0 (sampleEngine emptyField 0 (brickCustom1.moveTo 5 0)) false 0 []
        = some (t1, []) ∧
      dispatch 0 t1 UserAction_t.Action false 0 [] = some (t2, []) ∧
      t2.brickAt 0 = some b2 ∧ b2.state = 1 := by
  obtain ⟨t1, t2, b2, h1, _, _, h4, h5, h6, _⟩ :=
    C22_rotation_after_spawn 0 (sampleEngine emptyField 0 (brickCustom1.moveTo 5 0)) 0
      brickCustom1 false 0 0 [] (by decide) (by decide) rfl
      ⟨rfl, rfl, by decide, by decide, by decide⟩
  exact ⟨t1, t2, b2, h1, h4, h5, h6 (Or.inl rfl)⟩

/-- C22 as stated fails at the T brick: on the fresh engine over the standard
catalog, Start with the draws 6 and 4 spawns the T brick in rotation 0; after a
tick on which the timer did not fire, Action returns the engine unchanged, the
rotation index is 0 before and after. -/
theorem C22_rotation_rejected_at_spawn :
    1 < brickT.total_states ∧
    ∃ t0 t1, dispatch 0 (new_tetris sampleCatalog) UserAction_t.Start false 0 [6, 4]
        = some (t0, []) ∧
      t0.data.current_brick = some 6 ∧
      __tick 0 t0 false 0 [] = some (t1, []) ∧
      t1.brickAt 6 = some (brickT.moveTo 5 0) ∧
      (brickT.moveTo 5 0).state = 0 ∧
      dispatch 0 t1 UserAction_t.Action false 0 [] = some (t1, []) := by
  refine ⟨by decide, ?_⟩
  obtain ⟨t0, b, hstart, hmov, hcur, _, hb, _, hp, _, _⟩ :=
    start_fresh_spec sampleCatalog 0 false 0 [6, 4] 6 4 [4] [] (by decide) (by decide)
      (by decide)
  have hbT : b = brickT := by
    have : sampleCatalog.items[6]? = some brickT := by decide
    rw [this] at hb
    cases hb
    rfl
  subst hbT
  obtain ⟨t1, t2, g, h1, hp1, h3, ht2, hp2⟩ :=
    action_after_spawn 0 t0 6 brickT false 0 0 [] (by decide) (by decide) hmov hp
  have hne : ¬ (brickT = brickCustom1 ∨ brickT = brickCustom2) := by decide
  rw [if_neg hne] at ht2 hp2
  have hgf : g = t1.data.info.field := by
    have h1 := hp1.painted
    have h2 := hp2.painted
    rw [ht2] at h2
    have h3 : place_brick emptyField (brickT.moveTo 5 0) = some g := h2
    rw [h1] at h3
    cases h3
    rfl
  have e : t2 = t1 := by
    rw [ht2, hgf]
    exact store_self t1 6 _ hp1.brick
  rw [e] at h3
  exact ⟨t0, t1, hstart, hcur, h1, hp1.brick, rfl, h3⟩

/-! ## The first random brick -/

theorem create_foldl (bricks : List Brick) (repo : TetrisBrickRepository) :
    bricks.foldl _create repo
      = { items := repo.items ++ bricks, last_index := repo.last_index } := by
  induction bricks generalizing repo with
  | nil => simp
  | cons x xs ih =>
    rw [List.foldl_cons, ih]
    simp [_create]

/-- C30: a repository built by `new_brick_repository` and any registrations
remembers the previous index 0; on such a repository with more than one brick,
on a random stream on which the resampling loop ends, the first `_get_random`
returns an index that is not 0, with the brick of that slot in rotation 0 at
position `(0, 0)`; hence on the fresh engine over the standard catalog Start
makes a slot other than 0 current, and the current brick is one of O, S, Z, L,
J, T and not the I brick. -/
theorem C30_first_brick_not_slot_zero :
    (∀ bricks : List Brick, (bricks.foldl _create new_brick_repository).last_index = 0 ∧
      (bricks.foldl _create new_brick_repository).items = bricks) ∧
    (∀ (repo : TetrisBrickRepository) (rand : List Nat) (idx : Int) (rest : List Nat),
      repo.last_index = 0 → 1 < repo.items.length →
      get_random_loop repo.items.length repo.last_index rand = some (idx, rest) →
      ∃ (k : Nat) (r : TetrisBrickRepository),
        _get_random repo rand = some ((r, some k), rest) ∧ idx = (k : Int) ∧
        k ≠ 0 ∧ k < repo.items.length ∧
        r.items[k]? = (repo.items[k]?).map Brick.fresh) ∧
    (∀ (fuel : Nat) (hold : Bool) (stored : Int) (rand : List Nat) (c k : Nat)
        (mid rest : List Nat),
      get_random_loop sampleCatalog.items.length sampleCatalog.last_index rand
        = some ((c : Int), mid) →
      get_random_loop sampleCatalog.items.length (c : Int) mid = some ((k : Int), rest) →
      ∃ (t' : Tetris) (b : Brick),
        dispatch fuel (new_tetris sampleCatalog) UserAction_t.Start hold stored rand
          = some (t', rest) ∧
        t'.data.current_brick = some c ∧ c ≠ 0 ∧
        t'.brickAt c = some (b.moveTo 5 0) ∧
        b ∈ [brickO, brickS, brickZ, brickL, brickJ, brickT] ∧ b ≠ brickI) := by
  refine ⟨?_, ?_, ?_⟩
  · intro bricks
    rw [create_foldl]
    exact ⟨rfl, by simp [new_brick_repository]⟩
  · intro repo rand idx rest h0 hmany h
    obtain ⟨k, hk, hlt, hne⟩ := get_random_loop_spec _ _ _ _ _ h
    subst hk
    obtain ⟨hev, _⟩ := get_random_eval repo rand k rest h
    refine ⟨k, _, hev, rfl, ?_, hlt, ?_⟩
    · intro hk0
      apply hne hmany
      rw [h0, hk0]
      rfl
    · show (handOut repo.items k)[k]? = _
      rw [handOut_getElem?, if_pos rfl]
  · intro fuel hold stored rand c k mid rest h1 h2
    obtain ⟨t', b, hstart, _, hcur, _, hb, _, hp, _, _⟩ :=
      start_fresh_spec sampleCatalog fuel hold stored rand c k mid rest (by decide) h1 h2
    obtain ⟨c', hc', hlt, hne⟩ := get_random_loop_spec _ _ _ _ _ h1
    have hcc : c' = c := by omega
    subst hcc
    have hc0 : c' ≠ 0 := by
      intro hk0
      apply hne (by decide)
      rw [hk0]
      rfl
    have hlt7 : c' < 7 := hlt
    refine ⟨t', b, hstart, hcur, hc0, hp.brick, ?_⟩
    have hall : ∀ j : Nat, j < 7 → j ≠ 0 → ∀ x, sampleCatalog.items[j]? = some x →
        x ∈ [brickO, brickS, brickZ, brickL, brickJ, brickT] ∧ x ≠ brickI := by
      intro j hj hj0 x hx
      interval_cases j
      · exact absurd rfl hj0
      all_goals
        have hx' := hx
        simp only [sampleCatalog, populate_repo_defaults, new_brick_repository, _create,
          List.foldl, List.nil_append, List.cons_append] at hx'
        cases hx'
        decide
    exact hall c' hlt7 hc0 b hb

/-- C30 at the standard catalog: the first draw 7 is index 0 and is resampled,
the draw 9 gives index 2, and Start makes slot 2 current. -/
theorem C30_witness :
    ∃ (t' : Tetris) (b : Brick),
      dispatch 0 (new_tetris sampleCatalog) UserAction_t.Start false 0 [7, 9, 4]
        = some (t', []) ∧
      t'.data.current_brick = some 2 ∧ t'.brickAt 2 = some (b.moveTo 5 0) ∧ b ≠ brickI := by
  obtain ⟨t', b, h1, h2, _, h4, _, h6⟩ :=
    C30_first_brick_not_slot_zero.2.2 0 false 0 [7, 9, 4] 2 4 [4] [] (by decide) (by decide)
  exact ⟨t', b, h1, h2, h4, h6⟩

/-! ## Hard drop and repeated soft drops -/

theorem store_store (t : Tetris) (i : Nat) (b1 b2 : Brick) (g1 g2 : Grid) :
    (t.store i b1 g1).store i b2 g2 = t.store i b2 g2 := by
  simp [Tetris.store, List.set_set]

theorem moveTo_moveTo_down (b : Brick) (n : Nat) :
    (b.moveTo b.pos.x (b.pos.y + 1)).moveTo (b.moveTo b.pos.x (b.pos.y + 1)).pos.x
        ((b.moveTo b.pos.x (b.pos.y + 1)).pos.y + (n : Int))
      = b.moveTo b.pos.x (b.pos.y + ((n + 1 : Nat) : Int)) := by
  have : b.pos.y + 1 + (n : Int) = b.pos.y + ((n + 1 : Nat) : Int) := by push_cast; omega
  simp only [Brick.moveTo, this]

/-- The row offset `n` at which the piece `b` lands on `s`: free down to offset
`n`, blocked at offset `n + 1`. -/
theorem soft_drops_spec (s : Grid) (i : Nat) (n : Nat) :
    ∀ (t : Tetris) (b : Brick) (fuel : Nat), Painted t s i b →
      t.state ≠ TetriState.TETRIS_ATTACH_STATE → n < fuel →
      (∀ j : Nat, j ≤ n → is_collide s (b.moveTo b.pos.x (b.pos.y + (j : Int))) = false) →
      is_collide s (b.moveTo b.pos.x (b.pos.y + ((n + 1 : Nat) : Int))) = true →
      ∃ g, place_brick s (b.moveTo b.pos.x (b.pos.y + (n : Int))) = some g ∧
        soft_drops fuel t
          = some (t.store i (b.moveTo b.pos.x (b.pos.y + (n : Int))) g).attach := by
  induction n with
  | zero =>
    intro t b fuel h hst hfuel _ hhit
    obtain ⟨f, rfl⟩ : ∃ f, fuel = f + 1 := ⟨fuel - 1, by omega⟩
    have hhit' : is_collide s (b.moveTo b.pos.x (b.pos.y + 1)) = true := hhit
    have hd : _down 0 t false = some t.attach := by
      rw [down_soft_eval 0 t s i b h, if_pos hhit', h.painted]
      simp only [Option.bind]
      rw [store_self t i b h.brick]
    refine ⟨t.data.info.field, ?_, ?_⟩
    · rw [moveTo_zero]
      exact h.painted
    · rw [moveTo_zero, store_self t i b h.brick]
      unfold soft_drops
      rw [hd]
      simp only [Option.bind]
      exact if_pos rfl
  | succ n ih =>
    intro t b fuel h hst hfuel hfree hhit
    obtain ⟨f, rfl⟩ : ∃ f, fuel = f + 1 := ⟨fuel - 1, by omega⟩
    have hf1 : is_collide s (b.moveTo b.pos.x (b.pos.y + 1)) = false := hfree 1 (by omega)
    obtain ⟨g1, hg1, _⟩ := place_of_free s _ h.settled hf1
    have hp1 := painted_store t s i b _ g1 h hf1 hg1
    have hd : _down 0 t false = some (t.store i (b.moveTo b.pos.x (b.pos.y + 1)) g1) := by
      rw [down_soft_eval 0 t s i b h, if_neg (by rw [hf1]; decide), hg1]
      rfl
    have hst1 : (t.store i (b.moveTo b.pos.x (b.pos.y + 1)) g1).state
        ≠ TetriState.TETRIS_ATTACH_STATE := hst
    obtain ⟨g, hg, hs⟩ := ih (t.store i (b.moveTo b.pos.x (b.pos.y + 1)) g1)
      (b.moveTo b.pos.x (b.pos.y + 1)) f hp1 hst1 (by omega)
      (by
        intro j hj
        rw [moveTo_moveTo_down]
        exact hfree (j + 1) (by omega))
      (by
        rw [moveTo_moveTo_down]
        exact hhit)
    rw [moveTo_moveTo_down] at hg hs
    rw [store_store] at hs
    refine ⟨g, hg, ?_⟩
    unfold soft_drops
    rw [hd]
    simp only [Option.bind]
    rw [if_neg hst1]
    exact hs

theorem hard_drop_spec (s : Grid) (i : Nat) (n : Nat) (t : Tetris) (b : Brick) (fuel : Nat)
    (h : Painted t s i b) (hfuel : n + 1 < fuel)
    (hfree : ∀ j : Nat, j ≤ n →
      is_collide s (b.moveTo b.pos.x (b.pos.y + (j : Int))) = false)
    (hhit : is_collide s (b.moveTo b.pos.x (b.pos.y + ((n + 1 : Nat) : Int))) = true)
    (g : Grid) (hg : place_brick s (b.moveTo b.pos.x (b.pos.y + (n : Int))) = some g) :
    _down fuel t true
      = some (t.store i (b.moveTo b.pos.x (b.pos.y + (n : Int))) g).attach := by
  rw [down_hard_eval fuel t s i b h,
    drop_loop_spec s (n + 1) fuel b hfuel (fun j hj => hfree j (by omega)) hhit]
  have e : (b.moveTo b.pos.x (b.pos.y + ((n + 1 : Nat) : Int))).moveTo
        (b.moveTo b.pos.x (b.pos.y + ((n + 1 : Nat) : Int))).pos.x
        ((b.moveTo b.pos.x (b.pos.y + ((n + 1 : Nat) : Int))).pos.y - 1)
      = b.moveTo b.pos.x (b.pos.y + (n : Int)) := by
    have : b.pos.y + ((n + 1 : Nat) : Int) - 1 = b.pos.y + (n : Int) := by push_cast; omega
    simp only [Brick.moveTo, this]
  simp only [Option.bind, e, hg]

theorem drop_loop_some (s : Grid) (fuel : Nat) :
    ∀ (b b' : Brick), drop_loop fuel s b = some b' →
      ∃ m : Nat, m < fuel ∧ b' = b.moveTo b.pos.x (b.pos.y + (m : Int)) ∧
        (∀ j : Nat, j < m → is_collide s (b.moveTo b.pos.x (b.pos.y + (j : Int))) = false) ∧
        is_collide s (b.moveTo b.pos.x (b.pos.y + (m : Int))) = true := by
  induction fuel with
  | zero =>
    intro b b' h
    simp [drop_loop] at h
  | succ f ih =>
    intro b b' h
    unfold drop_loop at h
    cases hc : is_collide s b with
    | true =>
      simp only [hc, bne_self_eq_false, Bool.false_eq_true, if_false, Option.some.injEq] at h
      refine ⟨0, by omega, ?_, fun j hj => absurd hj (by omega), ?_⟩
      · rw [moveTo_zero]; exact h.symm
      · rw [moveTo_zero]; exact hc
    | false =>
      simp only [hc, bne_iff_ne, ne_eq, not_false_eq_true, if_true] at h
      have hstep : ({ b with pos := { b.pos with y := b.pos.y + 1 } } : Brick)
          = b.moveTo b.pos.x (b.pos.y + 1) := rfl
      rw [hstep] at h
      obtain ⟨m, hm, hb', hfree, hhit⟩ := ih _ _ h
      rw [moveTo_moveTo_down] at hb' hhit
      refine ⟨m + 1, by omega, hb', ?_, hhit⟩
      intro j hj
      rcases Nat.eq_zero_or_pos j with h0 | hpos
      · subst h0
        rw [moveTo_zero]
        exact hc
      · obtain ⟨j', rfl⟩ : ∃ j', j = j' + 1 := ⟨j - 1, by omega⟩
        have := hfree j' (by omega)
        rwa [moveTo_moveTo_down] at this

theorem soft_drops_some (s : Grid) (i : Nat) (fuel : Nat) :
    ∀ (t : Tetris) (b : Brick) (d : Tetris), Painted t s i b →
      t.state ≠ TetriState.TETRIS_ATTACH_STATE → soft_drops fuel t = some d →
      ∃ n : Nat, n < fuel ∧
        (∀ j : Nat, j ≤ n → is_collide s (b.moveTo b.pos.x (b.pos.y + (j : Int))) = false) ∧
        is_collide s (b.moveTo b.pos.x (b.pos.y + ((n + 1 : Nat) : Int))) = true := by
  induction fuel with
  | zero =>
    intro t b d _ _ h
    simp [soft_drops] at h
  | succ f ih =>
    intro t b d h hst hd
    cases hc : is_collide s (b.moveTo b.pos.x (b.pos.y + 1)) with
    | true =>
      refine ⟨0, by omega, ?_, hc⟩
      intro j hj
      obtain rfl : j = 0 := by omega
      rw [moveTo_zero]
      exact h.free
    | false =>
      obtain ⟨g1, hg1, _⟩ := place_of_free s _ h.settled hc
      have hp1 := painted_store t s i b _ g1 h hc hg1
      have hdown : _down 0 t false
          = some (t.store i (b.moveTo b.pos.x (b.pos.y + 1)) g1) := by
        rw [down_soft_eval 0 t s i b h, if_neg (by rw [hc]; decide), hg1]
        rfl
      have hst1 : (t.store i (b.moveTo b.pos.x (b.pos.y + 1)) g1).state
          ≠ TetriState.TETRIS_ATTACH_STATE := hst
      unfold soft_drops at hd
      rw [hdown] at hd
      simp only [Option.bind] at hd
      rw [if_neg hst1] at hd
      obtain ⟨n, hn, hfree, hhit⟩ := ih _ _ d hp1 hst1 hd
      rw [moveTo_moveTo_down] at hhit
      refine ⟨n + 1, by omega, ?_, hhit⟩
      intro j hj
      rcases Nat.eq_zero_or_pos j with h0 | hpos
      · subst h0
        rw [moveTo_zero]
        exact h.free
      · obtain ⟨j', rfl⟩ : ∃ j', j = j' + 1 := ⟨j - 1, by omega⟩
        have := hfree j' (by omega)
        rwa [moveTo_moveTo_down] at this

theorem landing_exists (s : Grid) (b : Brick)
    (hcell : ∃ r c : Nat, r < 4 ∧ c < 4 ∧ b.mask r c ≠ 0) (hfree0 : is_collide s b = false) :
    ∃ n : Nat, n < 20 ∧
      (∀ j : Nat, j ≤ n → is_collide s (b.moveTo b.pos.x (b.pos.y + (j : Int))) = false) ∧
      is_collide s (b.moveTo b.pos.x (b.pos.y + ((n + 1 : Nat) : Int))) = true := by
  have hex : ∃ n : Nat, is_collide s (b.moveTo b.pos.x (b.pos.y + (n : Int))) = true :=
    ⟨20, collide_below_field s b hcell hfree0⟩
  have hspec := Nat.find_spec hex
  have hmin : ∀ j : Nat, j < Nat.find hex →
      is_collide s (b.moveTo b.pos.x (b.pos.y + (j : Int))) = false := by
    intro j hj
    have := Nat.find_min hex hj
    simpa using this
  have hle : Nat.find hex ≤ 20 := Nat.find_min' hex (collide_below_field s b hcell hfree0)
  have hpos : 0 < Nat.find hex := by
    rcases Nat.eq_zero_or_pos (Nat.find hex) with h0 | h0
    · rw [h0, moveTo_zero, hfree0] at hspec; cases hspec
    · exact h0
  generalize Nat.find hex = m at hspec hmin hle hpos
  obtain ⟨n, rfl⟩ : ∃ n, m = n + 1 := ⟨m - 1, by omega⟩
  exact ⟨n, by omega, fun j hj => hmin j (by omega), hspec⟩

/-- C27: in an engine state, not in phase ATTACH, whose active piece is painted
into the field over the settled cells, Down with hold = true and the repetition
of Down with hold = false until the phase is ATTACH return the same engine
states: whatever one returns (with some fuel) the other returns too, in phase
ATTACH with the active-piece pointer cleared; and when the current mask has an
occupied cell both return, the hard drop with fuel for 22 loop iterations and
the repetition within 21 soft drops. -/
theorem C27_hard_drop_is_soft_drops (t : Tetris) (s : Grid) (i : Nat) (b : Brick)
    (h : Painted t s i b) (hst : t.state ≠ TetriState.TETRIS_ATTACH_STATE) :
    (∀ d : Tetris, (∃ fuel, _down fuel t true = some d) ↔ (∃ fuel, soft_drops fuel t = some d)) ∧
    (∀ (fuel : Nat) (d : Tetris), _down fuel t true = some d →
      d.state = TetriState.TETRIS_ATTACH_STATE ∧ d.data.current_brick = none ∧
      ∃ b', d.brickAt i = some b' ∧ b'.pos.x = b.pos.x ∧ b'.state = b.state ∧
        place_brick s b' = some d.data.info.field) ∧
    ((∃ r c : Nat, r < 4 ∧ c < 4 ∧ b.mask r c ≠ 0) →
      ∃ d : Tetris, (∀ fuel, 22 ≤ fuel → _down fuel t true = some d) ∧
        (∀ fuel, 21 ≤ fuel → soft_drops fuel t = some d)) := by
  have hard_some : ∀ (fuel : Nat) (d : Tetris), _down fuel t true = some d →
      ∃ n : Nat, n + 1 < fuel ∧
        (∀ j : Nat, j ≤ n →
          is_collide s (b.moveTo b.pos.x (b.pos.y + (j : Int))) = false) ∧
        is_collide s (b.moveTo b.pos.x (b.pos.y + ((n + 1 : Nat) : Int))) = true := by
    intro fuel d hd
    rw [down_hard_eval fuel t s i b h] at hd
    cases hl : drop_loop fuel s b with
    | none => rw [hl] at hd; cases hd
    | some b' =>
      obtain ⟨m, hm, _, hfree, hhit⟩ := drop_loop_some s fuel b b' hl
      have hpos : 0 < m := by
        rcases Nat.eq_zero_or_pos m with h0 | h0
        · rw [h0, moveTo_zero, h.free] at hhit; cases hhit
        · exact h0
      obtain ⟨n, rfl⟩ : ∃ n, m = n + 1 := ⟨m - 1, by omega⟩
      exact ⟨n, hm, fun j hj => hfree j (by omega), hhit⟩
  refine ⟨?_, ?_, ?_⟩
  · intro d
    constructor
    · rintro ⟨fuel, hd⟩
      obtain ⟨n, hn, hfree, hhit⟩ := hard_some fuel d hd
      obtain ⟨g, hg, hs⟩ := soft_drops_spec s i n t b (n + 1) h hst (by omega) hfree hhit
      rw [hard_drop_spec s i n t b fuel h hn hfree hhit g hg] at hd
      exact ⟨n + 1, by rw [hs, hd]⟩
    · rintro ⟨fuel, hd⟩
      obtain ⟨n, hn, hfree, hhit⟩ := soft_drops_some s i fuel t b d h hst hd
      obtain ⟨g, hg, hs⟩ := soft_drops_spec s i n t b fuel h hst hn hfree hhit
      rw [hs] at hd
      exact ⟨n + 2, by
        rw [hard_drop_spec s i n t b (n + 2) h (by omega) hfree hhit g hg, hd]⟩
  · intro fuel d hd
    obtain ⟨n, hn, hfree, hhit⟩ := hard_some fuel d hd
    obtain ⟨g, hg, _⟩ := place_of_free s _ h.settled (hfree n (le_refl _))
    rw [hard_drop_spec s i n t b fuel h hn hfree hhit g hg] at hd
    cases hd
    have hp := painted_store t s i b _ g h (hfree n (le_refl _)) hg
    exact ⟨rfl, rfl, _, hp.brick, rfl, rfl, hg⟩
  · intro hcell
    obtain ⟨n, hn, hfree, hhit⟩ := landing_exists s b hcell h.free
    obtain ⟨g, hg, _⟩ := place_of_free s _ h.settled (hfree n (le_refl _))
    refine ⟨_, fun fuel hfuel =>
      hard_drop_spec s i n t b fuel h (by omega) hfree hhit g hg, ?_⟩
    intro fuel hfuel
    obtain ⟨g', hg', hs⟩ := soft_drops_spec s i n t b fuel h hst (by omega) hfree hhit
    rw [hg] at hg'
    cases hg'
    exact hs

/-- C27 at the T brick on the spawn anchor of the empty field. -/
theorem C27_witness :
    ∃ d : Tetris, _down 22 (sampleEngine emptyField 6 (brickT.moveTo 5 0)) true = some d ∧
      soft_drops 21 (sampleEngine emptyField 6 (brickT.moveTo 5 0)) = some d := by
  obtain ⟨d, h1, h2⟩ :=
    (C27_hard_drop_is_soft_drops (sampleEngine emptyField 6 (brickT.moveTo 5 0)) emptyField 6
      (brickT.moveTo 5 0) painted_sample_spawn (by decide)).2.2 ⟨1, 1, by decide⟩
  exact ⟨d, h1 22 (le_refl _), h2 21 (le_refl _)⟩

/-! ## The frame of the moves -/

theorem moveFrame_store (t : Tetris) (s : Grid) (i : Nat) (b b' : Brick) (g : Grid)
    (h : Painted t s i b) (hfree : is_collide s b' = false)
    (hg : place_brick s b' = some g) :
    MoveFrame t s i (t.store i b' g) ∧ MoveFrame t s i (t.store i b' g).attach := by
  have hp := painted_store t s i b b' g h hfree hg
  have hrm := remove_place_brick s g b' h.settled hfree hg
  have hothers : ∀ j, j ≠ i → (t.store i b' g).brickAt j = t.brickAt j := by
    intro j hj
    have hne : ¬ i = j := fun e => hj e.symm
    simp [Tetris.store, Tetris.brickAt, List.getElem?_set, hne]
  exact ⟨⟨⟨b', hp.brick, hrm⟩, rfl, rfl, rfl, rfl, rfl, rfl, rfl, hothers⟩,
    ⟨⟨b', hp.brick, hrm⟩, rfl, rfl, rfl, rfl, rfl, rfl, rfl, hothers⟩⟩

theorem moveFrame_self (t : Tetris) (s : Grid) (i : Nat) (b : Brick) (h : Painted t s i b) :
    MoveFrame t s i t :=
  ⟨⟨b, h.brick, remove_place_brick s _ b h.settled h.free h.painted⟩, rfl, rfl, rfl, rfl, rfl,
    rfl, rfl, fun _ _ => rfl⟩

/-- C28 (amended): in an engine state whose active piece `b` (rotation index in
range), behind slot `i`, is painted into the field over the settled cells `s`,
the field with the footprint of the piece erased is `s`, and each of Left,
Right, Up, Action and Down with hold = false returns an engine whose field with
the footprint of the piece erased is `s` again, with the preview, score, high
score, level, speed, pause flag, next-brick pointer and every repository slot
other than `i` unchanged; so does Down with hold = true whenever it returns,
which it does with fuel for 22 iterations when the mask has an occupied cell.
The next brick itself is unchanged when its slot is not `i`. -/
theorem C28_moves_frame (fuel : Nat) (t : Tetris) (s : Grid) (i : Nat) (b : Brick)
    (hold : Bool) (h : Painted t s i b) (h0 : 0 ≤ b.state) (h1 : b.state < b.total_states) :
    remove_brick t.data.info.field b = some s ∧
    (∃ t', _left t hold = some t' ∧ MoveFrame t s i t') ∧
    (∃ t', _right t hold = some t' ∧ MoveFrame t s i t') ∧
    (_up t hold = t ∧ MoveFrame t s i (_up t hold)) ∧
    (∃ t', _action t hold = some t' ∧ MoveFrame t s i t') ∧
    (∃ t', _down fuel t false = some t' ∧ MoveFrame t s i t') ∧
    (∀ t', _down fuel t true = some t' → MoveFrame t s i t') ∧
    ((∃ r c : Nat, r < 4 ∧ c < 4 ∧ b.mask r c ≠ 0) → 22 ≤ fuel →
      ∃ t', _down fuel t true = some t' ∧ MoveFrame t s i t') ∧
    (∀ (k : Nat) (t' : Tetris), MoveFrame t s i t' → t.data.next_brick = some k → k ≠ i →
      t'.data.next_brick = some k ∧ t'.brickAt k = t.brickAt k) := by
  have key : ∀ b' : Brick, is_collide s b' = false →
      ∃ g, place_brick s b' = some g ∧ MoveFrame t s i (t.store i b' g) ∧
        MoveFrame t s i (t.store i b' g).attach := by
    intro b' hfree
    obtain ⟨g, hg, _⟩ := place_of_free s b' h.settled hfree
    exact ⟨g, hg, moveFrame_store t s i b b' g h hfree hg⟩
  refine ⟨remove_place_brick s _ b h.settled h.free h.painted, ?_, ?_,
    ⟨rfl, moveFrame_self t s i b h⟩, ?_, ?_, ?_, ?_, ?_⟩
  · rw [left_eval t s i b hold h]
    have hfree : is_collide s
        (if is_collide s (b.moveTo (b.pos.x - 1) b.pos.y) = true then b
          else b.moveTo (b.pos.x - 1) b.pos.y) = false := by
      split
      · exact h.free
      · simpa using ‹¬ is_collide s (b.moveTo (b.pos.x - 1) b.pos.y) = true›
    obtain ⟨g, hg, hf, _⟩ := key _ hfree
    rw [hg]
    exact ⟨_, rfl, hf⟩
  · rw [right_eval t s i b hold h]
    have hfree : is_collide s
        (if is_collide s (b.moveTo (b.pos.x + 1) b.pos.y) = true then b
          else b.moveTo (b.pos.x + 1) b.pos.y) = false := by
      split
      · exact h.free
      · simpa using ‹¬ is_collide s (b.moveTo (b.pos.x + 1) b.pos.y) = true›
    obtain ⟨g, hg, hf, _⟩ := key _ hfree
    rw [hg]
    exact ⟨_, rfl, hf⟩
  · rw [action_eval t s i b hold h]
    have hfree : is_collide s
        (if is_collide s (_next_state b) = true then _prev_state (_next_state b)
          else _next_state b) = false := by
      split
      · rw [prev_next_state b h0 h1]
        exact h.free
      · simpa using ‹¬ is_collide s (_next_state b) = true›
    obtain ⟨g, hg, hf, _⟩ := key _ hfree
    rw [hg]
    exact ⟨_, rfl, hf⟩
  · rw [down_soft_eval fuel t s i b h]
    split
    · obtain ⟨g, hg, _, hf⟩ := key b h.free
      rw [hg]
      exact ⟨_, rfl, hf⟩
    · have hfree : is_collide s (b.moveTo b.pos.x (b.pos.y + 1)) = false := by
        simpa using ‹¬ is_collide s (b.moveTo b.pos.x (b.pos.y + 1)) = true›
      obtain ⟨g, hg, hf, _⟩ := key _ hfree
      rw [hg]
      exact ⟨_, rfl, hf⟩
  · intro t' ht'
    have ht2 := ht'
    rw [down_hard_eval fuel t s i b h] at ht2
    cases hl : drop_loop fuel s b with
    | none => rw [hl] at ht2; cases ht2
    | some b' =>
      obtain ⟨m, hm, hb', hfree, hhit⟩ := drop_loop_some s fuel b b' hl
      have hpos : 0 < m := by
        rcases Nat.eq_zero_or_pos m with hz | hz
        · rw [hz, moveTo_zero, h.free] at hhit; cases hhit
        · exact hz
      obtain ⟨n, rfl⟩ : ∃ n, m = n + 1 := ⟨m - 1, by omega⟩
      have hfn := hfree n (by omega)
      obtain ⟨g, hg, _, hf⟩ := key _ hfn
      rw [hard_drop_spec s i n t b fuel h hm (fun j hj => hfree j (by omega)) hhit g hg] at ht'
      cases ht'
      exact hf
  · intro hcell hfuel
    obtain ⟨n, hn, hfree, hhit⟩ := landing_exists s b hcell h.free
    obtain ⟨g, hg, _, hf⟩ := key _ (hfree n (le_refl _))
    exact ⟨_, hard_drop_spec s i n t b fuel h (by omega) hfree hhit g hg, hf⟩
  · intro k t' hf hk hki
    exact ⟨by rw [hf.next_brick, hk], hf.others k hki⟩

/-- C28 (amended) at the T brick on the spawn anchor of the empty field: Left. -/
theorem C28_witness :
    ∃ t', _left (sampleEngine emptyField 6 (brickT.moveTo 5 0)) false = some t' ∧
      MoveFrame (sampleEngine emptyField 6 (brickT.moveTo 5 0)) emptyField 6 t' :=
  (C28_moves_frame 0 (sampleEngine emptyField 6 (brickT.moveTo 5 0)) emptyField 6
    (brickT.moveTo 5 0) false painted_sample_spawn (by decide) (by decide)).2.1

/-- C28 as stated fails over a catalog with one brick: on the fresh engine Start
makes slot 0 both the current and the next brick, painted at `(5, 0)`; Left then
moves the brick of slot 0 to column 4, so the next brick, still slot 0, is not
the brick it was before the move. -/
theorem C28_next_brick_moves_when_aliased :
    ∃ t0 t1, dispatch 0 (new_tetris loneCatalog) UserAction_t.Start false 0 [0, 0]
        = some (t0, []) ∧
      Painted t0 emptyField 0 (brickT.moveTo 5 0) ∧
      t0.data.current_brick = some 0 ∧ t0.data.next_brick = some 0 ∧
      t0.brickAt 0 = some (brickT.moveTo 5 0) ∧
      dispatch 0 t0 UserAction_t.Left false 0 [] = some (t1, []) ∧
      t1.data.next_brick = some 0 ∧
      t1.brickAt 0 = some (brickT.moveTo 4 0) ∧
      t1.brickAt 0 ≠ t0.brickAt 0 := by
  obtain ⟨t0, b, hstart, hmov, hcur, hnext, hb, _, hp, _, _⟩ :=
    start_fresh_spec loneCatalog 0 false 0 [0, 0] 0 0 [0] [] (by decide) (by decide)
      (by decide)
  have hbT : b = brickT := by
    have : loneCatalog.items[0]? = some brickT := by decide
    rw [this] at hb
    cases hb
    rfl
  subst hbT
  have hfree : is_collide emptyField (brickT.moveTo 4 0) = false := by decide
  obtain ⟨g, hg, _⟩ := place_of_free emptyField _ hp.settled hfree
  have hp1 := painted_store t0 emptyField 0 _ _ g hp hfree hg
  have hleft : _left t0 false = some (t0.store 0 (brickT.moveTo 4 0) g) := by
    rw [left_eval t0 emptyField 0 _ false hp]
    have hc : ¬ is_collide emptyField
        ((brickT.moveTo 5 0).moveTo ((brickT.moveTo 5 0).pos.x - 1) (brickT.moveTo 5 0).pos.y)
        = true := by decide
    rw [if_neg hc]
    have e : (brickT.moveTo 5 0).moveTo ((brickT.moveTo 5 0).pos.x - 1)
        (brickT.moveTo 5 0).pos.y = brickT.moveTo 4 0 := by decide
    rw [e, hg]
    rfl
  have hd : dispatch 0 t0 UserAction_t.Left false 0 []
      = (_left t0 false).bind (fun t' => some (t', [])) := by
    unfold dispatch
    rw [hmov]
  refine ⟨t0, t0.store 0 (brickT.moveTo 4 0) g, hstart, hp, hcur, hnext, hp.brick, ?_, hnext,
    hp1.brick, ?_⟩
  · rw [hd, hleft]
    rfl
  · rw [hp1.brick, hp.brick]
    decide

/-! ## What a step does -/

theorem get_random_some (self : TetrisBrickRepository) (rand : List Nat)
    (g : TetrisBrickRepository × Option Nat) (rest : List Nat)
    (h : _get_random self rand = some (g, rest)) :
    ∃ k : Nat, get_random_loop self.items.length self.last_index rand
        = some ((k : Int), rest) ∧ k < self.items.length ∧
      g = ({ items := handOut self.items k, last_index := (k : Int) }, some k) := by
  cases hl : get_random_loop self.items.length self.last_index rand with
  | none =>
    unfold _get_random at h
    rw [hl] at h
    cases h
  | some p =>
    obtain ⟨idx, rest'⟩ := p
    obtain ⟨k, hk, hlt, _⟩ := get_random_loop_spec _ _ _ _ _ hl
    subst hk
    obtain ⟨hev, _⟩ := get_random_eval self rand k rest' hl
    rw [hev] at h
    cases h
    exact ⟨k, rfl, hlt, rfl⟩

theorem spawn_some (t : Tetris) (rand : List Nat) (t' : Tetris) (rest : List Nat)
    (h : __spawn t rand = some (t', rest)) :
    ∃ c k : Nat, SpawnDraw t rand c k rest ∧
      spawn_place t { items := spawnItems t c k, last_index := (k : Int) } c k = some t' := by
  unfold __spawn at h
  cases hn : t.data.next_brick with
  | none =>
    simp only [hn] at h
    cases h1 : _get_random t.repository rand with
    | none => rw [h1] at h; cases h
    | some q =>
      obtain ⟨g1, mid⟩ := q
      obtain ⟨c, hl1, _, hg1⟩ := get_random_some _ _ _ _ h1
      subst hg1
      rw [h1] at h
      simp only [Option.bind] at h
      cases h2 : _get_random { items := handOut t.repository.items c, last_index := (c : Int) }
          mid with
      | none => rw [h2] at h; cases h
      | some q2 =>
        obtain ⟨g2, rest2⟩ := q2
        obtain ⟨k, hl2, _, hg2⟩ := get_random_some _ _ _ _ h2
        subst hg2
        rw [h2] at h
        simp only at h
        cases h3 : spawn_place t
            (TetrisBrickRepository.mk (handOut (handOut t.repository.items c) k) (k : Int))
            c k with
        | none => rw [h3] at h; cases h
        | some t3 =>
          rw [h3] at h
          simp only [Option.bind, Option.some.injEq, Prod.mk.injEq] at h
          obtain ⟨ht, hr⟩ := h
          subst hr
          subst ht
          simp only [handOut_length] at hl2
          refine ⟨c, k, Or.inr ⟨hn, mid, hl1, hl2⟩, ?_⟩
          unfold spawnItems
          rw [hn]
          exact h3
  | some j =>
    simp only [hn, Option.bind] at h
    cases h2 : _get_random t.repository rand with
    | none => rw [h2] at h; cases h
    | some q2 =>
      obtain ⟨g2, rest2⟩ := q2
      obtain ⟨k, hl2, _, hg2⟩ := get_random_some _ _ _ _ h2
      subst hg2
      rw [h2] at h
      simp only at h
      cases h3 : spawn_place t
          (TetrisBrickRepository.mk (handOut t.repository.items k) (k : Int)) j k with
      | none => rw [h3] at h; cases h
      | some t3 =>
        rw [h3] at h
        simp only [Option.bind, Option.some.injEq, Prod.mk.injEq] at h
        obtain ⟨ht, hr⟩ := h
        subst hr
        subst ht
        refine ⟨j, k, Or.inl ⟨hn, hl2⟩, ?_⟩
        unfold spawnItems
        rw [hn]
        exact h3

theorem spawn_place_frame (t : Tetris) (repo : TetrisBrickRepository) (c k : Nat)
    (t' : Tetris) (h : spawn_place t repo c k = some t') :
    t'.data.current_brick = some c ∧ t'.data.next_brick = some k ∧
    t'.repository.last_index = repo.last_index ∧
    t'.repository.items.length = repo.items.length ∧
    c < repo.items.length ∧ k < repo.items.length ∧
    t'.data.info.score = t.data.info.score ∧
    t'.data.info.high_score = t.data.info.high_score ∧
    ((t'.state = TetriState.TETRIS_MOVING_STATE ∧ t'.data.info.pause = t.data.info.pause) ∨
      (t'.state = TetriState.TETRIS_GAMEOVER_STATE ∧ t'.data.info.pause = -1)) := by
  unfold spawn_place at h
  cases hk : repo.items[k]? with
  | none => rw [hk] at h; cases h
  | some nb =>
    have hklt : k < repo.items.length := by
      rcases Nat.lt_or_ge k repo.items.length with hlt | hge
      · exact hlt
      · rw [List.getElem?_eq_none hge] at hk; cases hk
    rw [hk] at h
    simp only [Option.bind] at h
    cases hp : populate_next t.data.info.next nb with
    | none => rw [hp] at h; cases h
    | some next =>
      rw [hp] at h
      simp only at h
      cases hc : repo.items[c]? with
      | none => rw [hc] at h; cases h
      | some cb =>
        have hclt : c < repo.items.length := by
          rcases Nat.lt_or_ge c repo.items.length with hlt | hge
          · exact hlt
          · rw [List.getElem?_eq_none hge] at hc; cases hc
        rw [hc] at h
        simp only at h
        split at h
        · cases hpl : place_brick t.data.info.field
              { cb with pos := { x := TETRIS_FIELD_WIDTH.tdiv 2, y := 0 } } with
          | none => rw [hpl] at h; cases h
          | some field =>
            rw [hpl] at h
            simp only [Option.some.injEq] at h
            subst h
            exact ⟨rfl, rfl, rfl, by simp, hclt, hklt, rfl, rfl, Or.inl ⟨rfl, rfl⟩⟩
        · simp only [Option.some.injEq] at h
          subst h
          exact ⟨rfl, rfl, rfl, by simp, hclt, hklt, rfl, rfl, Or.inr ⟨rfl, rfl⟩⟩

theorem spawn_frame (t : Tetris) (rand : List Nat) (t' : Tetris) (rest : List Nat)
    (h : __spawn t rand = some (t', rest)) :
    ∃ c k : Nat, SpawnDraw t rand c k rest ∧
      t'.data.current_brick = some c ∧ t'.data.next_brick = some k ∧
      t'.repository.last_index = (k : Int) ∧
      t'.repository.items.length = t.repository.items.length ∧
      c < t.repository.items.length ∧ k < t.repository.items.length ∧
      t'.data.info.score = t.data.info.score ∧
      t'.data.info.high_score = t.data.info.high_score ∧
      ((t'.state = TetriState.TETRIS_MOVING_STATE ∧
          t'.data.info.pause = t.data.info.pause) ∨
        (t'.state = TetriState.TETRIS_GAMEOVER_STATE ∧ t'.data.info.pause = -1)) ∧
      (1 < t.repository.items.length →
        (∀ j, t.data.next_brick = some j → t.repository.last_index = (j : Int)) → c ≠ k) := by
  obtain ⟨c, k, hd, hsp⟩ := spawn_some t rand t' rest h
  obtain ⟨f1, f2, f3, f4, f5, f6, f7, f8, f9⟩ := spawn_place_frame t _ c k t' hsp
  simp only [spawnItems_length] at f4 f5 f6
  refine ⟨c, k, hd, f1, f2, f3, f4, f5, f6, f7, f8, f9, ?_⟩
  intro hmany hlink hck
  rcases hd with ⟨hn, hl⟩ | ⟨hn, mid, hl1, hl2⟩
  · obtain ⟨k', hk', _, hne⟩ := get_random_loop_spec _ _ _ _ _ hl
    have hkk : k' = k := by omega
    subst hkk
    apply hne hmany
    rw [hlink c hn, hck]
  · obtain ⟨k', hk', _, hne⟩ := get_random_loop_spec _ _ _ _ _ hl2
    have hkk : k' = k := by omega
    subst hkk
    apply hne hmany
    rw [hck]

theorem left_shape (t : Tetris) (hold : Bool) (t' : Tetris) (h : _left t hold = some t') :
    t' = t ∨ ∃ i b g, t' = t.store i b g := by
  unfold _left at h
  split at h
  · cases h
    exact Or.inl rfl
  · simp only [Option.bind_eq_some] at h
    obtain ⟨brick, _, field, _, field2, _, h⟩ := h
    cases h
    exact Or.inr ⟨_, _, _, rfl⟩

theorem right_shape (t : Tetris) (hold : Bool) (t' : Tetris) (h : _right t hold = some t') :
    t' = t ∨ ∃ i b g, t' = t.store i b g := by
  unfold _right at h
  split at h
  · cases h
    exact Or.inl rfl
  · simp only [Option.bind_eq_some] at h
    obtain ⟨brick, _, field, _, field2, _, h⟩ := h
    cases h
    exact Or.inr ⟨_, _, _, rfl⟩

theorem action_shape (t : Tetris) (hold : Bool) (t' : Tetris) (h : _action t hold = some t') :
    t' = t ∨ ∃ i b g, t' = t.store i b g := by
  unfold _action at h
  split at h
  · cases h
    exact Or.inl rfl
  · simp only [Option.bind_eq_some] at h
    obtain ⟨brick, _, field, _, field2, _, h⟩ := h
    cases h
    exact Or.inr ⟨_, _, _, rfl⟩

theorem down_shape (fuel : Nat) (t : Tetris) (hold : Bool) (t' : Tetris)
    (h : _down fuel t hold = some t') :
    t' = t ∨ (∃ i b g, t' = t.store i b g) ∨ ∃ i b g, t' = (t.store i b g).attach := by
  unfold _down at h
  split at h
  · cases h
    exact Or.inl rfl
  · simp only [Option.bind_eq_some] at h
    obtain ⟨brick, _, field, _, ⟨b2, col⟩, _, field2, _, h⟩ := h
    simp only at h
    split at h
    · cases h
      exact Or.inr (Or.inr ⟨_, _, _, rfl⟩)
    · cases h
      exact Or.inr (Or.inl ⟨_, _, _, rfl⟩)

theorem shape_same (stored : Int) (t : Tetris) : StepShape stored t t :=
  Or.inl ⟨t, Or.inl rfl, Or.inl rfl⟩

theorem shape_move (stored : Int) (t t' : Tetris)
    (h : t' = t ∨ ∃ i b g, t' = t.store i b g) : StepShape stored t t' := by
  rcases h with h | h
  · exact Or.inl ⟨t, Or.inl rfl, Or.inl h⟩
  · exact Or.inl ⟨t, Or.inl rfl, Or.inr (Or.inl h)⟩

theorem start_shape (stored : Int) (t t' : Tetris) (rand rest : List Nat)
    (hst : t.state = TetriState.TETRIS_READY_STATE ∨
      t.state = TetriState.TETRIS_GAMEOVER_STATE)
    (h : _start t stored rand = some (t', rest)) : StepShape stored t t' := by
  unfold _start at h
  rcases hst with hst | hst
  · have hne : ¬ (_on_startup t stored).state = TetriState.TETRIS_GAMEOVER_STATE := by
      show ¬ t.state = _
      rw [hst]
      decide
    simp only [if_pos hst, if_neg hne, Option.bind] at h
    exact Or.inr (Or.inr (Or.inr ⟨_, rand, rest, h, rfl, rfl, Or.inl ⟨hst, rfl, rfl, rfl⟩⟩))
  · have hne : ¬ t.state = TetriState.TETRIS_READY_STATE := by rw [hst]; decide
    simp only [if_neg hne, if_pos hst] at h
    cases hc : clear_tetris_fields t.data.info.field with
    | none => rw [hc] at h; cases h
    | some f =>
      rw [hc] at h
      simp only [Option.bind] at h
      exact Or.inr (Or.inr (Or.inr
        ⟨_, rand, rest, h, rfl, rfl, Or.inr (Or.inl ⟨hst, rfl, rfl, rfl⟩)⟩))

theorem dispatch_shape (fuel : Nat) (t : Tetris) (a : UserAction_t) (hold : Bool)
    (stored : Int) (rand : List Nat) (t' : Tetris) (rest : List Nat)
    (h : dispatch fuel t a hold stored rand = some (t', rest)) : StepShape stored t t' := by
  have same : ∀ r : List Nat, some (t, r) = some (t', rest) → StepShape stored t t' := by
    intro r e
    cases e
    exact shape_same stored t
  have term : ∀ r : List Nat, some (_terminate t, r) = some (t', rest) →
      StepShape stored t t' := by
    intro r e
    cases e
    exact Or.inr (Or.inr (Or.inl rfl))
  have move : ∀ (o : Option Tetris) (r : List Nat),
      (∀ d, o = some d → d = t ∨ ∃ i b g, d = t.store i b g) →
      o.bind (fun d => some (d, r)) = some (t', rest) → StepShape stored t t' := by
    intro o r ho e
    cases o with
    | none => cases e
    | some d =>
      cases e
      exact shape_move stored t _ (ho _ rfl)
  unfold dispatch at h
  cases hst : t.state with
  | TETRIS_READY_STATE =>
    rw [hst] at h
    cases a <;> simp only at h
    case Start => exact start_shape stored t t' rand rest (Or.inl hst) h
    case Terminate => exact term _ h
    all_goals exact same _ h
  | TETRIS_SPAWN_STATE =>
    rw [hst] at h
    cases a <;> simp only at h
    case Pause =>
      cases h
      exact Or.inr (Or.inl ⟨rfl, Or.inl hst⟩)
    case Terminate => exact term _ h
    all_goals exact same _ h
  | TETRIS_MOVING_STATE =>
    rw [hst] at h
    cases a <;> simp only at h
    case Start => exact same _ h
    case Pause =>
      cases h
      exact Or.inr (Or.inl ⟨rfl, Or.inr (Or.inl hst)⟩)
    case Terminate => exact term _ h
    case Left => exact move _ _ (fun d hd => left_shape t hold d hd) h
    case Right => exact move _ _ (fun d hd => right_shape t hold d hd) h
    case Up => exact same _ h
    case Action => exact move _ _ (fun d hd => action_shape t hold d hd) h
    case Down =>
      cases hd : _down fuel t hold with
      | none => rw [hd] at h; cases h
      | some d =>
        rw [hd] at h
        cases h
        rcases down_shape fuel t hold _ hd with e | e | e
        · exact shape_move stored t _ (Or.inl e)
        · exact shape_move stored t _ (Or.inr e)
        · exact Or.inl ⟨t, Or.inl rfl, Or.inr (Or.inr ⟨hst, e⟩)⟩
  | TETRIS_ATTACH_STATE =>
    rw [hst] at h
    exact same _ h
  | TETRIS_GAMEOVER_STATE =>
    rw [hst] at h
    cases a <;> simp only at h
    case Start => exact start_shape stored t t' rand rest (Or.inr hst) h
    case Terminate => exact term _ h
    all_goals exact same _ h
  | TETRIS_PAUSE_STATE =>
    rw [hst] at h
    cases a <;> simp only at h
    case Start =>
      cases h
      exact Or.inr (Or.inl ⟨rfl, Or.inr (Or.inr hst)⟩)
    case Pause =>
      cases h
      exact Or.inr (Or.inl ⟨rfl, Or.inr (Or.inr hst)⟩)
    case Terminate => exact term _ h
    all_goals exact same _ h
  | TETRIS_TERMINATED_STATE =>
    rw [hst] at h
    exact same _ h

theorem tick_shape (fuel : Nat) (t : Tetris) (is_ticked : Bool) (speed : Int)
    (stored : Int) (rand : List Nat) (t' : Tetris) (rest : List Nat)
    (h : __tick fuel t is_ticked speed rand = some (t', rest)) : StepShape stored t t' := by
  have hidle : ∀ r : List Nat,
      some (t.withLevelSpeed (toInt (get_level_by_score t.data.info.score)) speed, r)
        = some (t', rest) → StepShape stored t t' := by
    intro r e
    cases e
    exact Or.inl ⟨_, Or.inr ⟨_, _, rfl⟩, Or.inl rfl⟩
  by_cases hm : t.state = TetriState.TETRIS_MOVING_STATE
  · cases is_ticked with
    | true =>
      have key : __tick fuel t true speed rand
          = (_down fuel (t.withLevelSpeed (toInt (get_level_by_score t.data.info.score)) speed)
              false).bind (fun d => some (d, rand)) := by
        unfold __tick Tetris.withLevelSpeed
        simp only [hm, decide_True, Bool.and_self, if_true]
      rw [key] at h
      cases hd : _down fuel
          (t.withLevelSpeed (toInt (get_level_by_score t.data.info.score)) speed) false with
      | none => rw [hd] at h; cases h
      | some d =>
        rw [hd] at h
        cases h
        rcases down_shape fuel _ false _ hd with e | e | e
        · exact Or.inl ⟨_, Or.inr ⟨_, _, rfl⟩, Or.inl e⟩
        · exact Or.inl ⟨_, Or.inr ⟨_, _, rfl⟩, Or.inr (Or.inl e)⟩
        · exact Or.inl ⟨_, Or.inr ⟨_, _, rfl⟩, Or.inr (Or.inr ⟨hm, e⟩)⟩
    | false =>
      rw [tick_moving_idle fuel t speed rand hm] at h
      exact hidle _ h
  · by_cases ha : t.state = TetriState.TETRIS_ATTACH_STATE
    · rw [tick_attach_eval fuel t is_ticked speed rand ha] at h
      cases he : erase_lines fuel t.data.info.field with
      | none => rw [he] at h; cases h
      | some e =>
        rw [he] at h
        simp only [Option.bind] at h
        exact Or.inr (Or.inr (Or.inr ⟨_, rand, rest, h, rfl, rfl,
          Or.inr (Or.inr ⟨ha, rfl, get_reward_count e.2, reward_nonneg _, reward_le _, rfl,
            rfl⟩)⟩))
    · have key : __tick fuel t is_ticked speed rand
          = some (t.withLevelSpeed (toInt (get_level_by_score t.data.info.score)) speed,
              rand) := by
        unfold __tick Tetris.withLevelSpeed
        cases is_ticked <;>
          simp only [hm, ha, decide_False, Bool.and_false, Bool.false_and, Bool.false_eq_true,
            if_false]
      rw [key] at h
      exact hidle _ h

theorem step_shape (stored : Int) (t t' : Tetris) (h : Step stored t t') :
    StepShape stored t t' := by
  cases h with
  | action fuel _ a hold rand _ rest h =>
    exact dispatch_shape fuel t a hold stored rand t' rest h
  | tick fuel _ is_ticked speed rand _ rest h =>
    exact tick_shape fuel t is_ticked speed stored rand t' rest h

/-! ## The invariant of the reachable states -/

theorem inv_fresh (repo : TetrisBrickRepository) (stored : Int) :
    EngineInv repo.items.length stored (new_tetris repo) :=
  ⟨rfl, fun j hj => (by cases hj), fun _ c k hc _ => (by cases hc), (fun h => by cases h), fun _ => rfl,
    fun h => (by cases h), fun h => (by cases h), fun _ => ⟨rfl, rfl⟩,
    fun _ => ⟨le_refl _, le_refl _⟩⟩

theorem inv_store (n : Nat) (stored : Int) (t : Tetris) (i : Nat) (b : Brick) (g : Grid)
    (hs : EngineInv n stored t) : EngineInv n stored (t.store i b g) :=
  ⟨(by simp [Tetris.store, hs.len]), hs.queued, hs.distinct, hs.no_spawn, hs.running, hs.paused,
    hs.over, hs.ready, hs.score⟩

theorem inv_attach (n : Nat) (stored : Int) (t : Tetris)
    (hs : EngineInv n stored t) (hm : t.state = TetriState.TETRIS_MOVING_STATE) :
    EngineInv n stored t.attach :=
  ⟨hs.len, hs.queued, fun _ c k hc _ => (by cases hc), (fun h => by cases h),
    fun _ => hs.running (Or.inr (Or.inl hm)), fun h => (by cases h), fun h => (by cases h),
    fun h => (by cases h), hs.score⟩

theorem inv_pause (n : Nat) (stored : Int) (t : Tetris) (hs : EngineInv n stored t)
    (hst : t.state = TetriState.TETRIS_SPAWN_STATE ∨
      t.state = TetriState.TETRIS_MOVING_STATE ∨ t.state = TetriState.TETRIS_PAUSE_STATE) :
    EngineInv n stored (_pause t) := by
  rcases hst with hst | hst | hst
  · exact absurd hst hs.no_spawn
  · have hp := hs.running (Or.inr (Or.inl hst))
    have e : _pause t
        = { t with
            state := TetriState.TETRIS_PAUSE_STATE
            data := { t.data with info := { t.data.info with pause := 1 } } } := by
      unfold _pause
      rw [if_neg (by rw [hp]; decide)]
    rw [e]
    exact ⟨hs.len, hs.queued, hs.distinct, (fun h => by cases h), fun h => (by rcases h with h | h | h <;> cases h),
      fun _ => rfl, fun h => (by cases h), fun h => (by cases h), hs.score⟩
  · have hp := hs.paused hst
    have e : _pause t
        = { t with
            state := TetriState.TETRIS_MOVING_STATE
            data := { t.data with info := { t.data.info with pause := 0 } } } := by
      unfold _pause
      rw [if_pos (by rw [hp]; decide)]
    rw [e]
    exact ⟨hs.len, hs.queued, hs.distinct, (fun h => by cases h), fun _ => rfl,
      fun h => (by cases h), fun h => (by cases h), fun h => (by cases h), hs.score⟩

theorem inv_terminate (n : Nat) (stored : Int) (t : Tetris) (hs : EngineInv n stored t) :
    EngineInv n stored (_terminate t) :=
  ⟨hs.len, hs.queued, hs.distinct, (fun h => by cases h), fun h => (by rcases h with h | h | h <;> cases h),
    fun h => (by cases h), fun h => (by cases h), fun h => (by cases h), hs.score⟩

theorem inv_spawn (n : Nat) (stored : Int) (t p t' : Tetris) (rand rest : List Nat)
    (hs : EngineInv n stored t) (h : __spawn p rand = some (t', rest))
    (hrepo : p.repository = t.repository) (hnext : p.data.next_brick = t.data.next_brick)
    (hpause : p.data.info.pause = 0)
    (hscore : 0 ≤ stored →
      p.data.info.score ≤ p.data.info.high_score ∧ 0 ≤ p.data.info.high_score) :
    EngineInv n stored t' ∧ t'.data.info.high_score = p.data.info.high_score := by
  obtain ⟨c, k, _, f1, f2, f3, f4, f5, f6, f7, f8, f9, f10⟩ := spawn_frame p rand t' rest h
  rw [hrepo] at f4 f5 f6 f10
  rw [hs.len] at f4 f5 f6 f10
  rw [hnext] at f10
  refine ⟨⟨f4, ?_, ?_, ?_, ?_, ?_, ?_, ?_, ?_⟩, f8⟩
  · intro j hj
    rw [f2] at hj
    cases hj
    exact ⟨f6, f3⟩
  · intro hmany c' k' hc hk
    rw [f1] at hc
    rw [f2] at hk
    cases hc
    cases hk
    exact f10 hmany (fun j hj => (hs.queued j hj).2)
  · rcases f9 with ⟨e, _⟩ | ⟨e, _⟩ <;> rw [e] <;> decide
  · intro hrun
    rcases f9 with ⟨_, e⟩ | ⟨e, _⟩
    · rw [e, hpause]
    · rw [e] at hrun
      rcases hrun with h | h | h <;> cases h
  · intro hst
    rcases f9 with ⟨e, _⟩ | ⟨e, _⟩ <;> rw [e] at hst <;> cases hst
  · intro hst
    rcases f9 with ⟨e, _⟩ | ⟨_, e⟩
    · rw [e] at hst; cases hst
    · exact e
  · intro hst
    rcases f9 with ⟨e, _⟩ | ⟨e, _⟩ <;> rw [e] at hst <;> cases hst
  · intro h0
    rw [f7, f8]
    exact hscore h0

theorem step_inv (n : Nat) (stored : Int) (t t' : Tetris) (hs : EngineInv n stored t)
    (h : StepShape stored t t') :
    EngineInv n stored t' ∧ (0 ≤ stored → t.data.info.high_score ≤ t'.data.info.high_score) := by
  rcases h with ⟨t0, ht0, hmove⟩ | ⟨e, hst⟩ | e | ⟨p, rand, rest, hsp, hrepo, hnext, hcase⟩
  · have hs0 : EngineInv n stored t0 ∧ t0.state = t.state ∧
        t0.data.info.high_score = t.data.info.high_score := by
      rcases ht0 with e | ⟨l, sp, e⟩
      · subst e
        exact ⟨hs, rfl, rfl⟩
      · subst e
        exact ⟨⟨hs.len, hs.queued, hs.distinct, hs.no_spawn, hs.running, hs.paused, hs.over,
          hs.ready, hs.score⟩, rfl, rfl⟩
    obtain ⟨hs0, hst0, hh0⟩ := hs0
    rcases hmove with e | ⟨i, b, g, e⟩ | ⟨hm, i, b, g, e⟩
    · subst e
      exact ⟨hs0, fun _ => le_of_eq hh0.symm⟩
    · subst e
      exact ⟨inv_store n stored t0 i b g hs0, fun _ => le_of_eq hh0.symm⟩
    · subst e
      exact ⟨inv_attach n stored _ (inv_store n stored t0 i b g hs0) (hst0.trans hm),
        fun _ => le_of_eq hh0.symm⟩
  · subst e
    refine ⟨inv_pause n stored t hs hst, fun _ => le_of_eq ?_⟩
    unfold _pause
    split <;> rfl
  · subst e
    exact ⟨inv_terminate n stored t hs, fun _ => le_refl _⟩
  · rcases hcase with ⟨hst, hp, hsc, hh⟩ | ⟨hst, hp, hsc, hh⟩ | ⟨hst, hp, r, hr, _, hsc, hh⟩
    · obtain ⟨hinv, hhigh⟩ := inv_spawn n stored t p t' rand rest hs hsp hrepo hnext
        (by rw [hp]; exact hs.running (Or.inl hst))
        (by
          intro h0
          rw [hsc, hh, (hs.ready hst).1]
          exact ⟨h0, h0⟩)
      refine ⟨hinv, fun h0 => ?_⟩
      rw [hhigh, hh, (hs.ready hst).2]
      exact h0
    · obtain ⟨hinv, hhigh⟩ := inv_spawn n stored t p t' rand rest hs hsp hrepo hnext hp
        (by
          intro h0
          rw [hsc, hh]
          have := hs.score h0
          exact ⟨by omega, by omega⟩)
      refine ⟨hinv, fun _ => ?_⟩
      rw [hhigh, hh]
    · obtain ⟨hinv, hhigh⟩ := inv_spawn n stored t p t' rand rest hs hsp hrepo hnext
        (by rw [hp]; exact hs.running (Or.inr (Or.inr hst)))
        (by
          intro h0
          rw [hsc, hh]
          have := hs.score h0
          constructor
          · split <;> omega
          · split <;> omega)
      refine ⟨hinv, fun _ => ?_⟩
      rw [hhigh, hh]
      split <;> omega

theorem reachable_inv (repo : TetrisBrickRepository) (stored : Int) (t : Tetris)
    (h : Reachable repo stored t) : EngineInv repo.items.length stored t := by
  induction h with
  | fresh => exact inv_fresh repo stored
  | step t t' _ hstep ih => exact (step_inv _ stored t t' ih (step_shape stored t t' hstep)).1

theorem reachable_start (stored : Int) :
    ∃ t' : Tetris,
      dispatch 0 (new_tetris sampleCatalog) UserAction_t.Start false stored [3, 4]
        = some (t', []) ∧
      Reachable sampleCatalog stored t' ∧
      t'.state = TetriState.TETRIS_MOVING_STATE ∧
      t'.data.current_brick = some 3 ∧ t'.data.next_brick = some 4 := by
  obtain ⟨t', _, hstart, hmov, hcur, hnext, _⟩ :=
    start_fresh_spec sampleCatalog 0 false stored [3, 4] 3 4 [4] [] (by decide) (by decide)
      (by decide)
  exact ⟨t', hstart,
    Reachable.step _ _ Reachable.fresh (Step.action 0 _ UserAction_t.Start false [3, 4] _ []
      hstart), hmov, hcur, hnext⟩

/-- C24: over a repository with more than one brick, in every engine state
reachable from the fresh engine by dispatched actions and ticks, the current
and the next brick, when both are present, are different slots of the
repository; every spawn run from such a state (on an engine with the same
repository and next brick) leaves both present and in different slots; hence a
write of the current brick leaves the next brick as it was, and handing out the
next brick again leaves the current brick as it was. -/
theorem C24_no_aliasing (repo : TetrisBrickRepository) (stored : Int) (t : Tetris)
    (hmany : 1 < repo.items.length) (h : Reachable repo stored t) :
    (∀ c k, t.data.current_brick = some c → t.data.next_brick = some k →
      c ≠ k ∧
      (∀ (b : Brick) (g : Grid), (t.store c b g).brickAt k = t.brickAt k) ∧
      (handOut t.repository.items k)[c]? = t.brickAt c) ∧
    (∀ (p : Tetris) (rand : List Nat) (t' : Tetris) (rest : List Nat),
      p.repository = t.repository → p.data.next_brick = t.data.next_brick →
      __spawn p rand = some (t', rest) →
      ∃ c k, t'.data.current_brick = some c ∧ t'.data.next_brick = some k ∧
        c < repo.items.length ∧ k < repo.items.length ∧ c ≠ k) := by
  have hs := reachable_inv repo stored t h
  constructor
  · intro c k hc hk
    have hne := hs.distinct hmany c k hc hk
    refine ⟨hne, ?_, ?_⟩
    · intro b g
      simp [Tetris.store, Tetris.brickAt, List.getElem?_set, hne]
    · rw [handOut_getElem?, if_neg hne]
      rfl
  · intro p rand t' rest hrepo hnext hsp
    obtain ⟨c, k, _, f1, f2, _, _, f5, f6, _, _, _, f10⟩ := spawn_frame p rand t' rest hsp
    rw [hrepo, hs.len] at f5 f6 f10
    rw [hnext] at f10
    exact ⟨c, k, f1, f2, f5, f6, f10 hmany (fun j hj => (hs.queued j hj).2)⟩

/-- C24 after the first Start over the standard catalog. -/
theorem C24_witness :
    ∃ t' : Tetris,
      dispatch 0 (new_tetris sampleCatalog) UserAction_t.Start false 0 [3, 4]
        = some (t', []) ∧
      t'.data.current_brick = some 3 ∧ t'.data.next_brick = some 4 ∧
      ∀ (b : Brick) (g : Grid), (t'.store 3 b g).brickAt 4 = t'.brickAt 4 := by
  obtain ⟨t', hstart, hreach, _, hcur, hnext⟩ := reachable_start 0
  exact ⟨t', hstart, hcur, hnext,
    ((C24_no_aliasing sampleCatalog 0 t' (by decide) hreach).1 3 4 hcur hnext).2.1⟩

/-- C25: in every engine state reachable from the fresh engine by dispatched
actions and ticks, the pause flag is 0 when the phase is READY, MOVING or
ATTACH, 1 when the phase is PAUSE and -1 when the phase is GAMEOVER; the phase
SPAWN is never entered. -/
theorem C25_pause_tracks_phase (repo : TetrisBrickRepository) (stored : Int) (t : Tetris)
    (h : Reachable repo stored t) :
    ((t.state = TetriState.TETRIS_READY_STATE ∨ t.state = TetriState.TETRIS_MOVING_STATE ∨
        t.state = TetriState.TETRIS_ATTACH_STATE) → t.data.info.pause = 0) ∧
    (t.state = TetriState.TETRIS_PAUSE_STATE → t.data.info.pause = 1) ∧
    (t.state = TetriState.TETRIS_GAMEOVER_STATE → t.data.info.pause = -1) ∧
    t.state ≠ TetriState.TETRIS_SPAWN_STATE := by
  have hs := reachable_inv repo stored t h
  exact ⟨hs.running, hs.paused, hs.over, hs.no_spawn⟩

/-- C25 after the first Start over the standard catalog: MOVING with pause 0. -/
theorem C25_witness :
    ∃ t' : Tetris,
      dispatch 0 (new_tetris sampleCatalog) UserAction_t.Start false 0 [3, 4]
        = some (t', []) ∧
      t'.state = TetriState.TETRIS_MOVING_STATE ∧ t'.data.info.pause = 0 := by
  obtain ⟨t', hstart, hreach, hmov, _, _⟩ := reachable_start 0
  exact ⟨t', hstart, hmov,
    (C25_pause_tracks_phase sampleCatalog 0 t' hreach).1 (Or.inr (Or.inl hmov))⟩

theorem step_score_nonneg (stored : Int) (t t' : Tetris) (h : StepShape stored t t')
    (h0 : 0 ≤ t.data.info.score) (hb : t.data.info.score ≤ 2 ^ 31 - 1501) :
    0 ≤ t'.data.info.score := by
  rcases h with ⟨t0, ht0, hmove⟩ | ⟨e, _⟩ | e | ⟨p, rand, rest, hsp, _, _, hcase⟩
  · have hs0 : t0.data.info.score = t.data.info.score := by
      rcases ht0 with e | ⟨l, sp, e⟩ <;> subst e <;> rfl
    rcases hmove with e | ⟨i, b, g, e⟩ | ⟨_, i, b, g, e⟩ <;> subst e <;>
      exact le_of_le_of_eq h0 hs0.symm
  · subst e
    unfold _pause
    split <;> exact h0
  · subst e
    exact h0
  · obtain ⟨c, k, _, _, _, _, _, _, _, f7, _⟩ := spawn_frame p rand t' rest hsp
    rw [f7]
    rcases hcase with ⟨_, _, hsc, _⟩ | ⟨_, _, hsc, _⟩ | ⟨_, _, r, hr, hr2, hsc, _⟩
    · rw [hsc]; exact h0
    · rw [hsc]
    · rw [hsc, add_reward_exact _ _ (by omega) hr (by omega)]
      omega

theorem reachableBelow_reachable (repo : TetrisBrickRepository) (stored bound : Int)
    (t : Tetris) (h : ReachableBelow repo stored bound t) : Reachable repo stored t := by
  induction h with
  | fresh => exact Reachable.fresh
  | step t t' _ _ hstep ih => exact Reachable.step t t' ih hstep

theorem reachableBelow_nonneg (repo : TetrisBrickRepository) (stored : Int) (t : Tetris)
    (h : ReachableBelow repo stored (2 ^ 31 - 1501) t) : 0 ≤ t.data.info.score := by
  induction h with
  | fresh => exact le_refl _
  | step t t' _ hb hstep ih =>
    exact step_score_nonneg stored t t' (step_shape stored t t' hstep) ih hb

/-- C29 (amended): when the high score read at the first Start is not negative,
in every engine state reachable from the fresh engine by dispatched actions and
ticks the high score is not negative and at least the score, and no dispatched
action or tick from such a state (the first Start with its load of the stored
high score included) decreases the high score; a step from a state whose score
is not negative and at most `2^31 - 1501` leaves the score not negative, so
the score is not negative in every state reached through states whose score is
at most `2^31 - 1501`. -/
theorem C29_high_score_dominates (repo : TetrisBrickRepository) (stored : Int) (t : Tetris)
    (h0 : 0 ≤ stored) (h : Reachable repo stored t) :
    t.data.info.score ≤ t.data.info.high_score ∧ 0 ≤ t.data.info.high_score ∧
    (∀ t', Step stored t t' →
      t.data.info.high_score ≤ t'.data.info.high_score ∧
      (0 ≤ t.data.info.score → t.data.info.score ≤ 2 ^ 31 - 1501 →
        0 ≤ t'.data.info.score)) ∧
    (ReachableBelow repo stored (2 ^ 31 - 1501) t → 0 ≤ t.data.info.score) := by
  have hs := reachable_inv repo stored t h
  refine ⟨(hs.score h0).1, (hs.score h0).2, ?_, reachableBelow_nonneg repo stored t⟩
  intro t' hstep
  exact ⟨(step_inv _ stored t t' hs (step_shape stored t t' hstep)).2 h0,
    step_score_nonneg stored t t' (step_shape stored t t' hstep)⟩

/-- C29 (amended) after the first Start over the standard catalog with the
stored high score 900. -/
theorem C29_witness :
    ∃ t' : Tetris,
      dispatch 0 (new_tetris sampleCatalog) UserAction_t.Start false 900 [3, 4]
        = some (t', []) ∧
      t'.data.info.score ≤ t'.data.info.high_score ∧ 0 ≤ t'.data.info.high_score ∧
      0 ≤ t'.data.info.score := by
  obtain ⟨t', hstart, hreach, _, _, _⟩ := reachable_start 900
  have h := C29_high_score_dominates sampleCatalog 900 t' (by decide) hreach
  exact ⟨t', hstart, h.1, h.2.1,
    h.2.2.2 (ReachableBelow.step _ _ ReachableBelow.fresh (by decide)
      (Step.action 0 _ UserAction_t.Start false [3, 4] _ [] hstart))⟩

/-! ## The active piece stays painted -/

theorem mem_of_getElem?_some {α : Type} (l : List α) (i : Nat) (a : α) (h : l[i]? = some a) :
    a ∈ l := by
  rcases List.getElem?_eq_some_iff.mp h with ⟨hlt, he⟩
  rw [← he]
  exact List.getElem_mem hlt

theorem good_moveTo (b : Brick) (x y : Int) (h : GoodBrick b) : GoodBrick (b.moveTo x y) :=
  h

theorem good_fresh (b : Brick) (h : GoodBrick b) : GoodBrick b.fresh :=
  ⟨le_refl _, lt_of_le_of_lt h.1 h.2.1, h.2.2⟩

theorem good_next_state (b : Brick) (h : GoodBrick b) : GoodBrick (_next_state b) := by
  obtain ⟨h0, h1, h2⟩ := h
  unfold _next_state
  split
  · exact ⟨by simp only; omega, by simp only; assumption, h2⟩
  · exact ⟨le_refl _, lt_of_le_of_lt h0 h1, h2⟩

theorem good_hasCell (b : Brick) (h : GoodBrick b) :
    ∃ r c : Nat, r < 4 ∧ c < 4 ∧ b.mask r c ≠ 0 :=
  h.2.2 b.state h.1 h.2.1

theorem good_set (l : List Brick) (i : Nat) (b : Brick) (hl : ∀ x ∈ l, GoodBrick x)
    (hb : GoodBrick b) : ∀ x ∈ l.set i b, GoodBrick x := by
  intro x hx
  rcases List.mem_or_eq_of_mem_set hx with h | h
  · exact hl x h
  · rw [h]; exact hb

theorem good_handOut (l : List Brick) (k : Nat) (hl : ∀ x ∈ l, GoodBrick x) :
    ∀ x ∈ handOut l k, GoodBrick x := by
  unfold handOut
  cases hk : l[k]? with
  | none => exact hl
  | some b =>
    have hb : b ∈ l := mem_of_getElem?_some _ _ _ hk
    exact good_set l k b.fresh hl (good_fresh b (hl b hb))

theorem good_spawnItems (t : Tetris) (c k : Nat)
    (hl : ∀ x ∈ t.repository.items, GoodBrick x) :
    ∀ x ∈ spawnItems t c k, GoodBrick x := by
  unfold spawnItems
  cases t.data.next_brick with
  | none => exact good_handOut _ k (good_handOut _ c hl)
  | some j => exact good_handOut _ k hl

theorem erase_lines_loop_wf (fuel : Nat) :
    ∀ (m : Grid) (row cnt : Int) (e : Grid × Int), wfGrid m → row < 20 →
      erase_lines_loop fuel m row cnt = some e → wfGrid e.1 := by
  induction fuel with
  | zero =>
    intro m row cnt e _ _ h
    simp [erase_lines_loop] at h
  | succ f ih =>
    intro m row cnt e hm hrow h
    unfold erase_lines_loop at h
    by_cases hr : row ≥ 0
    · rw [if_pos hr] at h
      split at h
      · obtain ⟨k, rfl⟩ : ∃ k : Nat, row = (k : Int) := ⟨row.toNat, by omega⟩
        rw [shift_ereased_eq m hm k (by omega)] at h
        simp only [Option.bind] at h
        exact ih _ _ _ e (wfGrid_shifted m hm k (by omega)) (by omega) h
      · exact ih _ _ _ e hm (by omega) h
    · rw [if_neg hr] at h
      cases h
      exact hm

theorem inv_spawn_painted (p t' : Tetris) (rand rest : List Nat)
    (hgood : ∀ x ∈ p.repository.items, GoodBrick x) (hw : WfEngine p)
    (h : __spawn p rand = some (t', rest)) : PaintedInv t' := by
  obtain ⟨c, k, hd, _⟩ := spawn_some p rand t' rest h
  obtain ⟨t2, cb0, nb, h2, hcb, _, _, _, _, _, _, hrepo, _, _, _, _, hw', hG, hM⟩ :=
    spawn_spec p rand c k rest hw hd
  rw [h] at h2
  cases h2
  have hcbmem : cb0 ∈ spawnItems p c k := mem_of_getElem?_some _ _ _ hcb
  have hgs := good_spawnItems p c k hgood
  refine ⟨?_, hw', ?_, ?_⟩
  · rw [hrepo]
    exact good_set _ c _ hgs (good_moveTo cb0 5 0 (hgs cb0 hcbmem))
  · cases hcol : is_collide p.data.info.field (cb0.moveTo 5 0) with
    | true => rw [(hG hcol).1]; decide
    | false => rw [(hM hcol).1]; decide
  · intro hst
    cases hcol : is_collide p.data.info.field (cb0.moveTo 5 0) with
    | true =>
      rw [(hG hcol).1] at hst
      rcases hst with e | e <;> cases e
    | false => exact ⟨_, _, _, (hM hcol).2.2⟩

theorem inv_store_painted (t : Tetris) (s : Grid) (i : Nat) (b b' : Brick) (g : Grid)
    (ht : PaintedInv t) (h : Painted t s i b) (hb' : GoodBrick b')
    (hfree : is_collide s b' = false) (hg : place_brick s b' = some g) (hwf : wfGrid g) :
    PaintedInv (t.store i b' g) ∧ PaintedInv (t.store i b' g).attach := by
  have hgood : ∀ x ∈ (t.store i b' g).repository.items, GoodBrick x :=
    good_set _ i b' ht.good hb'
  have hw : WfEngine (t.store i b' g) :=
    ⟨hwf, ht.wf.next, fun j hj => by
      have := ht.wf.queued j hj
      simpa [Tetris.store] using this⟩
  exact ⟨⟨hgood, hw, ht.no_spawn, fun _ => ⟨s, i, b', painted_store t s i b b' g h hfree hg⟩⟩,
    ⟨hgood, ⟨hw.field, hw.next, hw.queued⟩, (fun e => by cases e),
      fun e => by rcases e with e | e <;> cases e⟩⟩

theorem inv_movedTo (t : Tetris) (s : Grid) (i : Nat) (b : Brick) (t' : Tetris)
    (ht : PaintedInv t) (h : Painted t s i b) (hm : MovedTo t s i t') : PaintedInv t' := by
  obtain ⟨b', g, e, hb', hfree, hg, hwf⟩ := hm
  obtain ⟨h1, h2⟩ := inv_store_painted t s i b b' g ht h hb' hfree hg hwf
  rcases e with e | e
  · rw [e]; exact h1
  · rw [e]; exact h2

theorem painted_moves (t : Tetris) (s : Grid) (i : Nat) (b : Brick)
    (h : Painted t s i b) (hb : GoodBrick b) :
    (∀ hold, ∃ t', _left t hold = some t' ∧ MovedTo t s i t') ∧
    (∀ hold, ∃ t', _right t hold = some t' ∧ MovedTo t s i t') ∧
    (∀ hold, ∃ t', _action t hold = some t' ∧ MovedTo t s i t') ∧
    (∀ fuel, ∃ t', _down fuel t false = some t' ∧ MovedTo t s i t') ∧
    (∀ fuel t', _down fuel t true = some t' → MovedTo t s i t') ∧
    (∀ fuel, 22 ≤ fuel → ∃ t', _down fuel t true = some t' ∧ MovedTo t s i t') := by
  have key : ∀ b' : Brick, GoodBrick b' → is_collide s b' = false →
      ∃ g, place_brick s b' = some g ∧ MovedTo t s i (t.store i b' g) ∧
        MovedTo t s i (t.store i b' g).attach := by
    intro b' hb' hfree
    obtain ⟨g, hg, hwf⟩ := place_of_free s b' h.settled hfree
    exact ⟨g, hg, ⟨b', g, Or.inl rfl, hb', hfree, hg, hwf⟩,
      ⟨b', g, Or.inr rfl, hb', hfree, hg, hwf⟩⟩
  refine ⟨?_, ?_, ?_, ?_, ?_, ?_⟩
  · intro hold
    rw [left_eval t s i b hold h]
    have hfree : is_collide s
        (if is_collide s (b.moveTo (b.pos.x - 1) b.pos.y) = true then b
          else b.moveTo (b.pos.x - 1) b.pos.y) = false := by
      split
      · exact h.free
      · simpa using ‹¬ is_collide s (b.moveTo (b.pos.x - 1) b.pos.y) = true›
    have hgood : GoodBrick
        (if is_collide s (b.moveTo (b.pos.x - 1) b.pos.y) = true then b
          else b.moveTo (b.pos.x - 1) b.pos.y) := by
      split
      · exact hb
      · exact good_moveTo b _ _ hb
    obtain ⟨g, hg, hf, _⟩ := key _ hgood hfree
    rw [hg]
    exact ⟨_, rfl, hf⟩
  · intro hold
    rw [right_eval t s i b hold h]
    have hfree : is_collide s
        (if is_collide s (b.moveTo (b.pos.x + 1) b.pos.y) = true then b
          else b.moveTo (b.pos.x + 1) b.pos.y) = false := by
      split
      · exact h.free
      · simpa using ‹¬ is_collide s (b.moveTo (b.pos.x + 1) b.pos.y) = true›
    have hgood : GoodBrick
        (if is_collide s (b.moveTo (b.pos.x + 1) b.pos.y) = true then b
          else b.moveTo (b.pos.x + 1) b.pos.y) := by
      split
      · exact hb
      · exact good_moveTo b _ _ hb
    obtain ⟨g, hg, hf, _⟩ := key _ hgood hfree
    rw [hg]
    exact ⟨_, rfl, hf⟩
  · intro hold
    rw [action_eval t s i b hold h]
    have hfree : is_collide s
        (if is_collide s (_next_state b) = true then _prev_state (_next_state b)
          else _next_state b) = false := by
      split
      · rw [prev_next_state b hb.1 hb.2.1]
        exact h.free
      · simpa using ‹¬ is_collide s (_next_state b) = true›
    have hgood : GoodBrick
        (if is_collide s (_next_state b) = true then _prev_state (_next_state b)
          else _next_state b) := by
      split
      · rw [prev_next_state b hb.1 hb.2.1]
        exact hb
      · exact good_next_state b hb
    obtain ⟨g, hg, hf, _⟩ := key _ hgood hfree
    rw [hg]
    exact ⟨_, rfl, hf⟩
  · intro fuel
    rw [down_soft_eval fuel t s i b h]
    split
    · obtain ⟨g, hg, _, hf⟩ := key b hb h.free
      rw [hg]
      exact ⟨_, rfl, hf⟩
    · have hfree : is_collide s (b.moveTo b.pos.x (b.pos.y + 1)) = false := by
        simpa using ‹¬ is_collide s (b.moveTo b.pos.x (b.pos.y + 1)) = true›
      obtain ⟨g, hg, hf, _⟩ := key _ (good_moveTo b _ _ hb) hfree
      rw [hg]
      exact ⟨_, rfl, hf⟩
  · intro fuel t' ht'
    have ht2 := ht'
    rw [down_hard_eval fuel t s i b h] at ht2
    cases hl : drop_loop fuel s b with
    | none => rw [hl] at ht2; cases ht2
    | some b' =>
      obtain ⟨m, hm, hb', hfree, hhit⟩ := drop_loop_some s fuel b b' hl
      have hpos : 0 < m := by
        rcases Nat.eq_zero_or_pos m with hz | hz
        · rw [hz, moveTo_zero, h.free] at hhit; cases hhit
        · exact hz
      obtain ⟨n, rfl⟩ : ∃ n, m = n + 1 := ⟨m - 1, by omega⟩
      have hfn := hfree n (by omega)
      obtain ⟨g, hg, _, hf⟩ := key _ (good_moveTo b _ _ hb) hfn
      rw [hard_drop_spec s i n t b fuel h hm (fun j hj => hfree j (by omega)) hhit g hg] at ht'
      cases ht'
      exact hf
  · intro fuel hfuel
    obtain ⟨n, hn, hfree, hhit⟩ := landing_exists s b (good_hasCell b hb) h.free
    obtain ⟨g, hg, _, hf⟩ := key _ (good_moveTo b _ _ hb) (hfree n (le_refl _))
    exact ⟨_, hard_drop_spec s i n t b fuel h (by omega) hfree hhit g hg, hf⟩

theorem start_kind (stored : Int) (t t' : Tetris) (rand rest : List Nat)
    (hst : t.state = TetriState.TETRIS_READY_STATE ∨
      t.state = TetriState.TETRIS_GAMEOVER_STATE)
    (h : _start t stored rand = some (t', rest)) : StepKind t t' := by
  unfold _start at h
  rcases hst with hst | hst
  · have hne : ¬ (_on_startup t stored).state = TetriState.TETRIS_GAMEOVER_STATE := by
      show ¬ t.state = _
      rw [hst]
      decide
    simp only [if_pos hst, if_neg hne, Option.bind] at h
    exact Or.inr (Or.inr (Or.inr ⟨_, rand, rest, h, rfl, rfl, rfl, fun hw => hw⟩))
  · have hne : ¬ t.state = TetriState.TETRIS_READY_STATE := by rw [hst]; decide
    simp only [if_neg hne, if_pos hst] at h
    cases hc : clear_tetris_fields t.data.info.field with
    | none => rw [hc] at h; cases h
    | some f =>
      rw [hc] at h
      simp only [Option.bind] at h
      refine Or.inr (Or.inr (Or.inr ⟨_, rand, rest, h, rfl, rfl, rfl, fun hw => ?_⟩))
      rw [clear_tetris_fields_eq _ hw] at hc
      cases hc
      exact (by decide : wfGrid emptyField)

theorem dispatch_kind (fuel : Nat) (t : Tetris) (a : UserAction_t) (hold : Bool)
    (stored : Int) (rand : List Nat) (t' : Tetris) (rest : List Nat)
    (h : dispatch fuel t a hold stored rand = some (t', rest)) : StepKind t t' := by
  have same : ∀ r : List Nat, some (t, r) = some (t', rest) → StepKind t t' := by
    intro r e
    cases e
    exact Or.inl ⟨t, Or.inl rfl, Or.inl rfl⟩
  have term : ∀ r : List Nat, some (_terminate t, r) = some (t', rest) → StepKind t t' := by
    intro r e
    cases e
    exact Or.inr (Or.inr (Or.inl rfl))
  have move : ∀ (o : Option Tetris) (r : List Nat),
      o.bind (fun d => some (d, r)) = some (t', rest) → o = some t' := by
    intro o r e
    cases o with
    | none => cases e
    | some d =>
      cases e
      rfl
  unfold dispatch at h
  cases hst : t.state with
  | TETRIS_READY_STATE =>
    rw [hst] at h
    cases a <;> simp only at h
    case Start => exact start_kind stored t t' rand rest (Or.inl hst) h
    case Terminate => exact term _ h
    all_goals exact same _ h
  | TETRIS_SPAWN_STATE =>
    rw [hst] at h
    cases a <;> simp only at h
    case Pause =>
      cases h
      exact Or.inr (Or.inl ⟨rfl, Or.inl hst⟩)
    case Terminate => exact term _ h
    all_goals exact same _ h
  | TETRIS_MOVING_STATE =>
    rw [hst] at h
    cases a <;> simp only at h
    case Start => exact same _ h
    case Pause =>
      cases h
      exact Or.inr (Or.inl ⟨rfl, Or.inr (Or.inl hst)⟩)
    case Terminate => exact term _ h
    case Left =>
      exact Or.inl ⟨t, Or.inl rfl, Or.inr ⟨hst, fuel, hold, Or.inl (move _ _ h)⟩⟩
    case Right =>
      exact Or.inl ⟨t, Or.inl rfl, Or.inr ⟨hst, fuel, hold, Or.inr (Or.inl (move _ _ h))⟩⟩
    case Up => exact same _ h
    case Action =>
      exact Or.inl ⟨t, Or.inl rfl,
        Or.inr ⟨hst, fuel, hold, Or.inr (Or.inr (Or.inl (move _ _ h)))⟩⟩
    case Down =>
      exact Or.inl ⟨t, Or.inl rfl,
        Or.inr ⟨hst, fuel, hold, Or.inr (Or.inr (Or.inr (move _ _ h)))⟩⟩
  | TETRIS_ATTACH_STATE =>
    rw [hst] at h
    exact same _ h
  | TETRIS_GAMEOVER_STATE =>
    rw [hst] at h
    cases a <;> simp only at h
    case Start => exact start_kind stored t t' rand rest (Or.inr hst) h
    case Terminate => exact term _ h
    all_goals exact same _ h
  | TETRIS_PAUSE_STATE =>
    rw [hst] at h
    cases a <;> simp only at h
    case Start =>
      cases h
      exact Or.inr (Or.inl ⟨rfl, Or.inr (Or.inr hst)⟩)
    case Pause =>
      cases h
      exact Or.inr (Or.inl ⟨rfl, Or.inr (Or.inr hst)⟩)
    case Terminate => exact term _ h
    all_goals exact same _ h
  | TETRIS_TERMINATED_STATE =>
    rw [hst] at h
    exact same _ h

theorem tick_kind (fuel : Nat) (t : Tetris) (is_ticked : Bool) (speed : Int)
    (rand : List Nat) (t' : Tetris) (rest : List Nat)
    (h : __tick fuel t is_ticked speed rand = some (t', rest)) : StepKind t t' := by
  have hidle : ∀ r : List Nat,
      some (t.withLevelSpeed (toInt (get_level_by_score t.data.info.score)) speed, r)
        = some (t', rest) → StepKind t t' := by
    intro r e
    cases e
    exact Or.inl ⟨_, Or.inr ⟨_, _, rfl⟩, Or.inl rfl⟩
  by_cases hm : t.state = TetriState.TETRIS_MOVING_STATE
  · cases is_ticked with
    | true =>
      have key : __tick fuel t true speed rand
          = (_down fuel (t.withLevelSpeed (toInt (get_level_by_score t.data.info.score)) speed)
              false).bind (fun d => some (d, rand)) := by
        unfold __tick Tetris.withLevelSpeed
        simp only [hm, decide_True, Bool.and_self, if_true]
      rw [key] at h
      cases hd : _down fuel
          (t.withLevelSpeed (toInt (get_level_by_score t.data.info.score)) speed) false with
      | none => rw [hd] at h; cases h
      | some d =>
        rw [hd] at h
        cases h
        exact Or.inl ⟨_, Or.inr ⟨_, _, rfl⟩,
          Or.inr ⟨hm, fuel, false, Or.inr (Or.inr (Or.inr hd))⟩⟩
    | false =>
      rw [tick_moving_idle fuel t speed rand hm] at h
      exact hidle _ h
  · by_cases ha : t.state = TetriState.TETRIS_ATTACH_STATE
    · rw [tick_attach_eval fuel t is_ticked speed rand ha] at h
      cases he : erase_lines fuel t.data.info.field with
      | none => rw [he] at h; cases h
      | some e =>
        rw [he] at h
        simp only [Option.bind] at h
        refine Or.inr (Or.inr (Or.inr ⟨_, rand, rest, h, rfl, rfl, rfl, fun hw => ?_⟩))
        exact erase_lines_loop_wf fuel _ _ _ e hw (by decide) he
    · have key : __tick fuel t is_ticked speed rand
          = some (t.withLevelSpeed (toInt (get_level_by_score t.data.info.score)) speed,
              rand) := by
        unfold __tick Tetris.withLevelSpeed
        cases is_ticked <;>
          simp only [hm, ha, decide_False, Bool.and_false, Bool.false_and, Bool.false_eq_true,
            if_false]
      rw [key] at h
      exact hidle _ h

theorem step_kind (stored : Int) (t t' : Tetris) (h : Step stored t t') : StepKind t t' := by
  cases h with
  | action fuel _ a hold rand _ rest h =>
    exact dispatch_kind fuel t a hold stored rand t' rest h
  | tick fuel _ is_ticked speed rand _ rest h =>
    exact tick_kind fuel t is_ticked speed rand t' rest h

theorem step_painted (t t' : Tetris) (ht : PaintedInv t) (h : StepKind t t') :
    PaintedInv t' := by
  rcases h with ⟨t0, ht0, hmove⟩ | ⟨e, hst⟩ | e | ⟨p, rand, rest, hsp, hrepo, hnext, hprev, hf⟩
  · have h0 : PaintedInv t0 ∧ t0.state = t.state ∧
        ∀ s i b, Painted t s i b → Painted t0 s i b := by
      rcases ht0 with e | ⟨l, sp, e⟩
      · subst e
        exact ⟨ht, rfl, fun _ _ _ hp => hp⟩
      · subst e
        refine ⟨⟨ht.good, ⟨ht.wf.field, ht.wf.next, ht.wf.queued⟩, ht.no_spawn, ?_⟩, rfl,
          fun s i b hp => painted_withLevelSpeed t s i b l sp hp⟩
        intro hst
        obtain ⟨s, i, b, hp⟩ := ht.painted hst
        exact ⟨s, i, b, painted_withLevelSpeed t s i b l sp hp⟩
    obtain ⟨hinv0, hst0, hp0⟩ := h0
    rcases hmove with e | ⟨hm, fuel, hold, hop⟩
    · subst e
      exact hinv0
    · obtain ⟨s, i, b, hp⟩ := ht.painted (Or.inl hm)
      have hpt0 := hp0 s i b hp
      have hb : GoodBrick b := hinv0.good b (mem_of_getElem?_some _ _ _ hpt0.brick)
      obtain ⟨m1, m2, m3, m4, m5, _⟩ := painted_moves t0 s i b hpt0 hb
      have hmoved : MovedTo t0 s i t' := by
        rcases hop with e | e | e | e
        · obtain ⟨t1, h1, hm1⟩ := m1 hold
          rw [e] at h1
          cases h1
          exact hm1
        · obtain ⟨t1, h1, hm1⟩ := m2 hold
          rw [e] at h1
          cases h1
          exact hm1
        · obtain ⟨t1, h1, hm1⟩ := m3 hold
          rw [e] at h1
          cases h1
          exact hm1
        · cases hold with
          | false =>
            obtain ⟨t1, h1, hm1⟩ := m4 fuel
            rw [e] at h1
            cases h1
            exact hm1
          | true => exact m5 fuel t' e
      exact inv_movedTo t0 s i b t' hinv0 hpt0 hmoved
  · subst e
    have hkeep : ∀ s i b, Painted t s i b → Painted (_pause t) s i b := by
      intro s i b hp
      unfold _pause
      split
      · exact ⟨hp.current, hp.brick, hp.settled, hp.free, hp.painted⟩
      · exact ⟨hp.current, hp.brick, hp.settled, hp.free, hp.painted⟩
    have hpt : ∃ s i b, Painted t s i b := by
      rcases hst with hst | hst | hst
      · exact absurd hst ht.no_spawn
      · exact ht.painted (Or.inl hst)
      · exact ht.painted (Or.inr hst)
    obtain ⟨s, i, b, hp⟩ := hpt
    have hp' := hkeep s i b hp
    refine ⟨?_, ?_, ?_, fun _ => ⟨s, i, b, hp'⟩⟩
    · unfold _pause
      split <;> exact ht.good
    · unfold _pause
      split <;> exact ⟨ht.wf.field, ht.wf.next, ht.wf.queued⟩
    · unfold _pause
      split <;> exact (fun e => by cases e)
  · subst e
    exact ⟨ht.good, ⟨ht.wf.field, ht.wf.next, ht.wf.queued⟩, (fun e => by cases e),
      fun e => by rcases e with e | e <;> cases e⟩
  · refine inv_spawn_painted p t' rand rest ?_ ⟨hf ht.wf.field, ?_, ?_⟩ hsp
    · rw [hrepo]
      exact ht.good
    · rw [hprev]
      exact ht.wf.next
    · rw [hnext, hrepo]
      exact ht.wf.queued

theorem painted_fresh (repo : TetrisBrickRepository)
    (hgood : ∀ x ∈ repo.items, GoodBrick x) : PaintedInv (new_tetris repo) :=
  ⟨hgood,
    ⟨(by decide : wfGrid (create_matrix 20 10)), (by decide : dimGrid 4 4 (create_matrix 4 4)),
      fun j hj => by cases hj⟩,
    (fun e => by cases e), fun e => by rcases e with e | e <;> cases e⟩

theorem reachable_painted (repo : TetrisBrickRepository) (stored : Int) (t : Tetris)
    (hgood : ∀ x ∈ repo.items, GoodBrick x) (h : Reachable repo stored t) :
    PaintedInv t := by
  induction h with
  | fresh => exact painted_fresh repo hgood
  | step t t' _ hstep ih => exact step_painted t t' ih (step_kind stored t t' hstep)

/-! ## Grid accesses stay in bounds -/

theorem catalog_good : ∀ b ∈ catalogBricks, GoodBrick b := by
  have D : ∀ b ∈ catalogBricks, b.state = 0 ∧ 0 < b.total_states ∧ b.total_states ≤ 4 ∧
      ∀ n ∈ List.range 4, ((n : Nat) : Int) < b.total_states →
        ({ b with state := ((n : Nat) : Int) } : Brick).mask 1 2 ≠ 0 := by
    decide
  intro b hb
  obtain ⟨d1, d2, d3, d4⟩ := D b hb
  refine ⟨by rw [d1], by rw [d1]; exact d2, ?_⟩
  intro st h0 h1
  obtain ⟨n, rfl⟩ : ∃ n : Nat, st = (n : Int) := ⟨st.toNat, by omega⟩
  exact ⟨1, 2, by decide, by decide, d4 n (List.mem_range.mpr (by omega)) h1⟩

/-- C26: over a repository of good bricks (rotation index in range, every mask
with an occupied cell, as the standard and custom bricks are), in every engine
state reachable from the fresh engine by dispatched actions and ticks the field
is 20x10, and when the phase is MOVING or PAUSE the active piece is present
and painted: each of its occupied cells is inside the field and holds its
colour, over settled cells it does not overlap.  Consequently no write of
`place_brick` or `remove_brick` leaves the field: Left, Right, Action and Down
with hold = false return, Down with hold = true returns with fuel for 22
iterations, and the spawn returns on every random stream on which the draws
end, also inside the tick of phase ATTACH. -/
theorem C26_grid_accesses_in_bounds (repo : TetrisBrickRepository) (stored : Int)
    (t : Tetris) (hgood : ∀ x ∈ repo.items, GoodBrick x) (h : Reachable repo stored t) :
    wfGrid t.data.info.field ∧
    ((t.state = TetriState.TETRIS_MOVING_STATE ∨ t.state = TetriState.TETRIS_PAUSE_STATE) →
      ∃ s i b, t.data.current_brick = some i ∧ t.brickAt i = some b ∧
        wfGrid s ∧ place_brick s b = some t.data.info.field ∧
        remove_brick t.data.info.field b = some s ∧
        (∀ p ∈ brickCells b,
          inField p ∧ cell t.data.info.field p.1 p.2 = b.color ∧ cell s p.1 p.2 = 0) ∧
        (∀ hold, (∃ t', _left t hold = some t') ∧ (∃ t', _right t hold = some t') ∧
          (∃ t', _action t hold = some t')) ∧
        (∀ fuel, ∃ t', _down fuel t false = some t') ∧
        (∀ fuel, 22 ≤ fuel → ∃ t', _down fuel t true = some t')) ∧
    (∀ (rand : List Nat) (c k : Nat) (rest : List Nat), SpawnDraw t rand c k rest →
      (∃ t', __spawn t rand = some (t', rest)) ∧
      (t.state = TetriState.TETRIS_ATTACH_STATE →
        ∀ (fuel : Nat) (is_ticked : Bool) (speed : Int), 41 ≤ fuel →
          ∃ t', __tick fuel t is_ticked speed rand = some (t', rest))) := by
  have ht := reachable_painted repo stored t hgood h
  refine ⟨ht.wf.field, ?_, ?_⟩
  · intro hst
    obtain ⟨s, i, b, hp⟩ := ht.painted hst
    have hb : GoodBrick b := ht.good b (mem_of_getElem?_some _ _ _ hp.brick)
    obtain ⟨m1, m2, m3, m4, _, m6⟩ := painted_moves t s i b hp hb
    have hfree := (is_collide_false_iff s b).mp hp.free
    have hcol := ((painted_iff_cells t i b hp.current hp.brick).mp ⟨s, hp⟩).2
    refine ⟨s, i, b, hp.current, hp.brick, hp.settled, hp.painted,
      remove_place_brick s _ b hp.settled hp.free hp.painted, ?_, ?_, ?_, ?_⟩
    · intro p hpm
      exact ⟨(hcol p hpm).1, (hcol p hpm).2, (hfree p hpm).2⟩
    · intro hold
      obtain ⟨a1, e1, _⟩ := m1 hold
      obtain ⟨a2, e2, _⟩ := m2 hold
      obtain ⟨a3, e3, _⟩ := m3 hold
      exact ⟨⟨a1, e1⟩, ⟨a2, e2⟩, ⟨a3, e3⟩⟩
    · intro fuel
      obtain ⟨a, e, _⟩ := m4 fuel
      exact ⟨a, e⟩
    · intro fuel hfuel
      obtain ⟨a, e, _⟩ := m6 fuel hfuel
      exact ⟨a, e⟩
  · intro rand c k rest hd
    constructor
    · obtain ⟨t', _, _, h1, _⟩ := spawn_spec t rand c k rest ht.wf hd
      exact ⟨t', h1⟩
    · intro hst fuel is_ticked speed hfuel
      obtain ⟨t', h1, _⟩ :=
        tick_attach_spec fuel t is_ticked speed rand c k rest hst ht.wf hfuel hd
      exact ⟨t', h1⟩

/-- C26 after the first Start over the standard catalog: the active piece is
painted and Left returns. -/
theorem C26_witness :
    ∃ t' : Tetris,
      dispatch 0 (new_tetris sampleCatalog) UserAction_t.Start false 0 [3, 4]
        = some (t', []) ∧
      wfGrid t'.data.info.field ∧
      ∃ s i b, t'.data.current_brick = some i ∧ t'.brickAt i = some b ∧
        place_brick s b = some t'.data.info.field ∧ ∃ t2, _left t' false = some t2 := by
  obtain ⟨t', hstart, hreach, hmov, _, _⟩ := reachable_start 0
  have hc := C26_grid_accesses_in_bounds sampleCatalog 0 t'
    (fun x hx => catalog_good x ((by decide : ∀ y ∈ sampleCatalog.items, y ∈ catalogBricks) x hx))
    hreach
  obtain ⟨s, i, b, h1, h2, _, h4, _, _, h7, _⟩ := hc.2.1 (Or.inl hmov)
  exact ⟨t', hstart, hc.1, s, i, b, h1, h2, h4, (h7 false).1⟩

/-! ## A play that wraps the score -/

theorem tick_attach_brick (fuel : Nat) (t : Tetris) (is_ticked : Bool) (speed : Int)
    (rand : List Nat) (c k : Nat) (rest : List Nat)
    (hstate : t.state = TetriState.TETRIS_ATTACH_STATE) (hw : WfEngine t)
    (hfuel : 41 ≤ fuel) (hd : SpawnDraw t rand c k rest) :
    ∃ (t' : Tetris) (cb0 : Brick),
      __tick fuel t is_ticked speed rand = some (t', rest) ∧
      (spawnItems t c k)[c]? = some cb0 ∧
      t'.data.info.score
        = add_reward t.data.info.score
            (get_reward_count ((t.data.info.field.countP fullRow : Nat) : Int)) ∧
      t'.data.next_brick = some k ∧
      (is_collide
          (List.replicate (t.data.info.field.countP fullRow) zeroRow
            ++ t.data.info.field.filter (fun r => !fullRow r)) (cb0.moveTo 5 0) = false →
        t'.state = TetriState.TETRIS_MOVING_STATE ∧
        Painted t'
          (List.replicate (t.data.info.field.countP fullRow) zeroRow
            ++ t.data.info.field.filter (fun r => !fullRow r)) c (cb0.moveTo 5 0)) := by
  rw [tick_attach_eval fuel t is_ticked speed rand hstate,
    erase_lines_eq t.data.info.field hw.field fuel hfuel]
  simp only [Option.bind]
  obtain ⟨t', cb0, _, h1, hcb, _, hnext, _, _, _, _, _, hs, _, _, _, _, _, hM⟩ :=
    spawn_spec
      { t with
        data := { t.data with
          info := { t.data.info with
            field := List.replicate (t.data.info.field.countP fullRow) zeroRow
              ++ t.data.info.field.filter (fun r => !fullRow r)
            score := add_reward t.data.info.score
              (get_reward_count ((t.data.info.field.countP fullRow : Nat) : Int))
            high_score :=
              if add_reward t.data.info.score
                  (get_reward_count ((t.data.info.field.countP fullRow : Nat) : Int))
                  > t.data.info.high_score then
                add_reward t.data.info.score
                  (get_reward_count ((t.data.info.field.countP fullRow : Nat) : Int))
              else t.data.info.high_score
            level := toInt (get_level_by_score t.data.info.score)
            speed := speed } } }
      rand c k rest
      (WfEngine.mk (erased_wf t.data.info.field hw.field) hw.next hw.queued) hd
  exact ⟨t', cb0, h1, hcb, hs, hnext, fun hfree => ⟨(hM hfree).1, (hM hfree).2.2⟩⟩

theorem get_random_loop_one (last : Int) (r : Nat) (rest : List Nat) :
    get_random_loop 1 last (r :: rest) = some (((0 : Nat) : Int), rest) := by
  simp [get_random_loop, Nat.mod_one]

theorem square_good : ∀ x ∈ squareCatalog.items, GoodBrick x :=
  fun x hx => catalog_good x ((by decide : ∀ y ∈ squareCatalog.items, y ∈ catalogBricks) x hx)

theorem at_left (stored : Int) (s : Grid) (x x' : Int) (sc : Int) (t : Tetris)
    (h : AtSquare stored s x sc t) (hx : x' = x - 1)
    (hfree : is_collide s (brickO.moveTo x' 0) = false) :
    ∃ t', AtSquare stored s x' sc t' := by
  obtain ⟨hr, hst, hp, hn, hsc⟩ := h
  subst hx
  obtain ⟨g, hg, _⟩ := place_of_free s _ hp.settled hfree
  have hleft : _left t false = some (t.store 0 (brickO.moveTo (x - 1) 0) g) := by
    rw [left_eval t s 0 _ false hp]
    have hc : ¬ is_collide s
        ((brickO.moveTo x 0).moveTo ((brickO.moveTo x 0).pos.x - 1) (brickO.moveTo x 0).pos.y)
        = true := by
      show ¬ is_collide s (brickO.moveTo (x - 1) 0) = true
      rw [hfree]
      decide
    rw [if_neg hc]
    show (place_brick s (brickO.moveTo (x - 1) 0)).bind _ = _
    rw [hg]
    rfl
  have hd : dispatch 0 t UserAction_t.Left false stored []
      = some (t.store 0 (brickO.moveTo (x - 1) 0) g, []) := by
    unfold dispatch
    rw [hst]
    show (_left t false).bind _ = _
    rw [hleft]
    rfl
  exact ⟨_, Reachable.step _ _ hr (Step.action 0 _ UserAction_t.Left false [] _ [] hd), hst,
    painted_store t s 0 _ _ g hp hfree hg, hn, hsc⟩

theorem at_right (stored : Int) (s : Grid) (x x' : Int) (sc : Int) (t : Tetris)
    (h : AtSquare stored s x sc t) (hx : x' = x + 1)
    (hfree : is_collide s (brickO.moveTo x' 0) = false) :
    ∃ t', AtSquare stored s x' sc t' := by
  obtain ⟨hr, hst, hp, hn, hsc⟩ := h
  subst hx
  obtain ⟨g, hg, _⟩ := place_of_free s _ hp.settled hfree
  have hright : _right t false = some (t.store 0 (brickO.moveTo (x + 1) 0) g) := by
    rw [right_eval t s 0 _ false hp]
    have hc : ¬ is_collide s
        ((brickO.moveTo x 0).moveTo ((brickO.moveTo x 0).pos.x + 1) (brickO.moveTo x 0).pos.y)
        = true := by
      show ¬ is_collide s (brickO.moveTo (x + 1) 0) = true
      rw [hfree]
      decide
    rw [if_neg hc]
    show (place_brick s (brickO.moveTo (x + 1) 0)).bind _ = _
    rw [hg]
    rfl
  have hd : dispatch 0 t UserAction_t.Right false stored []
      = some (t.store 0 (brickO.moveTo (x + 1) 0) g, []) := by
    unfold dispatch
    rw [hst]
    show (_right t false).bind _ = _
    rw [hright]
    rfl
  exact ⟨_, Reachable.step _ _ hr (Step.action 0 _ UserAction_t.Right false [] _ [] hd), hst,
    painted_store t s 0 _ _ g hp hfree hg, hn, hsc⟩

theorem at_drop_tick (stored : Int) (s : Grid) (x : Int) (sc : Int) (t : Tetris)
    (h : AtSquare stored s x sc t)
    (hfree : ∀ j : Nat, j ≤ 18 → is_collide s (brickO.moveTo x (0 + (j : Int))) = false)
    (hhit : is_collide s (brickO.moveTo x (0 + ((18 + 1 : Nat) : Int))) = true)
    (g : Grid) (hg : place_brick s (brickO.moveTo x (0 + ((18 : Nat) : Int))) = some g)
    (n : Nat) (hn : g.countP fullRow = n)
    (e : Grid) (he : List.replicate n zeroRow ++ g.filter (fun r => !fullRow r) = e)
    (hspawn : is_collide e (brickO.moveTo 5 0) = false) :
    ∃ t', AtSquare stored e 5 (add_reward sc (get_reward_count ((n : Nat) : Int))) t' := by
  obtain ⟨hr, hst, hp, hnext, hsc⟩ := h
  have hdown : _down 22 t true
      = some (t.store 0 (brickO.moveTo x (0 + ((18 : Nat) : Int))) g).attach :=
    hard_drop_spec s 0 18 t (brickO.moveTo x 0) 22 hp (by decide) hfree hhit g hg
  have hd : dispatch 22 t UserAction_t.Down true stored []
      = some ((t.store 0 (brickO.moveTo x (0 + ((18 : Nat) : Int))) g).attach, []) := by
    unfold dispatch
    rw [hst]
    show (_down 22 t true).bind _ = _
    rw [hdown]
    rfl
  have hrd : Reachable squareCatalog stored
      (t.store 0 (brickO.moveTo x (0 + ((18 : Nat) : Int))) g).attach :=
    Reachable.step _ _ hr (Step.action 22 _ UserAction_t.Down true [] _ [] hd)
  have hinv := reachable_inv squareCatalog stored _ hrd
  have hpinv := reachable_painted squareCatalog stored _ square_good hrd
  have hlen : (t.store 0 (brickO.moveTo x (0 + ((18 : Nat) : Int))) g).attach.repository.items.length
      = 1 := hinv.len
  have hdraw : SpawnDraw (t.store 0 (brickO.moveTo x (0 + ((18 : Nat) : Int))) g).attach
      [0] 0 0 [] := by
    refine Or.inl ⟨hnext, ?_⟩
    rw [hlen]
    exact get_random_loop_one _ 0 []
  obtain ⟨t', cb0, htick, hcb, hscore, hnext', hM⟩ :=
    tick_attach_brick 41 (t.store 0 (brickO.moveTo x (0 + ((18 : Nat) : Int))) g).attach
      false 0 [0] 0 0 [] rfl hpinv.wf (le_refl 41) hdraw
  have hb : (t.store 0 (brickO.moveTo x (0 + ((18 : Nat) : Int))) g).attach.repository.items[0]?
      = some (brickO.moveTo x (0 + ((18 : Nat) : Int))) :=
    (painted_store t s 0 _ _ g hp (hfree 18 (le_refl _)) hg).brick
  have hcur := spawn_current (t.store 0 (brickO.moveTo x (0 + ((18 : Nat) : Int))) g).attach
    0 0 (brickO.moveTo x (0 + ((18 : Nat) : Int))) cb0 (Or.inr hnext) hb (fun _ => rfl) hcb
  have hbrick : (brickO.moveTo x (0 + ((18 : Nat) : Int))).fresh.moveTo 5 0
      = brickO.moveTo 5 0 := rfl
  rw [hbrick] at hcur
  rw [hcur] at hM
  have hfield : (t.store 0 (brickO.moveTo x (0 + ((18 : Nat) : Int))) g).attach.data.info.field
      = g := rfl
  rw [hfield, hn, he] at hM
  rw [hfield, hn] at hscore
  obtain ⟨hmov, hpaint⟩ := hM hspawn
  refine ⟨t', Reachable.step _ _ hrd (Step.tick 41 _ false 0 [0] _ [] htick), hmov, hpaint,
    hnext', ?_⟩
  rw [hscore]
  show add_reward t.data.info.score _ = _
  rw [hsc]

theorem at_score (stored : Int) (s : Grid) (x : Int) (sc sc' : Int) (t : Tetris)
    (h : AtSquare stored s x sc t) (e : sc = sc') : AtSquare stored s x sc' t := by
  subst e
  exact h

set_option maxRecDepth 100000 in
theorem square_cycle (stored : Int) (sc : Int) (t : Tetris)
    (h : AtSquare stored emptyField 5 sc t) (hlo : -(2 ^ 31) ≤ sc) (hhi : sc < 2 ^ 31) :
    ∃ t', AtSquare stored emptyField 5 (toInt (sc + 300)) t' := by
  have r0 : add_reward sc (get_reward_count ((0 : Nat) : Int)) = sc := by
    have : get_reward_count ((0 : Nat) : Int) = 0 := by decide
    rw [this]
    unfold add_reward toInt toSizeT
    omega
  have r2 : add_reward sc (get_reward_count ((2 : Nat) : Int)) = toInt (sc + 300) := by
    have : get_reward_count ((2 : Nat) : Int) = 300 := by decide
    rw [this, add_reward_eq]
  -- first brick: to the left wall
  obtain ⟨a1, h1⟩ := at_left stored _ 5 4 sc t h (by decide) (by decide)
  obtain ⟨a2, h2⟩ := at_left stored _ 4 3 sc a1 h1 (by decide) (by decide)
  obtain ⟨a3, h3⟩ := at_left stored _ 3 2 sc a2 h2 (by decide) (by decide)
  obtain ⟨a4, h4⟩ := at_left stored _ 2 1 sc a3 h3 (by decide) (by decide)
  obtain ⟨b1, k1⟩ := at_drop_tick stored emptyField 1 sc a4 h4 (by decide) (by decide)
    (squaresField 1) (by decide) 0 (by decide) (squaresField 1) (by decide) (by decide)
  have k1 := at_score stored _ 5 _ sc b1 k1 r0
  -- second brick
  obtain ⟨a5, h5⟩ := at_left stored _ 5 4 sc b1 k1 (by decide) (by decide)
  obtain ⟨a6, h6⟩ := at_left stored _ 4 3 sc a5 h5 (by decide) (by decide)
  obtain ⟨b2, k2⟩ := at_drop_tick stored (squaresField 1) 3 sc a6 h6 (by decide) (by decide)
    (squaresField 2) (by decide) 0 (by decide) (squaresField 2) (by decide) (by decide)
  have k2 := at_score stored _ 5 _ sc b2 k2 r0
  -- third brick: straight down
  obtain ⟨b3, k3⟩ := at_drop_tick stored (squaresField 2) 5 sc b2 k2 (by decide) (by decide)
    (squaresField 3) (by decide) 0 (by decide) (squaresField 3) (by decide) (by decide)
  have k3 := at_score stored _ 5 _ sc b3 k3 r0
  -- fourth brick
  obtain ⟨a7, h7⟩ := at_right stored _ 5 6 sc b3 k3 (by decide) (by decide)
  obtain ⟨a8, h8⟩ := at_right stored _ 6 7 sc a7 h7 (by decide) (by decide)
  obtain ⟨b4, k4⟩ := at_drop_tick stored (squaresField 3) 7 sc a8 h8 (by decide) (by decide)
    (squaresField 4) (by decide) 0 (by decide) (squaresField 4) (by decide) (by decide)
  have k4 := at_score stored _ 5 _ sc b4 k4 r0
  -- fifth brick: to the right wall, two rows are full
  obtain ⟨a9, h9⟩ := at_right stored _ 5 6 sc b4 k4 (by decide) (by decide)
  obtain ⟨a10, h10⟩ := at_right stored _ 6 7 sc a9 h9 (by decide) (by decide)
  obtain ⟨a11, h11⟩ := at_right stored _ 7 8 sc a10 h10 (by decide) (by decide)
  obtain ⟨a12, h12⟩ := at_right stored _ 8 9 sc a11 h11 (by decide) (by decide)
  obtain ⟨b5, k5⟩ := at_drop_tick stored (squaresField 4) 9 sc a12 h12 (by decide) (by decide)
    (squaresField 5) (by decide) 2 (by decide) emptyField (by decide) (by decide)
  exact ⟨b5, at_score stored _ 5 _ _ b5 k5 r2⟩

theorem square_start (stored : Int) : ∃ t, AtSquare stored emptyField 5 0 t := by
  obtain ⟨t', b, hstart, hmov, _, hnext, hb, _, hp, hsc, _⟩ :=
    start_fresh_spec squareCatalog 0 false stored [0, 0] 0 0 [0] [] (by decide) (by decide)
      (by decide)
  have hbO : b = brickO := by
    have : squareCatalog.items[0]? = some brickO := by decide
    rw [this] at hb
    cases hb
    rfl
  subst hbO
  exact ⟨t', Reachable.step _ _ Reachable.fresh
    (Step.action 0 _ UserAction_t.Start false [0, 0] _ [] hstart), hmov, hp, hnext, hsc⟩

theorem square_play (stored : Int) :
    ∀ n : Nat, ∃ t, AtSquare stored emptyField 5 (toInt (300 * (n : Int))) t := by
  intro n
  induction n with
  | zero =>
    obtain ⟨t, h⟩ := square_start stored
    exact ⟨t, at_score stored _ 5 _ _ t h (by decide)⟩
  | succ n ih =>
    obtain ⟨t, h⟩ := ih
    obtain ⟨t', h'⟩ := square_cycle stored _ t h
      (by unfold toInt; omega) (by unfold toInt; omega)
    refine ⟨t', at_score stored _ 5 _ _ t' h' ?_⟩
    unfold toInt
    push_cast
    omega

/-- C29 as stated fails over a catalog with the O brick alone, with the stored
high score 0: five O bricks dropped side by side fill two rows, which the next
tick erases for 300 points with the field empty again; after 7158279 such
rounds the sum 2147483700 is stored back as `int` and the reachable engine
state has the score -2147483596, which is negative. -/
theorem C29_score_wraps_negative :
    (0 : Int) ≤ 0 ∧
    ∃ t, Reachable squareCatalog 0 t ∧ t.data.info.score = -2147483596 ∧
      ¬ 0 ≤ t.data.info.score := by
  refine ⟨le_refl _, ?_⟩
  obtain ⟨t, hr, _, _, _, hsc⟩ := square_play 0 7158279
  have e : toInt (300 * ((7158279 : Nat) : Int)) = -2147483596 := by decide
  rw [e] at hsc
  refine ⟨t, hr, hsc, ?_⟩
  rw [hsc]
  decide

end BrickGame
